import Mathlib

/-!
# The audioscrobbler submission plugin (`modules/misc/audioscrobbler.c`)

A shallow embedding of the plugin's state and operations, followed by the
properties established about them.

Conventions of the embedding.

* A C string is the list of the characters that precede its terminating NUL;
  a `char *` that may be `NULL` is an `Option (List Char)`.
* A pointer whose memory has been freed without being set to `NULL` keeps its
  `some` value; that it dangles is recorded next to it (`psz_a_freed`), and
  `b_undefined` records that freed memory has been read or freed again.
* `mtime_t` (64-bit, microseconds), `time_t` and `int` values are `Int`; a
  value stored into an `int` from a wider type goes through `to_int`;
  `unsigned int` is a `Nat` whose arithmetic is reduced modulo `2 ^ 32`
  wherever the C code computes in that type.
* The results of the outside world (the clocks `mdate()` and `time()`, the
  configuration, the network) are explicit arguments.
* Allocation is taken to succeed.
-/

namespace Audioscrobbler

/-! ## Data model -/

/-- Number of slots of the submission queue: `#define QUEUE_MAX 50`. -/
def QUEUE_MAX : Nat := 50

/-- Metadata of one song, `audioscrobbler_song_t`. -/
structure audioscrobbler_song_t where
  /-- track artist -/
  psz_a : Option (List Char)
  /-- track title -/
  psz_t : Option (List Char)
  /-- track album -/
  psz_b : Option (List Char)
  /-- track number -/
  psz_n : Option (List Char)
  /-- track length, in seconds -/
  i_l : Int
  /-- musicbrainz id -/
  psz_m : Option (List Char)
  /-- date since epoch, as returned by `time()` -/
  date : Int
deriving DecidableEq, Repr

/-- The plugin state, `struct intf_sys_t`.  The array `p_queue[QUEUE_MAX]` is a
map from slot index to slot content; only the slots below `i_songs` are in use.
The mutex carries no data and is left out. -/
structure intf_sys_t where
  /-- songs not submitted yet -/
  p_queue : Nat → audioscrobbler_song_t
  /-- number of songs -/
  i_songs : Nat
  /-- when can we send data -/
  next_exchange : Int
  /-- waiting interval (an `unsigned int`) -/
  i_interval : Nat
  /-- where to submit data -/
  psz_submit_host : Option (List Char)
  /-- port to which submit -/
  i_submit_port : Int
  /-- file to which submit -/
  psz_submit_file : Option (List Char)
  /-- are we authenticated ? -/
  b_handshaked : Bool
  /-- authentication token, `char psz_auth_token[33]` -/
  psz_auth_token : List Char
  /-- song being played -/
  p_current_song : audioscrobbler_song_t
  /-- time when vlc paused -/
  time_pause : Int
  /-- total time in pause -/
  time_total_pauses : Int
  /-- do we have to submit ? -/
  b_submit : Bool
  /-- if we registered the "state" callback -/
  b_state_cb : Bool
  /-- if we read the song's metadata already -/
  b_meta_read : Bool
  /-- not a member of the C structure: `p_current_song.psz_a` points to memory
  that has been freed -/
  psz_a_freed : Bool
  /-- not a member of the C structure: memory that had been freed has been
  read or freed again, after which the behaviour of the program is undefined -/
  b_undefined : Bool

/-- A song whose bytes are all zero, as `calloc` leaves it. -/
def zero_song : audioscrobbler_song_t :=
  { psz_a := none, psz_t := none, psz_b := none, psz_n := none, i_l := 0,
    psz_m := none, date := 0 }

/-- The state allocated by `Open`: `calloc( 1, sizeof( intf_sys_t ) )`. -/
def Open : intf_sys_t :=
  { p_queue := fun _ => zero_song, i_songs := 0, next_exchange := 0,
    i_interval := 0, psz_submit_host := none, i_submit_port := 0,
    psz_submit_file := none, b_handshaked := false, psz_auth_token := [],
    p_current_song := zero_song, time_pause := 0, time_total_pauses := 0,
    b_submit := false, b_state_cb := false, b_meta_read := false,
    psz_a_freed := false, b_undefined := false }

/-- The songs waiting in the queue, oldest first: slots `0 .. i_songs - 1`. -/
def queued (p_sys : intf_sys_t) : List audioscrobbler_song_t :=
  (List.range p_sys.i_songs).map p_sys.p_queue

/-! ## `HandleInterval` -/

/-- Modulus of `unsigned int` arithmetic. -/
def UINT_MOD : Nat := 2 ^ 32

/-- The function `HandleInterval( mtime_t *next, unsigned int *i_interval )`.
`mdate` is the value returned by `mdate()`; the result is the pair of the
values stored in `*next` and `*i_interval`.  The shift, the two
multiplications and the comparison are those of `unsigned int`. -/
def HandleInterval (mdate : Int) (i_interval : Nat) : Int × Nat :=
  let i_interval : Nat :=
    if i_interval = 0 then
      1
    else
      let doubled := (i_interval * 2) % UINT_MOD
      if doubled > 120 then 120 else doubled
  (mdate + ((((i_interval * 1000000) % UINT_MOD) * 60) % UINT_MOD : Nat), i_interval)

/-- The backoff state after `n` successive calls of `HandleInterval`, the
`k`-th of them (counted from 0) reading `clock k` from `mdate()`. -/
def HandleInterval_iter (clock : Nat → Int) : Nat → Int × Nat → Int × Nat
  | 0, st => st
  | n + 1, st => HandleInterval (clock n) (HandleInterval_iter clock n st).2

/-! ## `DeleteSong` and `AddToQueue` -/

/-- The function `DeleteSong`: the five strings are freed and set to `NULL`. -/
def DeleteSong (p_song : audioscrobbler_song_t) : audioscrobbler_song_t :=
  { p_song with psz_a := none, psz_b := none, psz_t := none, psz_m := none,
                psz_n := none }

/-- The test `!psz || !*psz`. -/
def null_or_empty : Option (List Char) → Bool
  | none => true
  | some [] => true
  | some (_ :: _) => false

/-- The value of `played_time` in `AddToQueue`: `mdate()` minus the song's
`date` minus `time_total_pauses`, divided by 1000000 (C division, which
truncates towards zero). -/
def played_time (p_sys : intf_sys_t) (mdate : Int) : Int :=
  Int.tdiv (mdate - p_sys.p_current_song.date - p_sys.time_total_pauses) 1000000

/-- The code after the label `end:` of `AddToQueue`.  `DeleteSong` hands
`psz_a` to `free`: when the memory it points to has been freed already, this
is a second `free` of the same memory. -/
def AddToQueue_end (p_sys : intf_sys_t) : intf_sys_t :=
  { p_sys with p_current_song := DeleteSong p_sys.p_current_song, b_submit := false,
               b_undefined := p_sys.b_undefined || p_sys.psz_a_freed,
               psz_a_freed := false }

/-- The function `AddToQueue`; `mdate` is the value returned by `mdate()`. -/
def AddToQueue (p_sys : intf_sys_t) (mdate : Int) : intf_sys_t :=
  if !p_sys.b_submit then AddToQueue_end p_sys
  else if played_time p_sys mdate < 240 ∧
      played_time p_sys mdate < Int.tdiv p_sys.p_current_song.i_l 2 then
    AddToQueue_end p_sys
  else if p_sys.p_current_song.i_l < 30 then AddToQueue_end p_sys
  else if null_or_empty p_sys.p_current_song.psz_a ||
      null_or_empty p_sys.p_current_song.psz_t then
    AddToQueue_end p_sys
  else if p_sys.i_songs ≥ QUEUE_MAX then AddToQueue_end p_sys
  else
    let cur := p_sys.p_current_song
    let slot := p_sys.p_queue p_sys.i_songs
    -- QUEUE_COPY( i_l )
    let slot := { slot with i_l := cur.i_l }
    -- QUEUE_COPY_NULL( psz_n ), ( psz_a ), ( psz_t ), ( psz_b ), ( psz_m )
    let slot := { slot with psz_n := cur.psz_n }
    let cur := { cur with psz_n := none }
    let slot := { slot with psz_a := cur.psz_a }
    let cur := { cur with psz_a := none }
    let slot := { slot with psz_t := cur.psz_t }
    let cur := { cur with psz_t := none }
    let slot := { slot with psz_b := cur.psz_b }
    let cur := { cur with psz_b := none }
    let slot := { slot with psz_m := cur.psz_m }
    let cur := { cur with psz_m := none }
    -- QUEUE_COPY( date )
    let slot := { slot with date := cur.date }
    AddToQueue_end
      { p_sys with p_queue := Function.update p_sys.p_queue p_sys.i_songs slot,
                   p_current_song := cur,
                   i_songs := p_sys.i_songs + 1,
                   /- the test `!*p_sys->p_current_song.psz_a` has read the artist,
                   and the pointer has moved to the queue -/
                   b_undefined := p_sys.b_undefined || p_sys.psz_a_freed,
                   psz_a_freed := false }

/-! ## C library functions used by the parser

`strlen`, `strstr`, `strcspn`, `strndup`, `atoi` and the `%d`, `%u`, `%llu`,
`%s` conversions of `printf`, on strings represented as character lists. -/

/-- The C function `strlen`. -/
def strlen (s : List Char) : Nat := s.length

/-- The C function `strstr( haystack, needle )`: the part of `haystack` that
starts at the first occurrence of `needle`, or `NULL` when there is none. -/
def strstr : List Char → List Char → Option (List Char)
  | [], needle => if needle = [] then some [] else none
  | c :: cs, needle =>
    if needle.isPrefixOf (c :: cs) then some (c :: cs) else strstr cs needle

/-- The C function `strcspn( s, reject )`: the length of the longest initial
part of `s` free of the characters of `reject`. -/
def strcspn (s reject : List Char) : Nat :=
  (s.takeWhile (fun c => !reject.contains c)).length

/-- The C function `strndup( s, n )`. -/
def strndup (s : List Char) (n : Nat) : List Char := s.take n

/-- The C function `isspace`, in the "C" locale. -/
def isspace (c : Char) : Bool :=
  c = ' ' || c = '\t' || c = '\n' || c = '\x0b' || c = '\x0c' || c = '\r'

/-- The digits read by `atoi`, accumulated from the left. -/
def atoi_digits : List Char → Int → Int
  | [], acc => acc
  | c :: cs, acc =>
    if c.isDigit then atoi_digits cs (acc * 10 + ((c.toNat - 48 : Nat) : Int)) else acc

/-- The value `LONG_MAX` of a 64-bit `long`. -/
def LONG_MAX : Int := 9223372036854775807

/-- The conversion of an integer to `int` (32 bits, two's complement): the
value is reduced modulo `2 ^ 32` into the range of `int`. -/
def to_int (i : Int) : Int := (i + 2147483648) % 4294967296 - 2147483648

/-- The C function `strtol( s, NULL, 10 )`: leading white space, an optional
sign, then decimal digits up to the first other character; 0 when there is no
digit; a value outside `long` is replaced by `LONG_MAX` or `LONG_MIN`. -/
def strtol (s : List Char) : Int :=
  match s.dropWhile isspace with
  | '-' :: rest => max (- atoi_digits rest 0) (- LONG_MAX - 1)
  | '+' :: rest => min (atoi_digits rest 0) LONG_MAX
  | rest => min (atoi_digits rest 0) LONG_MAX

/-- The C function `atoi`, which the C library defines as
`(int) strtol( s, NULL, 10 )`: the number read is converted to `int`. -/
def atoi (s : List Char) : Int := to_int (strtol s)

/-- The conversions `%u` and `%llu`: a natural number in decimal. -/
def fmt_u (n : Nat) : List Char := (Nat.repr n).toList

/-- The conversion `%d`. -/
def fmt_d (i : Int) : List Char :=
  if i < 0 then '-' :: fmt_u (-i).toNat else fmt_u i.toNat

/-- The conversion `%s`; glibc prints `(null)` for a `NULL` argument. -/
def fmt_s : Option (List Char) → List Char
  | some s => s
  | none => "(null)".toList

/-- The string held by a buffer after `p_buffer[n] = 0`, where `bytes` are the
`n` bytes received: the bytes before the first NUL. -/
def c_string (bytes : List Char) : List Char :=
  bytes.takeWhile (fun c => c != '\x00')

/-! ## Return codes -/

/-- The return codes used by the plugin.  `VLC_AUDIOSCROBBLER_EFATAL` is
`-69`; the others come from the VLC headers, where they are pairwise distinct
and distinct from `-69`. -/
inductive RetCode where
  | VLC_SUCCESS
  | VLC_ENOMEM
  | VLC_EGENERIC
  | VLC_ENOVAR
  | VLC_AUDIOSCROBBLER_EFATAL
deriving DecidableEq, Repr

/-! ## `ParseURL` -/

/-- What `ParseURL` leaves behind: its return value and the contents of
`*psz_host`, `*psz_file` and `*i_port`. -/
structure ParseURL_result where
  ret : RetCode
  psz_host : Option (List Char)
  psz_file : Option (List Char)
  i_port : Int
deriving DecidableEq, Repr

/-- The function `ParseURL( psz_url, psz_host, psz_file, i_port )`.  The former
`*psz_host` and `*psz_file` are freed on entry, so only the former `*i_port`
is an input. -/
def ParseURL (psz_url : List Char) (i_port : Int) : ParseURL_result :=
  let i_len := strlen psz_url
  -- FREENULL( *psz_host ); FREENULL( *psz_file );
  let i_pos := strcspn psz_url [':']
  if i_pos = i_len then
    { ret := .VLC_EGENERIC, psz_host := none, psz_file := none, i_port := i_port }
  else
    let psz_host := strndup psz_url i_pos
    let i_pos := i_pos + 1 /- skip the ':' -/
    let i_port := atoi (psz_url.drop i_pos)
    if i_port ≤ 0 then
      { ret := .VLC_EGENERIC, psz_host := none, psz_file := none, i_port := i_port }
    else
      let i_pos := strcspn psz_url ['/']
      if i_pos = i_len then
        { ret := .VLC_EGENERIC, psz_host := some psz_host, psz_file := none,
          i_port := i_port }
      else
        let i_pos := i_pos + 1 /- skip the '/' -/
        let psz_file := psz_url.drop i_pos
        { ret := .VLC_SUCCESS, psz_host := some psz_host, psz_file := some psz_file,
          i_port := i_port }

/-! ## `Handshake` -/

/-- The diagnostic emitted by `Handshake` when it does not succeed. -/
inductive HandshakeMsg where
  /-- `last.fm handshake failed: %s`, with the text that follows `FAILED ` -/
  | failed (psz : List Char)
  /-- the user-fatal dialog `last.fm: Authentication failed` -/
  | badauth
  /-- `This version of VLC has been banned by last.fm. ...` -/
  | banned
  /-- `last.fm handshake failed because your clock is too much shifted. ...` -/
  | badtime
  /-- `Handshake: can't recognize server protocol` -/
  | proto
deriving DecidableEq, Repr

/-- What `Handshake` reads from outside the plugin state. -/
structure HandshakeEnv where
  /-- the macro `PACKAGE` -/
  CLIENT_NAME : List Char
  /-- the macro `VERSION` -/
  CLIENT_VERSION : List Char
  /-- `config_GetPsz( p_this, "lastfm-username" )` -/
  psz_username : Option (List Char)
  /-- `config_GetPsz( p_this, "lastfm-password" )` -/
  psz_password : Option (List Char)
  /-- the value stored by `time( &timestamp )` -/
  timestamp : Nat
  /-- the hexadecimal MD5 digest (`InitMD5`, `AddMD5`, `EndMD5`, `psz_md5_hash`) of a byte string -/
  md5 : List Char → List Char
  /-- `none` when `stream_UrlNew` fails, else the bytes that `stream_Read`
  stores in `p_buffer` (at most 1023 are taken) -/
  stream : Option (List Char)

/-- The outcome of `Handshake`. -/
structure Handshake_result where
  ret : RetCode
  p_sys : intf_sys_t
  /-- the URL handed to `stream_UrlNew`, when execution reaches that call -/
  psz_handshake_url : Option (List Char)
  msg : Option HandshakeMsg

/-- The part of `Handshake` that looks for the two URLs, from the first
`strstr( p_buffer_pos, "http://" )` to the end; `p_buffer_pos` points after the
newline that follows `OK`.  The first URL (now playing) is only skipped; the
second one is the submission URL. -/
def Handshake_urls (p_sys : intf_sys_t) (p_buffer_pos : List Char) :
    RetCode × intf_sys_t × Option HandshakeMsg :=
  match strstr p_buffer_pos "http://".toList with
  | none => (.VLC_EGENERIC, p_sys, some .proto)
  | some p_buffer_pos =>
  if strlen p_buffer_pos = 7 then (.VLC_EGENERIC, p_sys, some .proto)
  else
  /- We need to read the nowplaying url -/
  let p_buffer_pos := p_buffer_pos.drop 7 /- we skip "http://" -/
  match strstr p_buffer_pos "http://".toList with
  | none => (.VLC_EGENERIC, p_sys, some .proto)
  | some p_buffer_pos =>
  if strlen p_buffer_pos = 7 then (.VLC_EGENERIC, p_sys, some .proto)
  else
  /- We need to read the submission url -/
  let p_buffer_pos := p_buffer_pos.drop 7 /- we skip "http://" -/
  let psz_url := strndup p_buffer_pos (strcspn p_buffer_pos "\n".toList)
  let r := ParseURL psz_url p_sys.i_submit_port
  let p_sys := { p_sys with psz_submit_host := r.psz_host,
                            psz_submit_file := r.psz_file,
                            i_submit_port := r.i_port }
  match r.ret with
  | .VLC_ENOMEM => (.VLC_ENOMEM, p_sys, none)
  | .VLC_EGENERIC => (.VLC_EGENERIC, p_sys, some .proto)
  | _ => (.VLC_SUCCESS, p_sys, none)

/-- The part of `Handshake` that follows `stream_Delete`: the interpretation
of the answer held in `p_buffer`.  The result is the return value, the state
and the diagnostic. -/
def Handshake_parse (p_sys : intf_sys_t) (p_buffer : List Char) :
    RetCode × intf_sys_t × Option HandshakeMsg :=
  match strstr p_buffer "FAILED ".toList with
  | some p_buffer_pos => (.VLC_EGENERIC, p_sys, some (.failed (p_buffer_pos.drop 7)))
  | none =>
  match strstr p_buffer "BADAUTH".toList with
  | some _ => (.VLC_AUDIOSCROBBLER_EFATAL, p_sys, some .badauth)
  | none =>
  match strstr p_buffer "BANNED".toList with
  | some _ => (.VLC_AUDIOSCROBBLER_EFATAL, p_sys, some .banned)
  | none =>
  match strstr p_buffer "BADTIME".toList with
  | some _ => (.VLC_AUDIOSCROBBLER_EFATAL, p_sys, some .badtime)
  | none =>
  match strstr p_buffer "OK".toList with
  | none => (.VLC_EGENERIC, p_sys, some .proto)
  | some p_buffer_pos =>
  match strstr p_buffer_pos "\n".toList with
  | none => (.VLC_EGENERIC, p_sys, some .proto)
  | some p_buffer_pos =>
  if strlen p_buffer_pos < 34 then (.VLC_EGENERIC, p_sys, some .proto)
  else
  let p_buffer_pos := p_buffer_pos.drop 1 /- we skip the '\n' -/
  /- save the session ID: snprintf( p_sys->psz_auth_token, 33, "%s", p_buffer_pos ) -/
  let p_sys := { p_sys with psz_auth_token := p_buffer_pos.take 32 }
  Handshake_urls p_sys p_buffer_pos

/-- The handshake URL built by `asprintf` in `Handshake`. -/
def handshake_url (env : HandshakeEnv) (psz_username psz_timestamp psz_auth_token : List Char) :
    List Char :=
  "http://post.audioscrobbler.com/?hs=true&p=1.2&c=".toList ++ env.CLIENT_NAME ++
  "&v=".toList ++ env.CLIENT_VERSION ++ "&u=".toList ++ psz_username ++
  "&t=".toList ++ psz_timestamp ++ "&a=".toList ++ psz_auth_token

/-- The function `Handshake`. -/
def Handshake (env : HandshakeEnv) (p_sys : intf_sys_t) : Handshake_result :=
  match env.psz_username with
  | none => { ret := .VLC_ENOMEM, p_sys := p_sys, psz_handshake_url := none, msg := none }
  | some psz_username =>
  match env.psz_password with
  | none => { ret := .VLC_ENOMEM, p_sys := p_sys, psz_handshake_url := none, msg := none }
  | some psz_password =>
  /- username or password have not been setup -/
  if psz_username = [] ∨ psz_password = [] then
    { ret := .VLC_ENOVAR, p_sys := p_sys, psz_handshake_url := none, msg := none }
  else
  /- generates a md5 hash of the password -/
  let psz_password_md5 := env.md5 psz_password
  -- snprintf( psz_timestamp, 33, "%llu", (uintmax_t)timestamp )
  let psz_timestamp := (fmt_u env.timestamp).take 32
  /- md5 hash of the first 32 characters of the password hash, plus the timestamp -/
  let psz_auth_token := env.md5 (psz_password_md5.take 32 ++ psz_timestamp)
  -- strncpy( p_sys->psz_auth_token, psz_auth_token, 33 )
  let p_sys := { p_sys with psz_auth_token := psz_auth_token.take 33 }
  let psz_handshake_url :=
    handshake_url env psz_username psz_timestamp p_sys.psz_auth_token
  /- send the http handshake request -/
  match env.stream with
  | none =>
    { ret := .VLC_EGENERIC, p_sys := p_sys, psz_handshake_url := some psz_handshake_url,
      msg := none }
  | some bytes =>
  /- read answer -/
  let i_ret := (bytes.take 1023).length
  if i_ret = 0 then
    { ret := .VLC_EGENERIC, p_sys := p_sys, psz_handshake_url := some psz_handshake_url,
      msg := none }
  else
  let p_buffer := c_string (bytes.take 1023)
  let r := Handshake_parse p_sys p_buffer
  { ret := r.1, p_sys := r.2.1, psz_handshake_url := some psz_handshake_url, msg := r.2.2 }

/-! ## `Run`: one turn of the main loop -/

/-- The text appended to `psz_submit` for the song in slot `i_song`: the
format `&a%%5B%d%%5D=%s&t%%5B%d%%5D=%s&i%%5B%d%%5D=%llu&o%%5B%d%%5D=P`
`&r%%5B%d%%5D=&l%%5B%d%%5D=%d&b%%5B%d%%5D=%s&n%%5B%d%%5D=%s&m%%5B%d%%5D=%s`. -/
def submit_song (i_song : Nat) (p_song : audioscrobbler_song_t) : List Char :=
  "&a%5B".toList ++ fmt_d i_song ++ "%5D=".toList ++ fmt_s p_song.psz_a ++
  "&t%5B".toList ++ fmt_d i_song ++ "%5D=".toList ++ fmt_s p_song.psz_t ++
  "&i%5B".toList ++ fmt_d i_song ++ "%5D=".toList ++
    fmt_u (p_song.date % (2 : Int) ^ 64).toNat ++
  "&o%5B".toList ++ fmt_d i_song ++ "%5D=P".toList ++
  "&r%5B".toList ++ fmt_d i_song ++ "%5D=".toList ++
  "&l%5B".toList ++ fmt_d i_song ++ "%5D=".toList ++ fmt_d p_song.i_l ++
  "&b%5B".toList ++ fmt_d i_song ++ "%5D=".toList ++ fmt_s p_song.psz_b ++
  "&n%5B".toList ++ fmt_d i_song ++ "%5D=".toList ++ fmt_s p_song.psz_n ++
  "&m%5B".toList ++ fmt_d i_song ++ "%5D=".toList ++ fmt_s p_song.psz_m

/-- The string `psz_submit` forged by `Run`: `s=` and the token, then the text
of each queued song, slot after slot. -/
def Run_submit (p_sys : intf_sys_t) : List Char :=
  (List.range p_sys.i_songs).foldl
    (fun psz_submit i_song => psz_submit ++ submit_song i_song (p_sys.p_queue i_song))
    ("s=".toList ++ p_sys.psz_auth_token)

/-- The text produced by `net_Printf` from `POST_REQUEST` with the arguments
`psz_submit_file`, `(unsigned)strlen( psz_submit )`, `psz_submit_file`,
`VERSION`, `psz_submit`. -/
def post_request (VERSION : List Char) (p_sys : intf_sys_t) (psz_submit : List Char) :
    List Char :=
  "POST /".toList ++ fmt_s p_sys.psz_submit_file ++ " HTTP/1.1\n".toList ++
  "Accept-Encoding: identity\n".toList ++
  "Content-length: ".toList ++ fmt_u (strlen psz_submit % UINT_MOD) ++ "\n".toList ++
  "Connection: close\n".toList ++
  "Content-type: application/x-www-form-urlencoded\n".toList ++
  "Host: ".toList ++ fmt_s p_sys.psz_submit_file ++ "\n".toList ++
  "User-agent: VLC Media Player/".toList ++ VERSION ++ "\r\n".toList ++
  "\r\n".toList ++
  psz_submit ++ "\r\n".toList ++
  "\r\n".toList

/-- The loop `for( i = 0; i < n; i++ ) DeleteSong( &p_queue[i] )`. -/
def delete_songs (p_queue : Nat → audioscrobbler_song_t) : Nat → Nat → audioscrobbler_song_t
  | 0 => p_queue
  | n + 1 =>
    Function.update (delete_songs p_queue n) n (DeleteSong (delete_songs p_queue n n))

/-- How one turn of the loop of `Run` ends. -/
inductive RunExit where
  /-- `return`: the interface is dying -/
  | dying
  /-- `continue`: holding on until `next_exchange` -/
  | holding
  /-- `Unload` and `return` on `VLC_ENOMEM` -/
  | unload_enomem
  /-- user-fatal dialog, `Unload` and `return` on `VLC_ENOVAR` -/
  | unload_enovar
  /-- `Unload` and `return` on `VLC_AUDIOSCROBBLER_EFATAL` -/
  | unload_efatal
  /-- `continue`: the handshake failed, we'll try later -/
  | handshake_later
  /-- `continue`: `net_ConnectTCP` returned -1 -/
  | connect_failed
  /-- `continue`: `net_Printf` returned -1 -/
  | send_failed
  /-- `continue`: `net_Read` returned no answer -/
  | no_answer
  /-- `continue`: the answer contains `FAILED`; the warning shows the answer from there -/
  | failed (p_buffer_pos : List Char)
  /-- `continue`: `Authentication failed (BADSESSION), ...` -/
  | badsession
  /-- end of the loop body: `Submission successful!` -/
  | successful
  /-- `continue`: `Authentication failed, handshaking again (%s)` with the whole answer -/
  | unrecognised (p_buffer : List Char)
deriving DecidableEq, Repr

/-- What one turn of the loop of `Run` reads from outside the plugin state. -/
structure RunEnv where
  /-- `vlc_object_alive` before waiting -/
  alive : Bool
  /-- the value of `mdate()` compared with `next_exchange` -/
  mdate_wait : Int
  /-- the return value of `vlc_object_timedwait` -/
  timedwait : Int
  /-- `vlc_object_alive` after waiting -/
  alive_after : Bool
  /-- the surroundings of `Handshake` -/
  handshake : HandshakeEnv
  /-- the value of `mdate()` read while handling the result of `Handshake` -/
  mdate_handshake : Int
  /-- the socket returned by `net_ConnectTCP` -/
  i_post_socket : Int
  /-- the return value of `net_Printf` -/
  net_Printf : Int
  /-- the return value of `net_Read` -/
  net_Read : Int
  /-- the bytes stored in `p_buffer` by `net_Read` -/
  p_buffer : List Char
  /-- the value of `mdate()` read while handling the submission -/
  mdate : Int

/-- The outcome of one turn of the loop of `Run`. -/
structure Run_result where
  p_sys : intf_sys_t
  exit : RunExit
  /-- the URL of the handshake request, when one was sent -/
  psz_handshake_url : Option (List Char)
  /-- the host and port handed to `net_ConnectTCP`, when it was called -/
  connect : Option (Option (List Char) × Int)
  /-- the text handed to `net_Printf`, when it was called -/
  request : Option (List Char)

/-- The state after `HandleInterval( &p_sys->next_exchange, &p_sys->i_interval )`. -/
def handle_interval (p_sys : intf_sys_t) (mdate : Int) : intf_sys_t :=
  { p_sys with next_exchange := (HandleInterval mdate p_sys.i_interval).1,
               i_interval := (HandleInterval mdate p_sys.i_interval).2 }

/-- The part of `Run` that interprets the answer to a submission, held in
`p_buffer` as a string; `mdate` is the value returned by `mdate()`. -/
def Run_response (p_sys : intf_sys_t) (p_buffer : List Char) (mdate : Int) :
    intf_sys_t × RunExit :=
  match strstr p_buffer "FAILED".toList with
  | some p_buffer_pos => (handle_interval p_sys mdate, .failed p_buffer_pos)
  | none =>
  match strstr p_buffer "BADSESSION".toList with
  | some _ => (handle_interval { p_sys with b_handshaked := false } mdate, .badsession)
  | none =>
  match strstr p_buffer "OK".toList with
  | some _ =>
    ({ p_sys with p_queue := delete_songs p_sys.p_queue p_sys.i_songs,
                  i_songs := 0,
                  i_interval := 0,
                  next_exchange := mdate }, .successful)
  | none =>
    (handle_interval { p_sys with b_handshaked := false } mdate, .unrecognised p_buffer)

/-- The part of `Run` from `net_ConnectTCP` to the end of the loop body: the
request `psz_submit` is sent and the answer handled.  `psz_handshake_url` only
records what the first part of the turn did. -/
def Run_exchange (env : RunEnv) (p_sys : intf_sys_t) (psz_submit : List Char)
    (psz_handshake_url : Option (List Char)) : Run_result :=
  let connect := some (p_sys.psz_submit_host, p_sys.i_submit_port)
  if env.i_post_socket = -1 then
    /- If connection fails, we assume we must handshake again -/
    { p_sys := { handle_interval p_sys env.mdate with b_handshaked := false },
      exit := .connect_failed, psz_handshake_url := psz_handshake_url,
      connect := connect, request := none }
  else
  /- we transmit the data -/
  let request := some (post_request env.handshake.CLIENT_VERSION p_sys psz_submit)
  if env.net_Printf = -1 then
    { p_sys := { handle_interval p_sys env.mdate with b_handshaked := false },
      exit := .send_failed, psz_handshake_url := psz_handshake_url,
      connect := connect, request := request }
  else
  if env.net_Read ≤ 0 then
    /- if we get no answer, something went wrong : try again -/
    { p_sys := p_sys, exit := .no_answer, psz_handshake_url := psz_handshake_url,
      connect := connect, request := request }
  else
  -- p_buffer[i_net_ret] = '\0'
  let p_buffer := c_string (env.p_buffer.take env.net_Read.toNat)
  let r := Run_response p_sys p_buffer env.mdate
  { p_sys := r.1, exit := r.2, psz_handshake_url := psz_handshake_url,
    connect := connect, request := request }

/-- The part of `Run` headed `handshake if needed`.  Either the turn ends there
(`Except.error`), or execution goes on with the given state and the URL of
the handshake request, if one was sent. -/
def Run_handshake (env : RunEnv) (p_sys : intf_sys_t) :
    Except Run_result (intf_sys_t × Option (List Char)) :=
  if p_sys.b_handshaked = false then
    let h := Handshake env.handshake p_sys
    match h.ret with
    | .VLC_ENOMEM =>
      .error { p_sys := h.p_sys, exit := .unload_enomem,
               psz_handshake_url := h.psz_handshake_url, connect := none, request := none }
    | .VLC_ENOVAR =>
      .error { p_sys := h.p_sys, exit := .unload_enovar,
               psz_handshake_url := h.psz_handshake_url, connect := none, request := none }
    | .VLC_SUCCESS =>
      .ok ({ h.p_sys with b_handshaked := true, i_interval := 0,
                          next_exchange := env.mdate_handshake },
           h.psz_handshake_url)
    | .VLC_AUDIOSCROBBLER_EFATAL =>
      .error { p_sys := h.p_sys, exit := .unload_efatal,
               psz_handshake_url := h.psz_handshake_url, connect := none, request := none }
    | .VLC_EGENERIC =>
      /- protocol error : we'll try later; the handshake failed, let's restart the loop -/
      .error { p_sys := handle_interval h.p_sys env.mdate_handshake, exit := .handshake_later,
               psz_handshake_url := h.psz_handshake_url, connect := none, request := none }
  else
    .ok (p_sys, none)

/-- The value of `b_wait` in `Run`: the timed wait for `next_exchange` was
entered and ended with the return value 0. -/
def Run_b_wait (env : RunEnv) (p_sys : intf_sys_t) : Bool :=
  if env.alive then
    if env.mdate_wait < p_sys.next_exchange then
      /- wait until we can resubmit -/
      decide (env.timedwait = 0)
    else
      /- wait for data to submit -/
      false
  else false

/-- One turn of the main loop of `Run`, run without interruption by the
callbacks. -/
def Run_iteration (env : RunEnv) (p_sys : intf_sys_t) : Run_result :=
  let b_wait := Run_b_wait env p_sys
  let b_die := !env.alive_after
  if b_die then
    { p_sys := p_sys, exit := .dying, psz_handshake_url := none, connect := none,
      request := none }
  else if b_wait then
    { p_sys := p_sys, exit := .holding, psz_handshake_url := none, connect := none,
      request := none }
  else
    match Run_handshake env p_sys with
    | .error r => r
    | .ok (p_sys, psz_handshake_url) =>
      Run_exchange env p_sys (Run_submit p_sys) psz_handshake_url

/-! ## The callbacks that feed the current song -/

/-- The input item, as the callbacks see it. -/
structure input_item_t where
  /-- `i_type == ITEM_TYPE_NET` -/
  b_net : Bool
  /-- `input_item_IsPreparsed` -/
  b_preparsed : Bool
  psz_artist : Option (List Char)
  psz_title : Option (List Char)
  psz_album : Option (List Char)
  psz_trackid : Option (List Char)
  psz_tracknum : Option (List Char)
  /-- `input_item_GetDuration`, in microseconds -/
  i_duration : Int

/-- What the callbacks read from outside the plugin state. -/
structure InputEnv where
  /-- `p_intf->b_dead` -/
  b_dead : Bool
  /-- `p_playlist->p_input`, when it is not `NULL`: its flag `b_dead` and its item -/
  p_input : Option (Bool × Option input_item_t)
  /-- the number of choices of the variable `video-es` -/
  video_es : Int
  /-- the value stored by `time()` -/
  time : Int
  /-- the function `encode_URI_component` -/
  encode_URI_component : List Char → List Char

/-- The macro `ALLOC_ITEM_META`, without its `else` part: the encoded text
when the metadata is present and not empty. -/
def alloc_item_meta (env : InputEnv) : Option (List Char) → Option (List Char)
  | some (c :: cs) => some (env.encode_URI_component (c :: cs))
  | _ => none

/-- The function `ReadMetaData`.  When the title is missing the artist that
has just been stored is freed, `free( p_sys->p_current_song.psz_a )`, and its
pointer is kept as it is. -/
def ReadMetaData (env : InputEnv) (p_sys : intf_sys_t) : RetCode × intf_sys_t :=
  match env.p_input with
  | none => (.VLC_SUCCESS, p_sys)
  | some (_, none) => (.VLC_SUCCESS, p_sys)
  | some (_, some p_item) =>
    let p_sys := { p_sys with b_meta_read := true }
    match alloc_item_meta env p_item.psz_artist with
    | none => (.VLC_EGENERIC, p_sys)
    | some psz_a =>
    let p_sys := { p_sys with p_current_song := { p_sys.p_current_song with psz_a := some psz_a },
                              psz_a_freed := false }
    match alloc_item_meta env p_item.psz_title with
    | none => (.VLC_EGENERIC, { p_sys with psz_a_freed := true })
    | some psz_t =>
    let p_sys := { p_sys with p_current_song := { p_sys.p_current_song with psz_t := some psz_t } }
    /- Now we have read the mandatory meta data, so we can submit that info -/
    let p_sys := { p_sys with b_submit := true }
    let p_sys := { p_sys with p_current_song := { p_sys.p_current_song with
      psz_b := some ((alloc_item_meta env p_item.psz_album).getD []) } }
    let p_sys := { p_sys with p_current_song := { p_sys.p_current_song with
      psz_m := some ((alloc_item_meta env p_item.psz_trackid).getD []) } }
    let p_sys := { p_sys with p_current_song := { p_sys.p_current_song with
      i_l := to_int (Int.tdiv p_item.i_duration 1000000) } }
    let p_sys := { p_sys with p_current_song := { p_sys.p_current_song with
      psz_n := some ((alloc_item_meta env p_item.psz_tracknum).getD []) } }
    (.VLC_SUCCESS, p_sys)

/-- The callback `ItemChange`. -/
def ItemChange (env : InputEnv) (p_sys : intf_sys_t) : intf_sys_t :=
  if env.b_dead then p_sys
  else
  let p_sys := { p_sys with b_state_cb := false, b_meta_read := false, b_submit := false }
  match env.p_input with
  | none => p_sys
  | some (true, _) => p_sys
  | some (false, none) => p_sys
  | some (false, some p_item) =>
    if env.video_es > 0 ∨ p_item.b_net then
      /- Not an audio local file, not submitting -/
      p_sys
    else
      let p_sys := { p_sys with time_total_pauses := 0 }
      let p_sys := { p_sys with p_current_song := { p_sys.p_current_song with date := env.time } }
      let p_sys := { p_sys with b_state_cb := true }
      if p_item.b_preparsed then (ReadMetaData env p_sys).2 else p_sys

/-- The values of the input states used by `PlayingChange`, from the VLC headers. -/
structure input_states where
  PLAYING_S : Int
  PAUSE_S : Int
  END_S : Int

/-- The callback `PlayingChange`; `mdate` is the value returned by `mdate()`. -/
def PlayingChange (st : input_states) (env : InputEnv) (mdate : Int) (oldval newval : Int)
    (p_sys : intf_sys_t) : intf_sys_t :=
  if env.b_dead then p_sys
  else if p_sys.b_meta_read = false ∧ newval ≥ st.PLAYING_S then (ReadMetaData env p_sys).2
  else if newval ≥ st.END_S then AddToQueue p_sys mdate
  else if oldval = st.PLAYING_S ∧ newval = st.PAUSE_S then
    { p_sys with time_pause := mdate }
  else if oldval = st.PAUSE_S ∧ newval = st.PLAYING_S then
    { p_sys with time_total_pauses := p_sys.time_total_pauses + (mdate - p_sys.time_pause) }
  else p_sys

/-! ## Runs of the plugin -/

/-- The steps that change the plugin state once `Open` has returned: the two
callbacks and the turns of the loop of `Run`, each with what it reads from
outside. -/
inductive Event where
  | ItemChange (env : InputEnv)
  | PlayingChange (st : input_states) (env : InputEnv) (mdate : Int) (oldval newval : Int)
  | Run (env : RunEnv)

/-- The state after one step. -/
def step (p_sys : intf_sys_t) : Event → intf_sys_t
  | .ItemChange env => ItemChange env p_sys
  | .PlayingChange st env mdate oldval newval => PlayingChange st env mdate oldval newval p_sys
  | .Run env => (Run_iteration env p_sys).p_sys

/-- The state after a sequence of steps. -/
def run (p_sys : intf_sys_t) (events : List Event) : intf_sys_t :=
  events.foldl step p_sys

/-- The current song passes the tests that `AddToQueue` makes before it looks
at the length of the queue: it is to be submitted, it was played long enough,
it is not too short, and it has an artist and a title. -/
def eligible (p_sys : intf_sys_t) (mdate : Int) : Prop :=
  p_sys.b_submit = true ∧
  ¬ (played_time p_sys mdate < 240 ∧
      played_time p_sys mdate < Int.tdiv p_sys.p_current_song.i_l 2) ∧
  ¬ p_sys.p_current_song.i_l < 30 ∧
  null_or_empty p_sys.p_current_song.psz_a = false ∧
  null_or_empty p_sys.p_current_song.psz_t = false

instance (p_sys : intf_sys_t) (mdate : Int) : Decidable (eligible p_sys mdate) := by
  unfold eligible
  infer_instance

/-- The end of one play: the song that the callbacks have stored as current
song, the time spent in pause, and the value of `mdate()` when the play ends. -/
structure Play where
  song : audioscrobbler_song_t
  time_total_pauses : Int
  mdate : Int
deriving DecidableEq, Repr

/-- The state when the play `p` is about to end: its song is the current song,
with its strings in live memory, and is marked for submission. -/
def load (p_sys : intf_sys_t) (p : Play) : intf_sys_t :=
  { p_sys with p_current_song := p.song, time_total_pauses := p.time_total_pauses,
               b_submit := true, psz_a_freed := false }

/-- The play `p` ends: `AddToQueue` runs on its song. -/
def play (p_sys : intf_sys_t) (p : Play) : intf_sys_t :=
  AddToQueue (load p_sys p) p.mdate

/-- The time for which a song has really been played, in seconds: from the
value `mdate_start` of `mdate()` when the play began to its value `mdate_end`
when it ended, less the time spent in pause. -/
def elapsed_seconds (mdate_start mdate_end time_total_pauses : Int) : Int :=
  Int.tdiv (mdate_end - mdate_start - time_total_pauses) 1000000

/-- A local audio file of 300 seconds with an artist and a title, already preparsed. -/
def item_300s : input_item_t :=
  { b_net := false, b_preparsed := true, psz_artist := some "Artist".toList,
    psz_title := some "Title".toList, psz_album := none, psz_trackid := none,
    psz_tracknum := none, i_duration := 300000000 }

/-- The surroundings of `ItemChange` when `item_300s` starts playing at the
date `time`; the URI encoding leaves plain letters as they are. -/
def env_300s (time : Int) : InputEnv :=
  { b_dead := false, p_input := some (false, some item_300s), video_es := 0,
    time := time, encode_URI_component := id }

/-- The state when `item_300s` has started playing at the date 1200000000
(seconds since the epoch) and its metadata has been read. -/
def playing_300s : intf_sys_t := ItemChange (env_300s 1200000000) Open

/-- The play `p` passes the tests of `AddToQueue` on the current song. -/
def Play.eligible (p : Play) : Prop := Audioscrobbler.eligible (load Open p) p.mdate

instance (p : Play) : Decidable p.eligible := by
  unfold Play.eligible
  infer_instance

/-- A play of a 300-second song that passes the tests of `AddToQueue`. -/
def play_300s (date : Int) : Play :=
  { song := { psz_a := some "Artist".toList, psz_t := some "Title".toList,
              psz_b := some [], psz_n := some [], i_l := 300, psz_m := some [],
              date := date },
    time_total_pauses := 0,
    mdate := (date + 300) * 1000000 }

/-- A session token of 32 characters. -/
def token_32 : List Char := "0123456789abcdef0123456789abcdef".toList

/-- The state `p_sys` once a handshake has succeeded with the token `token_32`
and the submission address `post.example:80/submit`. -/
def authenticated (p_sys : intf_sys_t) : intf_sys_t :=
  { p_sys with b_handshaked := true, psz_auth_token := token_32,
               psz_submit_host := some "post.example".toList, i_submit_port := 80,
               psz_submit_file := some "submit".toList }

/-- Surroundings of `Handshake` in which the handshake server cannot be reached. -/
def unreachable_handshake : HandshakeEnv :=
  { CLIENT_NAME := "vlc".toList, CLIENT_VERSION := "0.9.0".toList,
    psz_username := some "user".toList, psz_password := some "secret".toList,
    timestamp := 1200000500, md5 := fun _ => token_32, stream := none }

/-- Surroundings of a turn of the loop in which the interface is alive, the
time of the next exchange has come, the submission server is reached and
answers `p_buffer`, and `mdate()` reads `mdate`. -/
def answering (p_buffer : List Char) (mdate : Int) : RunEnv :=
  { alive := true, mdate_wait := mdate, timedwait := 1, alive_after := true,
    handshake := unreachable_handshake, mdate_handshake := mdate, i_post_socket := 3,
    net_Printf := 0, net_Read := p_buffer.length, p_buffer := p_buffer, mdate := mdate }

/-- An authenticated state with one song in the queue, while a second song is
playing and marked for submission. -/
def one_queued_one_playing : intf_sys_t :=
  load (authenticated (play Open (play_300s 1200000000))) (play_300s 1200000400)

/-- Fifty-one plays of 300-second songs, one every 400 seconds. -/
def fifty_one_plays : List Play :=
  (List.range 51).map (fun k => play_300s (1200000000 + 400 * (k : Int)))

/-- The turn ends with `return`: the loop of `Run` is left. -/
def RunExit.returns : RunExit → Bool
  | .dying => true
  | .unload_enomem => true
  | .unload_enovar => true
  | .unload_efatal => true
  | _ => false

/-- The function `Run`, not interrupted by the callbacks: the turns of its
loop, in order, each reading its surroundings from the list, until a turn ends
with `return` (or the list is exhausted). -/
def Run : List RunEnv → intf_sys_t → List Run_result
  | [], _ => []
  | env :: envs, p_sys =>
    let r := Run_iteration env p_sys
    r :: (if r.exit.returns then [] else Run envs r.p_sys)

/-- Surroundings of `Handshake` in which the handshake server answers `bytes`. -/
def handshake_answering (bytes : List Char) : HandshakeEnv :=
  { unreachable_handshake with stream := some bytes }

/-- Surroundings of a turn of the loop in which the handshake server answers
`bytes` and `mdate()` reads `mdate`. -/
def handshaking (bytes : List Char) (mdate : Int) : RunEnv :=
  { answering [] mdate with handshake := handshake_answering bytes }

/-- Surroundings of a turn of the loop in which the connection to the
submission server fails. -/
def unreachable_submission (mdate : Int) : RunEnv :=
  { answering [] mdate with i_post_socket := -1 }

/-! ## The wording of the specification for the requests -/

/-- The text of the record of index `i` in the body of a submission, as the
specification words it: the fields `a`, `t`, `i`, `o`, `r`, `l`, `b`, `n`, `m`,
each followed by the index in decimal between `%5B` and `%5D`, then `=` and
the value, each field introduced by `&`; `o` is always `P` and `r` is empty. -/
def spec_record (i : Nat) (artist title startedAt duration album trackNumber externalId :
    List Char) : List Char :=
  "&a%5B".toList ++ (Nat.repr i).toList ++ "%5D=".toList ++ artist ++
  "&t%5B".toList ++ (Nat.repr i).toList ++ "%5D=".toList ++ title ++
  "&i%5B".toList ++ (Nat.repr i).toList ++ "%5D=".toList ++ startedAt ++
  "&o%5B".toList ++ (Nat.repr i).toList ++ "%5D=P".toList ++
  "&r%5B".toList ++ (Nat.repr i).toList ++ "%5D=".toList ++
  "&l%5B".toList ++ (Nat.repr i).toList ++ "%5D=".toList ++ duration ++
  "&b%5B".toList ++ (Nat.repr i).toList ++ "%5D=".toList ++ album ++
  "&n%5B".toList ++ (Nat.repr i).toList ++ "%5D=".toList ++ trackNumber ++
  "&m%5B".toList ++ (Nat.repr i).toList ++ "%5D=".toList ++ externalId

/-- The texts of the records of a list, the first one with the index `i`, the
next ones with the following indices. -/
def spec_records : Nat → List audioscrobbler_song_t → List Char
  | _, [] => []
  | i, r :: rs =>
    spec_record i (r.psz_a.getD []) (r.psz_t.getD []) (Nat.repr r.date.toNat).toList
      (Nat.repr r.i_l.toNat).toList (r.psz_b.getD []) (r.psz_n.getD []) (r.psz_m.getD []) ++
    spec_records (i + 1) rs

/-- The body of a submission as the specification words it: `s=` and the
session token, then the records in queue order, indexed from 0. -/
def spec_submission_body (token : List Char) (records : List audioscrobbler_song_t) :
    List Char :=
  "s=".toList ++ token ++ spec_records 0 records

/-- A record whose five texts are present, whose date is a time since the
epoch that fits 64 bits, and whose duration is not negative. -/
def well_formed (r : audioscrobbler_song_t) : Prop :=
  r.psz_a.isSome = true ∧ r.psz_t.isSome = true ∧ r.psz_b.isSome = true ∧
  r.psz_n.isSome = true ∧ r.psz_m.isSome = true ∧
  0 ≤ r.date ∧ r.date < 2 ^ 64 ∧ 0 ≤ r.i_l

instance (r : audioscrobbler_song_t) : Decidable (well_formed r) := by
  unfold well_formed
  infer_instance

/-- The number of places of a string at which an occurrence of `needle` starts. -/
def occurrences (needle : List Char) : List Char → Nat
  | [] => if needle = [] then 1 else 0
  | c :: cs => (if needle.isPrefixOf (c :: cs) then 1 else 0) + occurrences needle cs

/-- Surroundings of `Handshake` for the user `user`, the password `secret`,
the client `vlc` 0.9.0 and the date 1200000500, with the given digest function. -/
def handshake_of_user (md5 : List Char → List Char) : HandshakeEnv :=
  { unreachable_handshake with md5 := md5 }

/-- An authenticated state with two songs in the queue. -/
def two_queued : intf_sys_t :=
  authenticated (play (play Open (play_300s 1200000000)) (play_300s 1200000400))

/-- The failure markers looked for in the answer to the handshake. -/
def failure_markers : List (List Char) :=
  ["FAILED ".toList, "BADAUTH".toList, "BANNED".toList, "BADTIME".toList]

/-- The string holds no failure marker. -/
def marker_free (s : List Char) : Prop := ∀ m ∈ failure_markers, ¬ m <:+: s

instance (s : List Char) : Decidable (marker_free s) := by
  unfold marker_free
  infer_instance

/-- A token of 32 characters that starts with `http://`. -/
def token_with_url : List Char := "http://89abcdef0123456789abcdef0".toList

/-- The string `needle` starts at none of the first `n` positions of `s`. -/
def absent_before (needle s : List Char) (n : Nat) : Prop :=
  ∀ k, k < n → ¬ needle <+: s.drop k

instance (needle s : List Char) (n : Nat) : Decidable (absent_before needle s n) := by
  unfold absent_before
  infer_instance

/-- A reading of the answer `p_buffer` to the handshake: `pre`, `OK`, `mid`,
a newline, then `after`, which itself reads `a`, `http://`, `b`, `http://`,
`url`, `tail`.  The `OK` is the first one of the answer, the newline the first
one after it, the two `http://` the first one of `after` and the first one
after that, and `url` runs up to the end of its line. -/
def answer_reads (p_buffer pre mid after a b url tail : List Char) : Prop :=
  p_buffer = pre ++ "OK".toList ++ mid ++ "\n".toList ++ after ∧
  absent_before "OK".toList p_buffer pre.length ∧ '\n' ∉ mid ∧
  after = a ++ "http://".toList ++ b ++ "http://".toList ++ url ++ tail ∧
  absent_before "http://".toList after a.length ∧
  absent_before "http://".toList (b ++ "http://".toList ++ url ++ tail) b.length ∧
  '\n' ∉ url ∧ (tail = [] ∨ tail.head? = some '\n')

instance (p_buffer pre mid after a b url tail : List Char) :
    Decidable (answer_reads p_buffer pre mid after a b url tail) := by
  unfold answer_reads
  infer_instance

/-- A local audio file of 300 seconds with an artist and no title, already preparsed. -/
def item_no_title : input_item_t := { item_300s with psz_title := none }

/-- The surroundings of the callbacks while `item_no_title` is the input item,
at the date `time`. -/
def env_no_title (time : Int) : InputEnv :=
  { env_300s time with p_input := some (false, some item_no_title) }

/-- The state when `item_no_title` has started playing at the date 1200000000
and `ReadMetaData` has found its artist and no title. -/
def playing_no_title : intf_sys_t := ItemChange (env_no_title 1200000000) Open

/-! # Properties -/

/-! ## Backoff -/

theorem HandleInterval_snd_le (t : Int) (i : Nat) : (HandleInterval t i).2 ≤ 120 := by
  unfold HandleInterval
  simp only
  split
  · omega
  · split <;> omega

theorem HandleInterval_snd (t : Int) (i : Nat) : (HandleInterval t i).2 =
    if i = 0 then 1 else if (i * 2) % UINT_MOD > 120 then 120 else (i * 2) % UINT_MOD := rfl

theorem HandleInterval_fst (t : Int) (i : Nat) : (HandleInterval t i).1 =
    t + ((((HandleInterval t i).2 * 1000000) % UINT_MOD * 60) % UINT_MOD : Nat) := rfl

/-- C1: starting from interval 0, `n` consecutive calls of `HandleInterval`
leave the interval at 1, 2, 4, 8, 16, 32 for `n = 1..6`; for every `n ≥ 8` the
interval is exactly 120, and for every `n` it is at most 120. -/
theorem C1_backoff_sequence (clock : Nat → Int) (next : Int) :
    (HandleInterval_iter clock 1 (next, 0)).2 = 1 ∧
    (HandleInterval_iter clock 2 (next, 0)).2 = 2 ∧
    (HandleInterval_iter clock 3 (next, 0)).2 = 4 ∧
    (HandleInterval_iter clock 4 (next, 0)).2 = 8 ∧
    (HandleInterval_iter clock 5 (next, 0)).2 = 16 ∧
    (HandleInterval_iter clock 6 (next, 0)).2 = 32 ∧
    (∀ k : Nat, (HandleInterval_iter clock (8 + k) (next, 0)).2 = 120) ∧
    (∀ n : Nat, (HandleInterval_iter clock n (next, 0)).2 ≤ 120) := by
  refine ⟨?_, ?_, ?_, ?_, ?_, ?_, ?_, ?_⟩
  · simp [HandleInterval_iter, HandleInterval_snd, UINT_MOD]
  · simp [HandleInterval_iter, HandleInterval_snd, UINT_MOD]
  · simp [HandleInterval_iter, HandleInterval_snd, UINT_MOD]
  · simp [HandleInterval_iter, HandleInterval_snd, UINT_MOD]
  · simp [HandleInterval_iter, HandleInterval_snd, UINT_MOD]
  · simp [HandleInterval_iter, HandleInterval_snd, UINT_MOD]
  · intro k
    induction k with
    | zero => simp [HandleInterval_iter, HandleInterval_snd, UINT_MOD]
    | succ k ih =>
      have hstep : HandleInterval_iter clock (8 + (k + 1)) (next, 0) =
          HandleInterval (clock (8 + k)) (HandleInterval_iter clock (8 + k) (next, 0)).2 := rfl
      rw [hstep, ih]
      simp [HandleInterval_snd, UINT_MOD]
  · intro n
    cases n with
    | zero => simp [HandleInterval_iter]
    | succ n => exact HandleInterval_snd_le _ _

/-- While the updated interval is at most 71 minutes the delay does not wrap:
`next` is `mdate()` plus that many minutes, in microseconds. -/
theorem HandleInterval_fst_of_le (now : Int) (i : Nat)
    (h : (HandleInterval now i).2 ≤ 71) :
    (HandleInterval now i).1 = now + ((HandleInterval now i).2 : Int) * 60 * 1000000 := by
  rw [HandleInterval_fst]
  have h1 : (HandleInterval now i).2 * 1000000 % UINT_MOD = (HandleInterval now i).2 * 1000000 := by
    apply Nat.mod_eq_of_lt; unfold UINT_MOD; omega
  have h2 : (HandleInterval now i).2 * 1000000 * 60 % UINT_MOD
      = (HandleInterval now i).2 * 1000000 * 60 := by
    apply Nat.mod_eq_of_lt; unfold UINT_MOD; omega
  rw [h1, h2]
  push_cast
  ring

/-- C2, the code evaluated where it departs from the claim: when the interval
goes from 64 to 120, `*i_interval * 1000000 * 60` is 7200000000 reduced modulo
`2 ^ 32`, so `next` is `mdate()` plus 2905032704 microseconds (about 48 minutes)
and not `mdate()` plus 120 minutes. -/
theorem C2_delay_wraps_at_120 (now : Int) :
    HandleInterval now 64 = (now + 2905032704, 120) ∧
    (HandleInterval now 64).1 ≠ now + 120 * 60 * 1000000 := by
  have h : HandleInterval now 64 = (now + 2905032704, 120) := by
    simp [HandleInterval, UINT_MOD]
  refine ⟨h, ?_⟩
  rw [h]
  show now + 2905032704 ≠ now + 120 * 60 * 1000000
  omega

/-! ## The queue -/

theorem queued_length (p_sys : intf_sys_t) : (queued p_sys).length = p_sys.i_songs := by
  simp [queued]

/-- Writing slot `n` and counting one song more appends to the queue. -/
theorem queued_push (p_sys : intf_sys_t) (x : audioscrobbler_song_t) (q : intf_sys_t)
    (hq : q.p_queue = Function.update p_sys.p_queue p_sys.i_songs x)
    (hn : q.i_songs = p_sys.i_songs + 1) :
    queued q = queued p_sys ++ [x] := by
  unfold queued
  rw [hq, hn, List.range_succ, List.map_append]
  congr 1
  · apply List.map_congr_left
    intro i hi
    have : i ≠ p_sys.i_songs := by
      have := List.mem_range.mp hi
      omega
    simp [Function.update, this]
  · simp

theorem AddToQueue_end_queue (p_sys : intf_sys_t) :
    (AddToQueue_end p_sys).p_queue = p_sys.p_queue ∧
    (AddToQueue_end p_sys).i_songs = p_sys.i_songs ∧
    queued (AddToQueue_end p_sys) = queued p_sys := ⟨rfl, rfl, rfl⟩

/-- The song is turned away: `AddToQueue` jumps to `end`. -/
theorem AddToQueue_of_not_eligible (p_sys : intf_sys_t) (mdate : Int)
    (h : ¬ eligible p_sys mdate) : AddToQueue p_sys mdate = AddToQueue_end p_sys := by
  unfold eligible at h
  unfold AddToQueue
  by_cases h1 : p_sys.b_submit = true
  · by_cases h2 : played_time p_sys mdate < 240 ∧
        played_time p_sys mdate < Int.tdiv p_sys.p_current_song.i_l 2
    · simp [h1, h2]
    · by_cases h3 : p_sys.p_current_song.i_l < 30
      · simp [h1, h2, h3]
      · by_cases h4 : null_or_empty p_sys.p_current_song.psz_a = false
        · by_cases h5 : null_or_empty p_sys.p_current_song.psz_t = false
          · exact absurd ⟨h1, h2, h3, h4, h5⟩ h
          · have h5' : null_or_empty p_sys.p_current_song.psz_t = true := by
              simpa using h5
            simp [h1, h5']
        · have h4' : null_or_empty p_sys.p_current_song.psz_a = true := by
            simpa using h4
          simp [h1, h4']
  · have h1' : p_sys.b_submit = false := by simpa using h1
    simp [h1']

/-- The queue is full: `AddToQueue` jumps to `end`. -/
theorem AddToQueue_of_full (p_sys : intf_sys_t) (mdate : Int)
    (h : QUEUE_MAX ≤ p_sys.i_songs) : AddToQueue p_sys mdate = AddToQueue_end p_sys := by
  unfold AddToQueue
  split
  · rfl
  · split
    · rfl
    · split
      · rfl
      · split
        · rfl
        · rfl

/-- The song is taken: slot `i_songs` receives the current song, the count
goes up by one, and the current song is left with its strings cleared. -/
theorem AddToQueue_of_eligible (p_sys : intf_sys_t) (mdate : Int)
    (h : eligible p_sys mdate) (hn : p_sys.i_songs < QUEUE_MAX) :
    AddToQueue p_sys mdate =
      { p_sys with
        p_queue := Function.update p_sys.p_queue p_sys.i_songs p_sys.p_current_song,
        i_songs := p_sys.i_songs + 1,
        p_current_song := DeleteSong p_sys.p_current_song,
        b_submit := false,
        b_undefined := p_sys.b_undefined || p_sys.psz_a_freed,
        psz_a_freed := false } := by
  obtain ⟨h1, h2, h3, h4, h5⟩ := h
  have hn' : ¬ p_sys.i_songs ≥ QUEUE_MAX := by omega
  unfold AddToQueue
  simp only [h1, h4, h5, Bool.not_true, Bool.false_eq_true, if_false, h2, h3, hn',
    Bool.or_self, AddToQueue_end, Bool.or_false]
  rfl

theorem AddToQueue_i_songs_le (p_sys : intf_sys_t) (mdate : Int)
    (h : p_sys.i_songs ≤ QUEUE_MAX) : (AddToQueue p_sys mdate).i_songs ≤ QUEUE_MAX := by
  by_cases he : eligible p_sys mdate
  · by_cases hn : p_sys.i_songs < QUEUE_MAX
    · rw [AddToQueue_of_eligible p_sys mdate he hn]
      exact hn
    · rw [AddToQueue_of_full p_sys mdate (by omega)]
      exact h
  · rw [AddToQueue_of_not_eligible p_sys mdate he]
    exact h

/-- The search for the two URLs only writes the three fields of the
submission address. -/
theorem Handshake_urls_frame (p_sys : intf_sys_t) (p_buffer_pos : List Char) :
    ∃ host port file, (Handshake_urls p_sys p_buffer_pos).2.1 =
      { p_sys with psz_submit_host := host, i_submit_port := port,
                   psz_submit_file := file } := by
  unfold Handshake_urls
  repeat' (first | split | dsimp only)
  all_goals exact ⟨_, _, _, rfl⟩

/-- The interpretation of the handshake answer only writes the token and the
three fields of the submission address. -/
theorem Handshake_parse_frame (p_sys : intf_sys_t) (p_buffer : List Char) :
    ∃ tok host port file, (Handshake_parse p_sys p_buffer).2.1 =
      { p_sys with psz_auth_token := tok, psz_submit_host := host,
                   i_submit_port := port, psz_submit_file := file } := by
  unfold Handshake_parse
  repeat' (first | split | dsimp only)
  all_goals first
    | exact ⟨_, _, _, _, rfl⟩
    | (obtain ⟨host, port, file, h⟩ := Handshake_urls_frame
        { p_sys with psz_auth_token := _ } _
       rw [h]
       exact ⟨_, _, _, _, rfl⟩)

theorem Handshake_frame (env : HandshakeEnv) (p_sys : intf_sys_t) :
    ∃ tok host port file, (Handshake env p_sys).p_sys =
      { p_sys with psz_auth_token := tok, psz_submit_host := host,
                   i_submit_port := port, psz_submit_file := file } := by
  unfold Handshake
  repeat' (first | split | dsimp only)
  all_goals first
    | exact ⟨_, _, _, _, rfl⟩
    | (obtain ⟨tok, host, port, file, h⟩ := Handshake_parse_frame
        { p_sys with psz_auth_token := _ } _
       rw [h]
       exact ⟨_, _, _, _, rfl⟩)

theorem Run_response_i_songs_le (p_sys : intf_sys_t) (p_buffer : List Char) (mdate : Int) :
    (Run_response p_sys p_buffer mdate).1.i_songs ≤ p_sys.i_songs := by
  unfold Run_response
  repeat' (first | split | dsimp only)
  all_goals first | exact Nat.le_refl _ | exact Nat.zero_le _

theorem Run_exchange_i_songs_le (env : RunEnv) (p_sys : intf_sys_t) (psz_submit : List Char)
    (url : Option (List Char)) :
    (Run_exchange env p_sys psz_submit url).p_sys.i_songs ≤ p_sys.i_songs := by
  unfold Run_exchange
  repeat' (first | split | dsimp only)
  all_goals first | exact Nat.le_refl _ | exact Run_response_i_songs_le _ _ _

theorem Run_handshake_error (env : RunEnv) (p_sys : intf_sys_t) (r : Run_result)
    (hr : Run_handshake env p_sys = .error r) :
    r.p_sys.i_songs = p_sys.i_songs ∧ r.p_sys.p_queue = p_sys.p_queue := by
  obtain ⟨tok, host, port, file, h⟩ := Handshake_frame env.handshake p_sys
  unfold Run_handshake at hr
  by_cases hb : p_sys.b_handshaked = false
  · rw [if_pos hb] at hr
    dsimp only at hr
    cases hret : (Handshake env.handshake p_sys).ret <;> rw [hret] at hr <;>
      dsimp only at hr <;> cases hr <;> simp [h, handle_interval]
  · rw [if_neg hb] at hr
    cases hr

theorem Run_handshake_ok (env : RunEnv) (p_sys q : intf_sys_t) (url : Option (List Char))
    (hq : Run_handshake env p_sys = .ok (q, url)) :
    q.i_songs = p_sys.i_songs ∧ q.p_queue = p_sys.p_queue ∧ q.b_handshaked = true := by
  obtain ⟨tok, host, port, file, h⟩ := Handshake_frame env.handshake p_sys
  unfold Run_handshake at hq
  by_cases hb : p_sys.b_handshaked = false
  · rw [if_pos hb] at hq
    dsimp only at hq
    cases hret : (Handshake env.handshake p_sys).ret <;> rw [hret] at hq <;>
      dsimp only at hq <;> cases hq
    simp [h]
  · rw [if_neg hb] at hq
    cases hq
    simpa using hb

theorem Run_iteration_i_songs_le (env : RunEnv) (p_sys : intf_sys_t) :
    (Run_iteration env p_sys).p_sys.i_songs ≤ p_sys.i_songs := by
  unfold Run_iteration
  dsimp only
  split
  · exact Nat.le_refl _
  · split
    · exact Nat.le_refl _
    · split
      · rename_i r hr
        rw [(Run_handshake_error env p_sys r hr).1]
      · rename_i q url hq
        have := (Run_handshake_ok env p_sys q url hq).1
        exact this ▸ Run_exchange_i_songs_le env q _ url

theorem ReadMetaData_queue (env : InputEnv) (p_sys : intf_sys_t) :
    (ReadMetaData env p_sys).2.i_songs = p_sys.i_songs ∧
    (ReadMetaData env p_sys).2.p_queue = p_sys.p_queue := by
  unfold ReadMetaData
  repeat' (first | split | dsimp only)
  all_goals exact ⟨rfl, rfl⟩

theorem ItemChange_queue (env : InputEnv) (p_sys : intf_sys_t) :
    (ItemChange env p_sys).i_songs = p_sys.i_songs ∧
    (ItemChange env p_sys).p_queue = p_sys.p_queue := by
  unfold ItemChange
  repeat' (first | split | dsimp only)
  all_goals first | exact ⟨rfl, rfl⟩ | exact ReadMetaData_queue _ _

theorem step_i_songs_le (p_sys : intf_sys_t) (e : Event) (h : p_sys.i_songs ≤ QUEUE_MAX) :
    (step p_sys e).i_songs ≤ QUEUE_MAX := by
  cases e with
  | ItemChange env => exact (ItemChange_queue env p_sys).1 ▸ h
  | PlayingChange st env mdate oldval newval =>
    show (PlayingChange st env mdate oldval newval p_sys).i_songs ≤ QUEUE_MAX
    unfold PlayingChange
    repeat' (first | split | dsimp only)
    all_goals first
      | exact h
      | exact (ReadMetaData_queue env p_sys).1 ▸ h
      | exact AddToQueue_i_songs_le p_sys mdate h
  | Run env => exact Nat.le_trans (Run_iteration_i_songs_le env p_sys) h

theorem run_i_songs_le (events : List Event) (p_sys : intf_sys_t)
    (h : p_sys.i_songs ≤ QUEUE_MAX) : (run p_sys events).i_songs ≤ QUEUE_MAX := by
  induction events generalizing p_sys with
  | nil => exact h
  | cons e es ih => exact ih (step p_sys e) (step_i_songs_le p_sys e h)

/-- The decision of `AddToQueue` in terms of the value `played_time` that it
computes: with a song to submit and room in the queue, the song is turned away
(queue untouched) exactly when `played_time < 240` and `played_time < i_l / 2`,
or `i_l < 30`, or the artist or the title is missing or empty; otherwise it is
appended. -/
theorem AddToQueue_decision (p_sys : intf_sys_t) (mdate : Int)
    (hs : p_sys.b_submit = true) (hn : p_sys.i_songs < QUEUE_MAX) :
    (((played_time p_sys mdate < 240 ∧
          played_time p_sys mdate < Int.tdiv p_sys.p_current_song.i_l 2) ∨
        p_sys.p_current_song.i_l < 30 ∨
        null_or_empty p_sys.p_current_song.psz_a = true ∨
        null_or_empty p_sys.p_current_song.psz_t = true) →
      (AddToQueue p_sys mdate).p_queue = p_sys.p_queue ∧
      (AddToQueue p_sys mdate).i_songs = p_sys.i_songs) ∧
    (¬ ((played_time p_sys mdate < 240 ∧
          played_time p_sys mdate < Int.tdiv p_sys.p_current_song.i_l 2) ∨
        p_sys.p_current_song.i_l < 30 ∨
        null_or_empty p_sys.p_current_song.psz_a = true ∨
        null_or_empty p_sys.p_current_song.psz_t = true) →
      queued (AddToQueue p_sys mdate) = queued p_sys ++ [p_sys.p_current_song]) := by
  constructor
  · intro h
    have hne : ¬ eligible p_sys mdate := by
      rintro ⟨-, h2, h3, h4, h5⟩
      rcases h with h | h | h | h
      · exact h2 h
      · exact h3 h
      · rw [h4] at h; cases h
      · rw [h5] at h; cases h
    rw [AddToQueue_of_not_eligible p_sys mdate hne]
    exact ⟨rfl, rfl⟩
  · intro h
    have he : eligible p_sys mdate := by
      refine ⟨hs, fun h2 => h (Or.inl h2), fun h3 => h (Or.inr (Or.inl h3)), ?_, ?_⟩
      · cases hx : null_or_empty p_sys.p_current_song.psz_a
        · rfl
        · exact absurd (Or.inr (Or.inr (Or.inl hx))) h
      · cases hx : null_or_empty p_sys.p_current_song.psz_t
        · rfl
        · exact absurd (Or.inr (Or.inr (Or.inr hx))) h
    rw [AddToQueue_of_eligible p_sys mdate he hn]
    exact queued_push p_sys _ _ rfl rfl

/-- C3, the code evaluated where it departs from the claim.  A 300-second song
starts at the date 1200000000 (`time()`, in seconds) while `mdate()` reads
5000000000 microseconds, and ends ten seconds later without pause: it has
been played for 10 seconds, less than 240 and less than 300 / 2.  `AddToQueue`
subtracts the date in seconds from the clock in microseconds, finds
`played_time = 3810`, and appends the song. -/
theorem C3_played_time_mixes_units :
    elapsed_seconds 5000000000 5010000000 playing_300s.time_total_pauses = 10 ∧
    (elapsed_seconds 5000000000 5010000000 playing_300s.time_total_pauses < 240 ∧
      elapsed_seconds 5000000000 5010000000 playing_300s.time_total_pauses <
        Int.tdiv playing_300s.p_current_song.i_l 2) ∧
    playing_300s.b_submit = true ∧
    playing_300s.i_songs < QUEUE_MAX ∧
    playing_300s.p_current_song.i_l = 300 ∧
    playing_300s.p_current_song.date = 1200000000 ∧
    played_time playing_300s 5010000000 = 3810 ∧
    queued (AddToQueue playing_300s 5010000000) = [playing_300s.p_current_song] ∧
    (queued (AddToQueue playing_300s 5010000000)).length = 1 := by
  refine ⟨by decide, by decide, rfl, by decide, rfl, rfl, by decide, ?_, ?_⟩
  · have h := (AddToQueue_decision playing_300s 5010000000 rfl (by decide)).2 (by decide)
    rw [h]
    rfl
  · rw [queued_length]
    rw [AddToQueue_of_eligible playing_300s 5010000000 (by decide) (by decide)]
    rfl

/-- C4: with an eligible current song, `AddToQueue` on a queue of fewer than
`QUEUE_MAX` songs yields the old queue followed by the song (earlier slots
unchanged, one song more); on a queue of `QUEUE_MAX` songs it leaves every slot
and the count unchanged and drops the song.  Hence the queue never holds more
than `QUEUE_MAX` songs in a state reached from `Open` by callbacks and turns of
the loop of `Run`. -/
theorem C4_enqueue (p_sys : intf_sys_t) (mdate : Int) (h : eligible p_sys mdate) :
    (p_sys.i_songs < QUEUE_MAX →
      queued (AddToQueue p_sys mdate) = queued p_sys ++ [p_sys.p_current_song] ∧
      (∀ i, i < p_sys.i_songs → (AddToQueue p_sys mdate).p_queue i = p_sys.p_queue i) ∧
      (AddToQueue p_sys mdate).i_songs = p_sys.i_songs + 1) ∧
    (p_sys.i_songs = QUEUE_MAX →
      (AddToQueue p_sys mdate).p_queue = p_sys.p_queue ∧
      (AddToQueue p_sys mdate).i_songs = p_sys.i_songs ∧
      queued (AddToQueue p_sys mdate) = queued p_sys ∧
      (AddToQueue p_sys mdate).p_current_song = DeleteSong p_sys.p_current_song) ∧
    (∀ events : List Event,
      (run Open events).i_songs ≤ QUEUE_MAX ∧
      (queued (run Open events)).length ≤ QUEUE_MAX) := by
  refine ⟨?_, ?_, ?_⟩
  · intro hn
    rw [AddToQueue_of_eligible p_sys mdate h hn]
    refine ⟨queued_push p_sys _ _ rfl rfl, ?_, rfl⟩
    intro i hi
    have : i ≠ p_sys.i_songs := by omega
    simp [Function.update, this]
  · intro hn
    rw [AddToQueue_of_full p_sys mdate (by omega)]
    exact ⟨rfl, rfl, rfl, rfl⟩
  · intro events
    have h0 : (run Open events).i_songs ≤ QUEUE_MAX :=
      run_i_songs_le events Open (by decide)
    exact ⟨h0, by rw [queued_length]; exact h0⟩

/-- An instance of C4: the 300-second song of `playing_300s` is appended to the empty queue. -/
theorem C4_enqueue_witness :
    queued (AddToQueue playing_300s 5010000000) =
      queued playing_300s ++ [playing_300s.p_current_song] ∧
    (∀ i, i < playing_300s.i_songs →
      (AddToQueue playing_300s 5010000000).p_queue i = playing_300s.p_queue i) ∧
    (AddToQueue playing_300s 5010000000).i_songs = playing_300s.i_songs + 1 :=
  (C4_enqueue playing_300s 5010000000 (by decide)).1 (by decide)

theorem eligible_load (p_sys : intf_sys_t) (p : Play) (h : p.eligible) :
    eligible (load p_sys p) p.mdate := h

theorem play_i_songs_le (p_sys : intf_sys_t) (p : Play) (h : p_sys.i_songs ≤ QUEUE_MAX) :
    (play p_sys p).i_songs ≤ QUEUE_MAX :=
  AddToQueue_i_songs_le (load p_sys p) p.mdate h

/-- The queue after a run of eligible plays: the songs are appended in order
while there is room. -/
theorem queued_foldl_play (plays : List Play) (p_sys : intf_sys_t)
    (hel : ∀ p ∈ plays, p.eligible) (hn : p_sys.i_songs ≤ QUEUE_MAX) :
    queued (plays.foldl play p_sys) =
      queued p_sys ++ (plays.map Play.song).take (QUEUE_MAX - p_sys.i_songs) := by
  induction plays generalizing p_sys with
  | nil => simp
  | cons p ps ih =>
    have hp : eligible (load p_sys p) p.mdate :=
      eligible_load p_sys p (hel p (List.mem_cons_self _ _))
    have hps : ∀ q ∈ ps, q.eligible := fun q hq => hel q (List.mem_cons_of_mem _ hq)
    rw [List.foldl_cons, ih (play p_sys p) hps (play_i_songs_le p_sys p hn)]
    by_cases hlt : p_sys.i_songs < QUEUE_MAX
    · have hq : queued (play p_sys p) = queued p_sys ++ [p.song] := by
        unfold play
        rw [AddToQueue_of_eligible (load p_sys p) p.mdate hp hlt]
        exact queued_push p_sys _ _ rfl rfl
      have hi : (play p_sys p).i_songs = p_sys.i_songs + 1 := by
        unfold play
        rw [AddToQueue_of_eligible (load p_sys p) p.mdate hp hlt]
        rfl
      have hsub : QUEUE_MAX - p_sys.i_songs = (QUEUE_MAX - (p_sys.i_songs + 1)) + 1 := by omega
      rw [hq, hi, hsub, List.map_cons, List.take_succ_cons, List.append_assoc]
      rfl
    · have hfull : QUEUE_MAX ≤ (load p_sys p).i_songs := by
        show QUEUE_MAX ≤ p_sys.i_songs
        omega
      have hq : queued (play p_sys p) = queued p_sys := by
        unfold play
        rw [AddToQueue_of_full (load p_sys p) p.mdate hfull]
        rfl
      have hi : (play p_sys p).i_songs = p_sys.i_songs := by
        unfold play
        rw [AddToQueue_of_full (load p_sys p) p.mdate hfull]
        rfl
      have hz : QUEUE_MAX - p_sys.i_songs = 0 := by omega
      rw [hq, hi, hz]
      simp

/-- C5: starting from an empty queue, after any sequence of eligible plays the
queue holds the songs of the first `QUEUE_MAX` plays, in order; it never
holds more than `QUEUE_MAX` songs along the way; and with more than `QUEUE_MAX`
plays it holds exactly `QUEUE_MAX` songs. -/
theorem C5_first_plays_retained (p_sys : intf_sys_t) (plays : List Play)
    (h0 : p_sys.i_songs = 0) (hel : ∀ p ∈ plays, p.eligible) :
    queued (plays.foldl play p_sys) = (plays.map Play.song).take QUEUE_MAX ∧
    (∀ k, (queued ((plays.take k).foldl play p_sys)).length ≤ QUEUE_MAX) ∧
    (QUEUE_MAX < plays.length → (queued (plays.foldl play p_sys)).length = QUEUE_MAX) := by
  have hq0 : queued p_sys = [] := by simp [queued, h0]
  have hmain : queued (plays.foldl play p_sys) = (plays.map Play.song).take QUEUE_MAX := by
    rw [queued_foldl_play plays p_sys hel (by omega), hq0, h0]
    rfl
  refine ⟨hmain, ?_, ?_⟩
  · intro k
    have hk : ∀ p ∈ plays.take k, p.eligible := fun p hp => hel p (List.mem_of_mem_take hp)
    rw [queued_foldl_play (plays.take k) p_sys hk (by omega), hq0, h0]
    simp only [List.nil_append, Nat.sub_zero, List.length_take]
    exact Nat.min_le_left _ _
  · intro hM
    rw [hmain, List.length_take, List.length_map]
    exact Nat.min_eq_left (Nat.le_of_lt hM)

/-- An instance of C5: of fifty-one eligible plays the first fifty are kept. -/
theorem C5_first_plays_retained_witness :
    queued (fifty_one_plays.foldl play Open) = (fifty_one_plays.map Play.song).take QUEUE_MAX ∧
    (queued (fifty_one_plays.foldl play Open)).length = QUEUE_MAX := by
  have h := C5_first_plays_retained Open fifty_one_plays rfl (by decide)
  exact ⟨h.1, h.2.2 (by decide)⟩

/-! ## Searching strings -/

/-- `strstr` finds nothing exactly when the needle does not occur in the haystack. -/
theorem strstr_eq_none_iff (haystack needle : List Char) :
    strstr haystack needle = none ↔ ¬ needle <:+: haystack := by
  induction haystack with
  | nil =>
    unfold strstr
    by_cases hn : needle = []
    · simp [hn]
    · simp [hn]
  | cons c cs ih =>
    unfold strstr
    rw [List.infix_cons_iff, not_or, ← ih]
    by_cases hp : needle.isPrefixOf (c :: cs) = true
    · have hp' : needle <+: c :: cs := List.isPrefixOf_iff_prefix.mp hp
      simp [hp, hp']
    · have hp' : ¬ needle <+: c :: cs := fun h => hp (List.isPrefixOf_iff_prefix.mpr h)
      simp [hp, hp']

/-- `strstr` finds something exactly when the needle occurs in the haystack. -/
theorem strstr_isSome_iff (haystack needle : List Char) :
    (∃ pos, strstr haystack needle = some pos) ↔ needle <:+: haystack := by
  rw [← not_iff_not, ← strstr_eq_none_iff]
  cases strstr haystack needle <;> simp

/-- What `strstr` returns is a final part of the haystack that starts with the needle. -/
theorem strstr_eq_some (haystack needle pos : List Char)
    (h : strstr haystack needle = some pos) :
    ∃ pre, haystack = pre ++ pos ∧ needle <+: pos := by
  induction haystack with
  | nil =>
    unfold strstr at h
    by_cases hn : needle = []
    · rw [if_pos hn] at h
      cases h
      exact ⟨[], rfl, hn ▸ List.prefix_refl _⟩
    · rw [if_neg hn] at h
      cases h
  | cons c cs ih =>
    unfold strstr at h
    by_cases hp : needle.isPrefixOf (c :: cs) = true
    · rw [if_pos hp] at h
      cases h
      exact ⟨[], rfl, List.isPrefixOf_iff_prefix.mp hp⟩
    · rw [if_neg hp] at h
      obtain ⟨pre, h1, h2⟩ := ih h
      exact ⟨c :: pre, by rw [h1]; rfl, h2⟩

/-- A needle at the very start of the haystack is found there. -/
theorem strstr_of_prefix (haystack needle : List Char) (h : needle <+: haystack)
    (hne : haystack ≠ []) : strstr haystack needle = some haystack := by
  cases haystack with
  | nil => exact absurd rfl hne
  | cons c cs =>
    unfold strstr
    rw [if_pos (List.isPrefixOf_iff_prefix.mpr h)]

/-- A character that is not in the needle cannot start an occurrence. -/
theorem strstr_cons_of_not_mem (c : Char) (b needle : List Char) (hn : needle ≠ [])
    (hc : c ∉ needle) : strstr (c :: b) needle = strstr b needle := by
  unfold strstr
  have hp : ¬ needle.isPrefixOf (c :: b) = true := by
    intro hp
    rcases List.prefix_cons_iff.mp (List.isPrefixOf_iff_prefix.mp hp) with h | ⟨t, ht, -⟩
    · exact hn h
    · exact hc (ht ▸ List.mem_cons_self _ _)
  rw [if_neg hp]
  cases b <;> rfl

/-- The search skips an initial part in which the needle does not occur, when
that part is followed by a character that is not in the needle. -/
theorem strstr_append_cons (a b needle : List Char) (c : Char) (hc : c ∉ needle)
    (ha : ¬ needle <:+: a) : strstr (a ++ c :: b) needle = strstr (c :: b) needle := by
  induction a with
  | nil => rfl
  | cons x a ih =>
    have ha' : ¬ needle <:+: a := fun h => ha (List.infix_cons h)
    have hp : ¬ needle.isPrefixOf (x :: (a ++ c :: b)) = true := by
      intro hp
      have h1 : needle <+: (x :: a ++ [c]) ++ b := by
        have := List.isPrefixOf_iff_prefix.mp hp
        simpa using this
      have h2 : (x :: a ++ [c]) <+: (x :: a ++ [c]) ++ b := List.prefix_append _ _
      rcases List.prefix_or_prefix_of_prefix h1 h2 with h | h
      · rcases List.prefix_concat_iff.mp h with h | h
        · exact hc (h ▸ by simp)
        · exact ha h.isInfix
      · exact hc (h.subset (by simp))
    show strstr (x :: (a ++ c :: b)) needle = strstr (c :: b) needle
    rw [strstr, if_neg hp]
    exact ih ha'

/-- The needle does not occur across a character that it does not contain. -/
theorem not_infix_append_cons (a b needle : List Char) (c : Char) (hc : c ∉ needle)
    (ha : ¬ needle <:+: a) (hb : ¬ needle <:+: b) : ¬ needle <:+: a ++ c :: b := by
  have hn : needle ≠ [] := fun h => ha (h ▸ List.nil_infix)
  rw [← strstr_eq_none_iff, strstr_append_cons a b needle c hc ha,
    strstr_cons_of_not_mem c b needle hn hc, strstr_eq_none_iff]
  exact hb

/-! ## The answers of the server -/

/-- C8, as amended: the answer to a submission is sorted by the first marker
found, in the order `FAILED`, `BADSESSION`, `OK`.  An answer containing
`FAILED` is a failure reported with the text from `FAILED` on: the backoff is
applied and the plugin stays authenticated or not as it was.  Otherwise an
answer containing `BADSESSION` is a bad session: the backoff is applied and
the plugin is left not authenticated.  Otherwise an answer containing `OK` is
a success.  Otherwise the whole answer is reported as an authentication
failure, and the state is the one a bad session leaves: not authenticated,
backoff applied. -/
theorem C8_submission_answer_priority (p_sys : intf_sys_t) (p_buffer : List Char)
    (mdate : Int) :
    ("FAILED".toList <:+: p_buffer →
      ∃ pre rest, p_buffer = pre ++ ("FAILED".toList ++ rest) ∧
        Run_response p_sys p_buffer mdate =
          (handle_interval p_sys mdate, .failed ("FAILED".toList ++ rest)) ∧
        (Run_response p_sys p_buffer mdate).1.b_handshaked = p_sys.b_handshaked) ∧
    (¬ "FAILED".toList <:+: p_buffer → "BADSESSION".toList <:+: p_buffer →
      Run_response p_sys p_buffer mdate =
        (handle_interval { p_sys with b_handshaked := false } mdate, .badsession) ∧
      (Run_response p_sys p_buffer mdate).1.b_handshaked = false) ∧
    (¬ "FAILED".toList <:+: p_buffer → ¬ "BADSESSION".toList <:+: p_buffer →
      "OK".toList <:+: p_buffer →
      Run_response p_sys p_buffer mdate =
        ({ p_sys with p_queue := delete_songs p_sys.p_queue p_sys.i_songs, i_songs := 0,
                      i_interval := 0, next_exchange := mdate }, .successful) ∧
      (Run_response p_sys p_buffer mdate).1.b_handshaked = p_sys.b_handshaked) ∧
    (¬ "FAILED".toList <:+: p_buffer → ¬ "BADSESSION".toList <:+: p_buffer →
      ¬ "OK".toList <:+: p_buffer →
      Run_response p_sys p_buffer mdate =
        (handle_interval { p_sys with b_handshaked := false } mdate,
          .unrecognised p_buffer) ∧
      (Run_response p_sys p_buffer mdate).1.b_handshaked = false) := by
  refine ⟨?_, ?_, ?_, ?_⟩
  · intro hf
    obtain ⟨pos, hpos⟩ := (strstr_isSome_iff _ _).mpr hf
    obtain ⟨pre, hpre, rest, hrest⟩ := strstr_eq_some _ _ _ hpos
    subst hrest
    refine ⟨pre, rest, hpre, ?_, ?_⟩
    · simp only [Run_response, hpos]
    · simp only [Run_response, hpos]
      rfl
  · intro hf hb
    have h1 := (strstr_eq_none_iff _ _).mpr hf
    obtain ⟨pos, hpos⟩ := (strstr_isSome_iff _ _).mpr hb
    simp only [Run_response, h1, hpos]
    exact ⟨trivial, rfl⟩
  · intro hf hb ho
    have h1 := (strstr_eq_none_iff _ _).mpr hf
    have h2 := (strstr_eq_none_iff _ _).mpr hb
    obtain ⟨pos, hpos⟩ := (strstr_isSome_iff _ _).mpr ho
    simp only [Run_response, h1, h2, hpos]
    exact ⟨trivial, trivial⟩
  · intro hf hb ho
    have h1 := (strstr_eq_none_iff _ _).mpr hf
    have h2 := (strstr_eq_none_iff _ _).mpr hb
    have h3 := (strstr_eq_none_iff _ _).mpr ho
    simp only [Run_response, h1, h2, h3]
    exact ⟨trivial, rfl⟩

/-- Instances of C8 as amended: an answer with both `BADSESSION` and `OK` is a
bad session, and the answer `hello` leaves the plugin not authenticated. -/
theorem C8_submission_answer_priority_witness :
    (Run_response (authenticated Open) "BADSESSION OK".toList 0).2 = .badsession ∧
    (Run_response (authenticated Open) "hello".toList 0).1.b_handshaked = false := by
  constructor
  · rw [((C8_submission_answer_priority (authenticated Open) "BADSESSION OK".toList 0).2.1
      (by decide) (by decide)).1]
  · exact ((C8_submission_answer_priority (authenticated Open) "hello".toList 0).2.2.2
      (by decide) (by decide) (by decide)).2

/-- C8 fails as stated: the answer `hello` holds none of the three markers,
and is not handled as the failure that `FAILED` announces, which keeps the
plugin authenticated: it leaves the plugin not authenticated, in the very
state that the answer `BADSESSION` leaves. -/
theorem C8_counterexample :
    (¬ "FAILED".toList <:+: "hello".toList ∧ ¬ "BADSESSION".toList <:+: "hello".toList ∧
      ¬ "OK".toList <:+: "hello".toList) ∧
    (authenticated Open).b_handshaked = true ∧
    (Run_response (authenticated Open) "FAILED".toList 5020000000).1.b_handshaked = true ∧
    (Run_response (authenticated Open) "hello".toList 5020000000).1.b_handshaked = false ∧
    (Run_response (authenticated Open) "hello".toList 5020000000).1 ≠
      (Run_response (authenticated Open) "FAILED".toList 5020000000).1 ∧
    (Run_response (authenticated Open) "hello".toList 5020000000).1 =
      (Run_response (authenticated Open) "BADSESSION".toList 5020000000).1 ∧
    (Run_response (authenticated Open) "hello".toList 5020000000).2 =
      .unrecognised "hello".toList := by
  refine ⟨by decide, rfl, by decide, by decide, ?_, rfl, by decide⟩
  intro h
  have hb := congrArg intf_sys_t.b_handshaked h
  revert hb
  decide

/-- C9: the answer to the handshake is sorted by the first marker found, in
the order `FAILED `, `BADAUTH`, `BANNED`, `BADTIME`.  An answer containing
`FAILED ` gives `VLC_EGENERIC` (try later), reported with the text after the
marker; otherwise `BADAUTH`, `BANNED` and `BADTIME` each give
`VLC_AUDIOSCROBBLER_EFATAL` with their own diagnostic; otherwise an answer
without `OK` gives `VLC_EGENERIC` with the protocol diagnostic.  In none of
these cases is the state changed. -/
theorem C9_handshake_answer_priority (p_sys : intf_sys_t) (p_buffer : List Char) :
    ("FAILED ".toList <:+: p_buffer →
      ∃ pre rest, p_buffer = pre ++ ("FAILED ".toList ++ rest) ∧
        Handshake_parse p_sys p_buffer = (.VLC_EGENERIC, p_sys, some (.failed rest))) ∧
    (¬ "FAILED ".toList <:+: p_buffer → "BADAUTH".toList <:+: p_buffer →
      Handshake_parse p_sys p_buffer = (.VLC_AUDIOSCROBBLER_EFATAL, p_sys, some .badauth)) ∧
    (¬ "FAILED ".toList <:+: p_buffer → ¬ "BADAUTH".toList <:+: p_buffer →
      "BANNED".toList <:+: p_buffer →
      Handshake_parse p_sys p_buffer = (.VLC_AUDIOSCROBBLER_EFATAL, p_sys, some .banned)) ∧
    (¬ "FAILED ".toList <:+: p_buffer → ¬ "BADAUTH".toList <:+: p_buffer →
      ¬ "BANNED".toList <:+: p_buffer → "BADTIME".toList <:+: p_buffer →
      Handshake_parse p_sys p_buffer = (.VLC_AUDIOSCROBBLER_EFATAL, p_sys, some .badtime)) ∧
    (¬ "FAILED ".toList <:+: p_buffer → ¬ "BADAUTH".toList <:+: p_buffer →
      ¬ "BANNED".toList <:+: p_buffer → ¬ "BADTIME".toList <:+: p_buffer →
      ¬ "OK".toList <:+: p_buffer →
      Handshake_parse p_sys p_buffer = (.VLC_EGENERIC, p_sys, some .proto)) := by
  refine ⟨?_, ?_, ?_, ?_, ?_⟩
  · intro hf
    obtain ⟨pos, hpos⟩ := (strstr_isSome_iff _ _).mpr hf
    obtain ⟨pre, hpre, rest, hrest⟩ := strstr_eq_some _ _ _ hpos
    subst hrest
    refine ⟨pre, rest, hpre, ?_⟩
    simp only [Handshake_parse, hpos]
    rfl
  · intro hf ha
    have h1 := (strstr_eq_none_iff _ _).mpr hf
    obtain ⟨pos, hpos⟩ := (strstr_isSome_iff _ _).mpr ha
    simp only [Handshake_parse, h1, hpos]
  · intro hf ha hb
    have h1 := (strstr_eq_none_iff _ _).mpr hf
    have h2 := (strstr_eq_none_iff _ _).mpr ha
    obtain ⟨pos, hpos⟩ := (strstr_isSome_iff _ _).mpr hb
    simp only [Handshake_parse, h1, h2, hpos]
  · intro hf ha hb ht
    have h1 := (strstr_eq_none_iff _ _).mpr hf
    have h2 := (strstr_eq_none_iff _ _).mpr ha
    have h3 := (strstr_eq_none_iff _ _).mpr hb
    obtain ⟨pos, hpos⟩ := (strstr_isSome_iff _ _).mpr ht
    simp only [Handshake_parse, h1, h2, h3, hpos]
  · intro hf ha hb ht ho
    have h1 := (strstr_eq_none_iff _ _).mpr hf
    have h2 := (strstr_eq_none_iff _ _).mpr ha
    have h3 := (strstr_eq_none_iff _ _).mpr hb
    have h4 := (strstr_eq_none_iff _ _).mpr ht
    have h5 := (strstr_eq_none_iff _ _).mpr ho
    simp only [Handshake_parse, h1, h2, h3, h4, h5]

/-- An instance of C9: an answer with both `BADAUTH` and `OK` is fatal. -/
theorem C9_handshake_answer_priority_witness :
    Handshake_parse Open "BADAUTH OK".toList =
      (.VLC_AUDIOSCROBBLER_EFATAL, Open, some .badauth) :=
  (C9_handshake_answer_priority Open "BADAUTH OK".toList).2.1 (by decide) (by decide)

/-! ## The turn of the loop that ends with a successful submission -/

/-- After the loop that deletes the first `n` songs, a slot below `n` holds
the deleted song and any other slot is as before. -/
theorem delete_songs_apply (p_queue : Nat → audioscrobbler_song_t) (n i : Nat) :
    delete_songs p_queue n i = if i < n then DeleteSong (p_queue i) else p_queue i := by
  induction n with
  | zero => simp [delete_songs]
  | succ n ih =>
    unfold delete_songs
    by_cases hi : i = n
    · subst hi
      simp [Function.update, ih]
    · have h1 : (i < n + 1) = (i < n) := by
        apply propext
        omega
      simp [Function.update, hi, ih, h1]

/-- The branch `Submission successful!` is taken only for an answer with `OK`
and without `FAILED` and `BADSESSION`; it deletes the queued songs, resets the
count and the interval and sets `next_exchange` to `mdate()`. -/
theorem Run_response_successful (p_sys : intf_sys_t) (p_buffer : List Char) (mdate : Int)
    (h : (Run_response p_sys p_buffer mdate).2 = .successful) :
    (Run_response p_sys p_buffer mdate).1 =
      { p_sys with p_queue := delete_songs p_sys.p_queue p_sys.i_songs, i_songs := 0,
                   i_interval := 0, next_exchange := mdate } ∧
    "OK".toList <:+: p_buffer ∧ ¬ "FAILED".toList <:+: p_buffer ∧
    ¬ "BADSESSION".toList <:+: p_buffer := by
  cases h1 : strstr p_buffer "FAILED".toList with
  | some pos =>
    simp only [Run_response, h1] at h
    cases h
  | none =>
    cases h2 : strstr p_buffer "BADSESSION".toList with
    | some pos =>
      simp only [Run_response, h1, h2] at h
      cases h
    | none =>
      cases h3 : strstr p_buffer "OK".toList with
      | none =>
        simp only [Run_response, h1, h2, h3] at h
        cases h
      | some pos =>
        refine ⟨?_, (strstr_isSome_iff _ _).mp ⟨pos, h3⟩, (strstr_eq_none_iff _ _).mp h1,
          (strstr_eq_none_iff _ _).mp h2⟩
        simp only [Run_response, h1, h2, h3]

/-- A turn ends with `Submission successful!` only if the connection, the
transmission and the reception went well; the state is then the one left by
the interpretation of the answer. -/
theorem Run_exchange_successful (env : RunEnv) (p_sys : intf_sys_t) (psz_submit : List Char)
    (url : Option (List Char))
    (h : (Run_exchange env p_sys psz_submit url).exit = .successful) :
    (Run_exchange env p_sys psz_submit url).p_sys =
      (Run_response p_sys (c_string (env.p_buffer.take env.net_Read.toNat)) env.mdate).1 ∧
    (Run_response p_sys (c_string (env.p_buffer.take env.net_Read.toNat)) env.mdate).2 =
      .successful := by
  unfold Run_exchange at h ⊢
  by_cases h1 : env.i_post_socket = -1
  · simp only [h1, if_true] at h
    cases h
  · by_cases h2 : env.net_Printf = -1
    · simp only [h1, h2, if_true, if_false] at h
      cases h
    · by_cases h3 : env.net_Read ≤ 0
      · simp only [h1, h2, h3, if_true, if_false] at h
        cases h
      · simp only [h1, h2, h3, if_false] at h ⊢
        exact ⟨trivial, h⟩

/-- C7: when a turn of the loop, not interrupted by the callbacks, ends with
`Submission successful!`, the queue is empty, the interval is 0,
`next_exchange` is the current `mdate()`, and the plugin is still
authenticated; the answer then contains `OK` and neither `FAILED` nor
`BADSESSION`. -/
theorem C7_successful_submission (env : RunEnv) (p_sys : intf_sys_t)
    (h : (Run_iteration env p_sys).exit = .successful) :
    queued (Run_iteration env p_sys).p_sys = [] ∧
    (Run_iteration env p_sys).p_sys.i_songs = 0 ∧
    (Run_iteration env p_sys).p_sys.i_interval = 0 ∧
    (Run_iteration env p_sys).p_sys.next_exchange = env.mdate ∧
    (Run_iteration env p_sys).p_sys.b_handshaked = true ∧
    ("OK".toList <:+: c_string (env.p_buffer.take env.net_Read.toNat) ∧
      ¬ "FAILED".toList <:+: c_string (env.p_buffer.take env.net_Read.toNat) ∧
      ¬ "BADSESSION".toList <:+: c_string (env.p_buffer.take env.net_Read.toNat)) := by
  unfold Run_iteration at h ⊢
  dsimp only at h ⊢
  by_cases hd : (!env.alive_after) = true
  · rw [if_pos hd] at h
    cases h
  · rw [if_neg hd] at h ⊢
    by_cases hw : Run_b_wait env p_sys = true
    · rw [if_pos hw] at h
      cases h
    · rw [if_neg hw] at h ⊢
      cases hh : Run_handshake env p_sys with
      | error r =>
        rw [hh] at h
        dsimp only at h
        unfold Run_handshake at hh
        by_cases hb : p_sys.b_handshaked = false
        · rw [if_pos hb] at hh
          dsimp only at hh
          cases hret : (Handshake env.handshake p_sys).ret <;> rw [hret] at hh <;>
            dsimp only at hh <;> cases hh <;> cases h
        · rw [if_neg hb] at hh
          cases hh
      | ok qu =>
        obtain ⟨q, url⟩ := qu
        rw [hh] at h
        dsimp only at h ⊢
        obtain ⟨hq1, hq2⟩ := Run_exchange_successful env q (Run_submit q) url h
        obtain ⟨hr1, hr2⟩ := Run_response_successful q _ env.mdate hq2
        rw [hq1, hr1]
        exact ⟨rfl, rfl, rfl, rfl, (Run_handshake_ok env p_sys q url hh).2.2, hr2⟩

/-- An instance of C7: an authenticated state with one queued song, and the answer `OK`. -/
theorem C7_successful_submission_witness :
    queued (Run_iteration (answering "OK\n".toList 5020000000)
      (authenticated (play Open (play_300s 1200000000)))).p_sys = [] ∧
    (Run_iteration (answering "OK\n".toList 5020000000)
      (authenticated (play Open (play_300s 1200000000)))).p_sys.i_songs = 0 ∧
    (Run_iteration (answering "OK\n".toList 5020000000)
      (authenticated (play Open (play_300s 1200000000)))).p_sys.i_interval = 0 ∧
    (Run_iteration (answering "OK\n".toList 5020000000)
      (authenticated (play Open (play_300s 1200000000)))).p_sys.next_exchange = 5020000000 ∧
    (Run_iteration (answering "OK\n".toList 5020000000)
      (authenticated (play Open (play_300s 1200000000)))).p_sys.b_handshaked = true := by
  have h := C7_successful_submission (answering "OK\n".toList 5020000000)
    (authenticated (play Open (play_300s 1200000000))) (by decide)
  exact ⟨h.1, h.2.1, h.2.2.1, h.2.2.2.1, h.2.2.2.2.1⟩

/-- C6, the code evaluated where it departs from the claim.  The plugin is
authenticated and holds one song; a second song is playing.  The loop forges
the request from the queue, which names the first song only.  The second song
ends and `AddToQueue` appends it while the request is under way.  The answer
`OK` is then applied to the state as it stands: the loop deletes the songs
below the current `i_songs` and resets it, so the queue is left empty and the
second song, which was never sent, is gone. -/
theorem C6_success_drops_later_songs :
    queued one_queued_one_playing = [(play_300s 1200000000).song] ∧
    (∃ p_sys, Run_handshake (answering "OK\n".toList 1200000710000000)
        one_queued_one_playing = .ok (p_sys, none) ∧
      Run_submit p_sys =
        "s=".toList ++ token_32 ++ submit_song 0 (play_300s 1200000000).song) ∧
    queued (AddToQueue one_queued_one_playing 1200000700000000) =
      [(play_300s 1200000000).song, (play_300s 1200000400).song] ∧
    (Run_exchange (answering "OK\n".toList 1200000710000000)
      (AddToQueue one_queued_one_playing 1200000700000000)
      (Run_submit one_queued_one_playing) none).exit = .successful ∧
    queued (Run_exchange (answering "OK\n".toList 1200000710000000)
      (AddToQueue one_queued_one_playing 1200000700000000)
      (Run_submit one_queued_one_playing) none).p_sys = [] ∧
    queued (Run_exchange (answering "OK\n".toList 1200000710000000)
      (AddToQueue one_queued_one_playing 1200000700000000)
      (Run_submit one_queued_one_playing) none).p_sys ≠ [(play_300s 1200000400).song] := by
  refine ⟨by decide, ⟨one_queued_one_playing, rfl, rfl⟩, by decide, by decide, by decide,
    by decide⟩

/-! ## The answer to the handshake -/

/-- Without failure marker, with `OK`, a newline after it and at least 33
characters after that newline, the token is saved and the URLs are looked for
after the newline. -/
theorem Handshake_parse_of_OK (p_sys : intf_sys_t) (p_buffer pos1 pos2 : List Char)
    (hF : ¬ "FAILED ".toList <:+: p_buffer) (hA : ¬ "BADAUTH".toList <:+: p_buffer)
    (hB : ¬ "BANNED".toList <:+: p_buffer) (hT : ¬ "BADTIME".toList <:+: p_buffer)
    (h1 : strstr p_buffer "OK".toList = some pos1)
    (h2 : strstr pos1 "\n".toList = some pos2) (h3 : 34 ≤ strlen pos2) :
    Handshake_parse p_sys p_buffer =
      Handshake_urls { p_sys with psz_auth_token := (pos2.drop 1).take 32 } (pos2.drop 1) := by
  have e1 := (strstr_eq_none_iff _ _).mpr hF
  have e2 := (strstr_eq_none_iff _ _).mpr hA
  have e3 := (strstr_eq_none_iff _ _).mpr hB
  have e4 := (strstr_eq_none_iff _ _).mpr hT
  have e5 : ¬ strlen pos2 < 34 := by omega
  simp only [Handshake_parse, e1, e2, e3, e4, h1, h2, e5, if_false]

/-- The search for the URLs depends on its starting point only through the
first occurrence of `http://`. -/
theorem Handshake_urls_congr (p_sys : intf_sys_t) (pos pos' : List Char)
    (h : strstr pos "http://".toList = strstr pos' "http://".toList) :
    Handshake_urls p_sys pos = Handshake_urls p_sys pos' := by
  unfold Handshake_urls
  rw [h]

/-- The answer `OK`, newline, token, newline, `rest`: when the token and `rest`
hold no failure marker and the token holds no `http://`, the token saved is
made of the 32 characters that follow `OK` and its newline, and the URLs are
looked for in `rest`. -/
theorem Handshake_parse_answer (p_sys : intf_sys_t) (token rest : List Char)
    (hF : ¬ "FAILED ".toList <:+: token) (hA : ¬ "BADAUTH".toList <:+: token)
    (hB : ¬ "BANNED".toList <:+: token) (hT : ¬ "BADTIME".toList <:+: token)
    (hU : ¬ "http://".toList <:+: token)
    (hF' : ¬ "FAILED ".toList <:+: rest) (hA' : ¬ "BADAUTH".toList <:+: rest)
    (hB' : ¬ "BANNED".toList <:+: rest) (hT' : ¬ "BADTIME".toList <:+: rest)
    (hlen : 32 ≤ token.length + rest.length) :
    Handshake_parse p_sys ("OK\n".toList ++ token ++ '\n' :: rest) =
      Handshake_urls { p_sys with psz_auth_token := (token ++ '\n' :: rest).take 32 }
        ('\n' :: rest) := by
  have hbody : "OK\n".toList ++ token ++ '\n' :: rest =
      ['O', 'K'] ++ '\n' :: (token ++ '\n' :: rest) := by
    simp
  have h1 : strstr ("OK\n".toList ++ token ++ '\n' :: rest) "OK".toList =
      some ("OK\n".toList ++ token ++ '\n' :: rest) := by
    apply strstr_of_prefix
    · exact ⟨'\n' :: (token ++ '\n' :: rest), by simp⟩
    · simp
  have h2 : strstr ("OK\n".toList ++ token ++ '\n' :: rest) "\n".toList =
      some ('\n' :: (token ++ '\n' :: rest)) := by
    rw [hbody]
    show strstr ('O' :: 'K' :: '\n' :: (token ++ '\n' :: rest)) "\n".toList = _
    rw [strstr_cons_of_not_mem 'O' _ _ (by decide) (by decide),
      strstr_cons_of_not_mem 'K' _ _ (by decide) (by decide)]
    exact strstr_of_prefix _ _ ⟨_, rfl⟩ (by simp)
  have h3 : 34 ≤ strlen ('\n' :: (token ++ '\n' :: rest)) := by
    simp only [strlen, List.length_cons, List.length_append]
    omega
  rw [Handshake_parse_of_OK p_sys _ _ _ ?_ ?_ ?_ ?_ h1 h2 h3]
  · show Handshake_urls _ (token ++ '\n' :: rest) = _
    exact Handshake_urls_congr _ _ _
      (strstr_append_cons token rest _ '\n' (by decide) hU)
  · rw [hbody]
    exact not_infix_append_cons _ _ _ '\n' (by decide) (by decide)
      (not_infix_append_cons token rest _ '\n' (by decide) hF hF')
  · rw [hbody]
    exact not_infix_append_cons _ _ _ '\n' (by decide) (by decide)
      (not_infix_append_cons token rest _ '\n' (by decide) hA hA')
  · rw [hbody]
    exact not_infix_append_cons _ _ _ '\n' (by decide) (by decide)
      (not_infix_append_cons token rest _ '\n' (by decide) hB hB')
  · rw [hbody]
    exact not_infix_append_cons _ _ _ '\n' (by decide) (by decide)
      (not_infix_append_cons token rest _ '\n' (by decide) hT hT')

/-- The answer of the scenario, whose submission URL has no port: `ParseURL`
finds no `:` and the handshake ends with the protocol diagnostic. -/
theorem Handshake_parse_no_port (p_sys : intf_sys_t) (token : List Char)
    (hF : ¬ "FAILED ".toList <:+: token) (hA : ¬ "BADAUTH".toList <:+: token)
    (hB : ¬ "BANNED".toList <:+: token) (hT : ¬ "BADTIME".toList <:+: token)
    (hU : ¬ "http://".toList <:+: token) :
    Handshake_parse p_sys
        ("OK\n".toList ++ token ++
          "\nhttp://np.example/path\nhttp://post.example/submit\n".toList) =
      (.VLC_EGENERIC,
       { p_sys with
         psz_auth_token :=
           (token ++ "\nhttp://np.example/path\nhttp://post.example/submit\n".toList).take 32,
         psz_submit_host := none, psz_submit_file := none },
       some .proto) := by
  have h := Handshake_parse_answer p_sys token
    "http://np.example/path\nhttp://post.example/submit\n".toList hF hA hB hT hU
    (by decide) (by decide) (by decide) (by decide)
    (by simp only [String.toList, List.length_cons, List.length_nil]; omega)
  exact h.trans rfl

/-- The same answer with the port written in the submission URL. -/
theorem Handshake_parse_port_80 (p_sys : intf_sys_t) (token : List Char)
    (hF : ¬ "FAILED ".toList <:+: token) (hA : ¬ "BADAUTH".toList <:+: token)
    (hB : ¬ "BANNED".toList <:+: token) (hT : ¬ "BADTIME".toList <:+: token)
    (hU : ¬ "http://".toList <:+: token) :
    Handshake_parse p_sys
        ("OK\n".toList ++ token ++
          "\nhttp://np.example/path\nhttp://post.example:80/submit\n".toList) =
      (.VLC_SUCCESS,
       { p_sys with
         psz_auth_token :=
           (token ++ "\nhttp://np.example/path\nhttp://post.example:80/submit\n".toList).take 32,
         psz_submit_host := some "post.example".toList, i_submit_port := 80,
         psz_submit_file := some "submit".toList },
       none) := by
  have h := Handshake_parse_answer p_sys token
    "http://np.example/path\nhttp://post.example:80/submit\n".toList hF hA hB hT hU
    (by decide) (by decide) (by decide) (by decide)
    (by simp only [String.toList, List.length_cons, List.length_nil]; omega)
  exact h.trans rfl

/-- C10, as amended: for every token free of the failure markers and of
`http://`, the answer whose submission URL is `http://post.example/submit`
gives `VLC_EGENERIC` with the protocol diagnostic and leaves no submission
host and file, because `ParseURL` turns away a URL without `:` and a port;
with the port written, `http://post.example:80/submit`, the handshake
succeeds with host `post.example`, port 80 and file `submit`. -/
theorem C10_submission_url_needs_port (p_sys : intf_sys_t) (token : List Char)
    (hF : ¬ "FAILED ".toList <:+: token) (hA : ¬ "BADAUTH".toList <:+: token)
    (hB : ¬ "BANNED".toList <:+: token) (hT : ¬ "BADTIME".toList <:+: token)
    (hU : ¬ "http://".toList <:+: token) :
    Handshake_parse p_sys
        ("OK\n".toList ++ token ++
          "\nhttp://np.example/path\nhttp://post.example/submit\n".toList) =
      (.VLC_EGENERIC,
       { p_sys with
         psz_auth_token :=
           (token ++ "\nhttp://np.example/path\nhttp://post.example/submit\n".toList).take 32,
         psz_submit_host := none, psz_submit_file := none },
       some .proto) ∧
    Handshake_parse p_sys
        ("OK\n".toList ++ token ++
          "\nhttp://np.example/path\nhttp://post.example:80/submit\n".toList) =
      (.VLC_SUCCESS,
       { p_sys with
         psz_auth_token :=
           (token ++ "\nhttp://np.example/path\nhttp://post.example:80/submit\n".toList).take 32,
         psz_submit_host := some "post.example".toList, i_submit_port := 80,
         psz_submit_file := some "submit".toList },
       none) :=
  ⟨Handshake_parse_no_port p_sys token hF hA hB hT hU,
   Handshake_parse_port_80 p_sys token hF hA hB hT hU⟩

/-- An instance of C10 as amended, for the token `token_32`. -/
theorem C10_submission_url_needs_port_witness :
    (Handshake_parse Open
        ("OK\n".toList ++ token_32 ++
          "\nhttp://np.example/path\nhttp://post.example/submit\n".toList)).1 =
      .VLC_EGENERIC ∧
    (Handshake_parse Open
        ("OK\n".toList ++ token_32 ++
          "\nhttp://np.example/path\nhttp://post.example:80/submit\n".toList)).1 =
      .VLC_SUCCESS := by
  have h := C10_submission_url_needs_port Open token_32 (by decide) (by decide) (by decide)
    (by decide) (by decide)
  exact ⟨by rw [h.1], by rw [h.2]⟩

/-- C10 fails as stated: for the token `token_32`, which holds no failure
marker, the answer of the scenario does not give a success with host
`post.example`, port 80 and file `submit`; it gives `VLC_EGENERIC` and leaves
no host. -/
theorem C10_counterexample :
    (¬ "FAILED ".toList <:+: token_32 ∧ ¬ "BADAUTH".toList <:+: token_32 ∧
      ¬ "BANNED".toList <:+: token_32 ∧ ¬ "BADTIME".toList <:+: token_32) ∧
    (Handshake_parse Open
        ("OK\n".toList ++ token_32 ++
          "\nhttp://np.example/path\nhttp://post.example/submit\n".toList)).1 =
      .VLC_EGENERIC ∧
    ¬ ((Handshake_parse Open
          ("OK\n".toList ++ token_32 ++
            "\nhttp://np.example/path\nhttp://post.example/submit\n".toList)).1 =
        .VLC_SUCCESS ∧
      (Handshake_parse Open
          ("OK\n".toList ++ token_32 ++
            "\nhttp://np.example/path\nhttp://post.example/submit\n".toList)).2.1.psz_submit_host =
        some "post.example".toList ∧
      (Handshake_parse Open
          ("OK\n".toList ++ token_32 ++
            "\nhttp://np.example/path\nhttp://post.example/submit\n".toList)).2.1.i_submit_port =
        80 ∧
      (Handshake_parse Open
          ("OK\n".toList ++ token_32 ++
            "\nhttp://np.example/path\nhttp://post.example/submit\n".toList)).2.1.psz_submit_file =
        some "submit".toList) := by
  have h := Handshake_parse_no_port Open token_32 (by decide) (by decide) (by decide)
    (by decide) (by decide)
  refine ⟨⟨by decide, by decide, by decide, by decide⟩, by rw [h], ?_⟩
  rw [h]
  rintro ⟨h1, -⟩
  cases h1

/-! ## The turns of the loop -/

/-- A turn that is neither dying nor holding and needs no handshake, or whose
handshake succeeds, goes on with the exchange. -/
theorem Run_iteration_of_ok (env : RunEnv) (p_sys q : intf_sys_t) (url : Option (List Char))
    (hd : env.alive_after = true) (hw : Run_b_wait env p_sys = false)
    (hh : Run_handshake env p_sys = .ok (q, url)) :
    Run_iteration env p_sys = Run_exchange env q (Run_submit q) url := by
  unfold Run_iteration
  simp only [hd, hw, hh, Bool.not_true, Bool.false_eq_true, if_false]

/-- A turn that is neither dying nor holding and whose handshake does not
succeed ends with the handshake. -/
theorem Run_iteration_of_error (env : RunEnv) (p_sys : intf_sys_t) (r : Run_result)
    (hd : env.alive_after = true) (hw : Run_b_wait env p_sys = false)
    (hh : Run_handshake env p_sys = .error r) :
    Run_iteration env p_sys = r := by
  unfold Run_iteration
  simp only [hd, hw, hh, Bool.not_true, Bool.false_eq_true, if_false]

/-- The four ways in which a turn of the loop runs. -/
theorem Run_iteration_cases (env : RunEnv) (p_sys : intf_sys_t) :
    ((Run_iteration env p_sys).p_sys = p_sys ∧ (Run_iteration env p_sys).exit = .dying) ∨
    ((Run_iteration env p_sys).p_sys = p_sys ∧ (Run_iteration env p_sys).exit = .holding) ∨
    (∃ r, Run_handshake env p_sys = .error r ∧ Run_iteration env p_sys = r) ∨
    (∃ q url, Run_handshake env p_sys = .ok (q, url) ∧
      Run_iteration env p_sys = Run_exchange env q (Run_submit q) url) := by
  by_cases hd : env.alive_after = true
  · by_cases hw : Run_b_wait env p_sys = true
    · right; left
      unfold Run_iteration
      simp only [hd, hw, Bool.not_true, Bool.false_eq_true, if_false, if_true]
      exact ⟨trivial, trivial⟩
    · have hw' : Run_b_wait env p_sys = false := by simpa using hw
      cases hh : Run_handshake env p_sys with
      | error r => exact Or.inr (Or.inr (Or.inl ⟨r, rfl, Run_iteration_of_error env p_sys r hd hw' hh⟩))
      | ok qu =>
        exact Or.inr (Or.inr (Or.inr ⟨qu.1, qu.2, rfl,
          Run_iteration_of_ok env p_sys qu.1 qu.2 hd hw' hh⟩))
  · left
    have hd' : env.alive_after = false := by simpa using hd
    unfold Run_iteration
    simp only [hd', Bool.not_false, if_true]
    exact ⟨trivial, trivial⟩

/-- How the handshake part of a turn ends the turn: with one of four exits,
without connection to the submission server and without request. -/
theorem Run_handshake_error_exit (env : RunEnv) (p_sys : intf_sys_t) (r : Run_result)
    (hr : Run_handshake env p_sys = .error r) :
    p_sys.b_handshaked = false ∧ r.connect = none ∧ r.request = none ∧
    r.psz_handshake_url = (Handshake env.handshake p_sys).psz_handshake_url ∧
    (((Handshake env.handshake p_sys).ret = .VLC_ENOMEM ∧ r.exit = .unload_enomem ∧
        r.p_sys = (Handshake env.handshake p_sys).p_sys) ∨
      ((Handshake env.handshake p_sys).ret = .VLC_ENOVAR ∧ r.exit = .unload_enovar ∧
        r.p_sys = (Handshake env.handshake p_sys).p_sys) ∨
      ((Handshake env.handshake p_sys).ret = .VLC_AUDIOSCROBBLER_EFATAL ∧
        r.exit = .unload_efatal ∧ r.p_sys = (Handshake env.handshake p_sys).p_sys) ∨
      ((Handshake env.handshake p_sys).ret = .VLC_EGENERIC ∧ r.exit = .handshake_later ∧
        r.p_sys = handle_interval (Handshake env.handshake p_sys).p_sys env.mdate_handshake)) := by
  unfold Run_handshake at hr
  by_cases hb : p_sys.b_handshaked = false
  · rw [if_pos hb] at hr
    dsimp only at hr
    cases hret : (Handshake env.handshake p_sys).ret <;> rw [hret] at hr <;>
      dsimp only at hr <;> cases hr <;> simp [hb]
  · rw [if_neg hb] at hr
    cases hr

/-- How the handshake part of a turn lets the turn go on: no handshake was
needed, or the handshake succeeded and the backoff was reset. -/
theorem Run_handshake_ok_state (env : RunEnv) (p_sys q : intf_sys_t)
    (url : Option (List Char)) (hq : Run_handshake env p_sys = .ok (q, url)) :
    (p_sys.b_handshaked = true ∧ q = p_sys ∧ url = none) ∨
    (p_sys.b_handshaked = false ∧ (Handshake env.handshake p_sys).ret = .VLC_SUCCESS ∧
      q = { (Handshake env.handshake p_sys).p_sys with
            b_handshaked := true, i_interval := 0, next_exchange := env.mdate_handshake } ∧
      url = (Handshake env.handshake p_sys).psz_handshake_url) := by
  unfold Run_handshake at hq
  by_cases hb : p_sys.b_handshaked = false
  · rw [if_pos hb] at hq
    dsimp only at hq
    right
    cases hret : (Handshake env.handshake p_sys).ret <;> rw [hret] at hq <;>
      dsimp only at hq <;> cases hq
    exact ⟨hb, rfl, rfl, rfl⟩
  · rw [if_neg hb] at hq
    cases hq
    left
    exact ⟨by simpa using hb, rfl, rfl⟩

/-- The interpretation of the answer touches the queue only in the branch
`Submission successful!`. -/
theorem Run_response_queue (p_sys : intf_sys_t) (p_buffer : List Char) (mdate : Int)
    (h : (Run_response p_sys p_buffer mdate).2 ≠ .successful) :
    (Run_response p_sys p_buffer mdate).1.i_songs = p_sys.i_songs ∧
    (Run_response p_sys p_buffer mdate).1.p_queue = p_sys.p_queue := by
  unfold Run_response at h ⊢
  cases h1 : strstr p_buffer "FAILED".toList with
  | some pos => exact ⟨rfl, rfl⟩
  | none =>
    cases h2 : strstr p_buffer "BADSESSION".toList with
    | some pos => exact ⟨rfl, rfl⟩
    | none =>
      cases h3 : strstr p_buffer "OK".toList with
      | none => exact ⟨rfl, rfl⟩
      | some pos =>
        rw [h1, h2, h3] at h
        exact absurd rfl h

/-- The exchange touches the queue only in the branch `Submission successful!`. -/
theorem Run_exchange_queue (env : RunEnv) (p_sys : intf_sys_t) (psz_submit : List Char)
    (url : Option (List Char))
    (h : (Run_exchange env p_sys psz_submit url).exit ≠ .successful) :
    (Run_exchange env p_sys psz_submit url).p_sys.i_songs = p_sys.i_songs ∧
    (Run_exchange env p_sys psz_submit url).p_sys.p_queue = p_sys.p_queue := by
  unfold Run_exchange at h ⊢
  by_cases h1 : env.i_post_socket = -1
  · simp only [h1, if_true]
    exact ⟨rfl, rfl⟩
  · by_cases h2 : env.net_Printf = -1
    · simp only [h1, h2, if_true, if_false]
      exact ⟨rfl, rfl⟩
    · by_cases h3 : env.net_Read ≤ 0
      · simp only [h1, h2, h3, if_true, if_false]
        exact ⟨trivial, trivial⟩
      · simp only [h1, h2, h3, if_false] at h ⊢
        exact Run_response_queue p_sys _ env.mdate h

/-- C18: in every turn of the loop (not interrupted by the callbacks) that
does not end with `Submission successful!`, the queue is unchanged: the count,
every slot, and so the list of queued songs are the same. -/
theorem C18_queue_kept_unless_successful (env : RunEnv) (p_sys : intf_sys_t)
    (h : (Run_iteration env p_sys).exit ≠ .successful) :
    (Run_iteration env p_sys).p_sys.i_songs = p_sys.i_songs ∧
    (Run_iteration env p_sys).p_sys.p_queue = p_sys.p_queue ∧
    queued (Run_iteration env p_sys).p_sys = queued p_sys := by
  have key : (Run_iteration env p_sys).p_sys.i_songs = p_sys.i_songs ∧
      (Run_iteration env p_sys).p_sys.p_queue = p_sys.p_queue := by
    rcases Run_iteration_cases env p_sys with ⟨h1, -⟩ | ⟨h1, -⟩ | ⟨r, hr, he⟩ | ⟨q, url, hq, he⟩
    · rw [h1]; exact ⟨rfl, rfl⟩
    · rw [h1]; exact ⟨rfl, rfl⟩
    · rw [he]
      exact Run_handshake_error env p_sys r hr
    · rw [he] at h ⊢
      obtain ⟨e1, e2⟩ := Run_exchange_queue env q (Run_submit q) url h
      obtain ⟨f1, f2, -⟩ := Run_handshake_ok env p_sys q url hq
      exact ⟨e1.trans f1, e2.trans f2⟩
  refine ⟨key.1, key.2, ?_⟩
  unfold queued
  rw [key.1, key.2]

/-- An instance of C18: the answer `FAILED` leaves the queued song in place. -/
theorem C18_queue_kept_unless_successful_witness :
    (Run_iteration (answering "FAILED Plugin bug".toList 5020000000)
      (authenticated (play Open (play_300s 1200000000)))).p_sys.i_songs = 1 ∧
    queued (Run_iteration (answering "FAILED Plugin bug".toList 5020000000)
      (authenticated (play Open (play_300s 1200000000)))).p_sys =
      [(play_300s 1200000000).song] := by
  have h := C18_queue_kept_unless_successful
    (answering "FAILED Plugin bug".toList 5020000000)
    (authenticated (play Open (play_300s 1200000000))) (by decide)
  exact ⟨h.1.trans (by decide), h.2.2.trans (by decide)⟩


/-! ## What a turn does with the answer to a submission -/

/-- When the connection and the transmission succeed and `net_Read` returns
data, the turn ends as the interpretation of the answer decides. -/
theorem Run_exchange_answer (env : RunEnv) (p_sys : intf_sys_t) (psz_submit : List Char)
    (url : Option (List Char))
    (h1 : env.i_post_socket ≠ -1) (h2 : env.net_Printf ≠ -1) (h3 : 0 < env.net_Read) :
    (Run_exchange env p_sys psz_submit url).p_sys =
      (Run_response p_sys (c_string (env.p_buffer.take env.net_Read.toNat)) env.mdate).1 ∧
    (Run_exchange env p_sys psz_submit url).exit =
      (Run_response p_sys (c_string (env.p_buffer.take env.net_Read.toNat)) env.mdate).2 := by
  have h3' : ¬ env.net_Read ≤ 0 := by omega
  unfold Run_exchange
  simp only [h1, h2, h3', if_false]
  exact ⟨trivial, trivial⟩

/-- The branch taken for an answer with `FAILED`. -/
theorem Run_response_failed (p_sys : intf_sys_t) (p_buffer : List Char) (mdate : Int)
    (hf : "FAILED".toList <:+: p_buffer) :
    (Run_response p_sys p_buffer mdate).1 = handle_interval p_sys mdate := by
  obtain ⟨pos, hpos⟩ := (strstr_isSome_iff _ _).mpr hf
  simp only [Run_response, hpos]

/-- The branch taken for an answer with `BADSESSION` and without `FAILED`. -/
theorem Run_response_badsession (p_sys : intf_sys_t) (p_buffer : List Char) (mdate : Int)
    (hf : ¬ "FAILED".toList <:+: p_buffer) (hb : "BADSESSION".toList <:+: p_buffer) :
    Run_response p_sys p_buffer mdate =
      (handle_interval { p_sys with b_handshaked := false } mdate, .badsession) := by
  have h1 := (strstr_eq_none_iff _ _).mpr hf
  obtain ⟨pos, hpos⟩ := (strstr_isSome_iff _ _).mpr hb
  simp only [Run_response, h1, hpos]

/-- The branch taken for an answer without any of the three markers. -/
theorem Run_response_unrecognised (p_sys : intf_sys_t) (p_buffer : List Char) (mdate : Int)
    (hf : ¬ "FAILED".toList <:+: p_buffer) (hb : ¬ "BADSESSION".toList <:+: p_buffer)
    (ho : ¬ "OK".toList <:+: p_buffer) :
    Run_response p_sys p_buffer mdate =
      (handle_interval { p_sys with b_handshaked := false } mdate, .unrecognised p_buffer) := by
  have h1 := (strstr_eq_none_iff _ _).mpr hf
  have h2 := (strstr_eq_none_iff _ _).mpr hb
  have h3 := (strstr_eq_none_iff _ _).mpr ho
  simp only [Run_response, h1, h2, h3]

/-- C15, as amended: in a turn that reaches the submission in the state `q`
and receives an answer, an answer containing `FAILED` applies
`HandleInterval` and keeps the plugin authenticated; an answer containing none
of `FAILED`, `BADSESSION`, `OK` applies `HandleInterval` too, but marks the
plugin as not authenticated, so that the next turn handshakes again. -/
theorem C15_failure_answers (env : RunEnv) (p_sys q : intf_sys_t) (url : Option (List Char))
    (hd : env.alive_after = true) (hw : Run_b_wait env p_sys = false)
    (hq : Run_handshake env p_sys = .ok (q, url))
    (h1 : env.i_post_socket ≠ -1) (h2 : env.net_Printf ≠ -1) (h3 : 0 < env.net_Read) :
    q.b_handshaked = true ∧
    ("FAILED".toList <:+: c_string (env.p_buffer.take env.net_Read.toNat) →
      (Run_iteration env p_sys).p_sys = handle_interval q env.mdate ∧
      ((Run_iteration env p_sys).p_sys.next_exchange,
        (Run_iteration env p_sys).p_sys.i_interval) = HandleInterval env.mdate q.i_interval ∧
      (Run_iteration env p_sys).p_sys.b_handshaked = true) ∧
    (¬ "FAILED".toList <:+: c_string (env.p_buffer.take env.net_Read.toNat) →
      ¬ "BADSESSION".toList <:+: c_string (env.p_buffer.take env.net_Read.toNat) →
      ¬ "OK".toList <:+: c_string (env.p_buffer.take env.net_Read.toNat) →
      (Run_iteration env p_sys).p_sys =
        handle_interval { q with b_handshaked := false } env.mdate ∧
      ((Run_iteration env p_sys).p_sys.next_exchange,
        (Run_iteration env p_sys).p_sys.i_interval) = HandleInterval env.mdate q.i_interval ∧
      (Run_iteration env p_sys).p_sys.b_handshaked = false ∧
      (Run_iteration env p_sys).exit =
        .unrecognised (c_string (env.p_buffer.take env.net_Read.toNat))) := by
  have hqb : q.b_handshaked = true := (Run_handshake_ok env p_sys q url hq).2.2
  obtain ⟨e1, e2⟩ := Run_exchange_answer env q (Run_submit q) url h1 h2 h3
  rw [Run_iteration_of_ok env p_sys q url hd hw hq]
  refine ⟨hqb, ?_, ?_⟩
  · intro hf
    rw [e1, Run_response_failed q _ env.mdate hf]
    exact ⟨rfl, rfl, hqb⟩
  · intro hf hb ho
    rw [e1, e2, Run_response_unrecognised q _ env.mdate hf hb ho]
    exact ⟨rfl, rfl, rfl, rfl⟩

/-- An instance of C15 as amended: the answer `FAILED Plugin bug` to an
authenticated plugin. -/
theorem C15_failure_answers_witness :
    (Run_iteration (answering "FAILED Plugin bug".toList 5020000000)
      (authenticated (play Open (play_300s 1200000000)))).p_sys.b_handshaked = true ∧
    (Run_iteration (answering "FAILED Plugin bug".toList 5020000000)
      (authenticated (play Open (play_300s 1200000000)))).p_sys.i_interval = 1 := by
  have h := (C15_failure_answers (answering "FAILED Plugin bug".toList 5020000000)
    (authenticated (play Open (play_300s 1200000000)))
    (authenticated (play Open (play_300s 1200000000))) none rfl (by decide) rfl
    (by decide) (by decide) (by decide)).2.1 (by decide)
  exact ⟨h.2.2, (congrArg Prod.snd h.2.1).trans (by decide)⟩

/-- C15 fails as stated: the answer `hello`, which contains none of `FAILED`,
`BADSESSION`, `OK`, leaves an authenticated plugin not authenticated. -/
theorem C15_counterexample :
    (¬ "FAILED".toList <:+: "hello".toList ∧ ¬ "BADSESSION".toList <:+: "hello".toList ∧
      ¬ "OK".toList <:+: "hello".toList) ∧
    (authenticated (play Open (play_300s 1200000000))).b_handshaked = true ∧
    (Run_iteration (answering "hello".toList 5020000000)
      (authenticated (play Open (play_300s 1200000000)))).exit =
      .unrecognised "hello".toList ∧
    (Run_iteration (answering "hello".toList 5020000000)
      (authenticated (play Open (play_300s 1200000000)))).p_sys.i_interval = 1 ∧
    (Run_iteration (answering "hello".toList 5020000000)
      (authenticated (play Open (play_300s 1200000000)))).p_sys.b_handshaked = false := by
  refine ⟨⟨by decide, by decide, by decide⟩, rfl, by decide, by decide, by decide⟩

/-- C16: in a turn that reaches the submission in the state `q` and receives
an answer with `BADSESSION` and without `FAILED`, the plugin ends not
authenticated and the backoff is `HandleInterval` applied to the interval of
`q`; `q` is the starting state when the turn starts authenticated. -/
theorem C16_bad_session (env : RunEnv) (p_sys q : intf_sys_t) (url : Option (List Char))
    (hd : env.alive_after = true) (hw : Run_b_wait env p_sys = false)
    (hq : Run_handshake env p_sys = .ok (q, url))
    (h1 : env.i_post_socket ≠ -1) (h2 : env.net_Printf ≠ -1) (h3 : 0 < env.net_Read)
    (hf : ¬ "FAILED".toList <:+: c_string (env.p_buffer.take env.net_Read.toNat))
    (hb : "BADSESSION".toList <:+: c_string (env.p_buffer.take env.net_Read.toNat)) :
    (Run_iteration env p_sys).exit = .badsession ∧
    (Run_iteration env p_sys).p_sys.b_handshaked = false ∧
    ((Run_iteration env p_sys).p_sys.next_exchange,
      (Run_iteration env p_sys).p_sys.i_interval) = HandleInterval env.mdate q.i_interval ∧
    (Run_iteration env p_sys).p_sys =
      handle_interval { q with b_handshaked := false } env.mdate ∧
    (p_sys.b_handshaked = true → q = p_sys) := by
  obtain ⟨e1, e2⟩ := Run_exchange_answer env q (Run_submit q) url h1 h2 h3
  rw [Run_iteration_of_ok env p_sys q url hd hw hq, e1, e2,
    Run_response_badsession q _ env.mdate hf hb]
  refine ⟨rfl, rfl, rfl, rfl, ?_⟩
  intro hp
  rcases Run_handshake_ok_state env p_sys q url hq with ⟨-, h, -⟩ | ⟨h, -⟩
  · exact h
  · rw [hp] at h
    cases h

/-- An instance of C16: the answer `BADSESSION` to an authenticated plugin. -/
theorem C16_bad_session_witness :
    (Run_iteration (answering "BADSESSION\n".toList 5020000000)
      (authenticated (play Open (play_300s 1200000000)))).exit = .badsession ∧
    (Run_iteration (answering "BADSESSION\n".toList 5020000000)
      (authenticated (play Open (play_300s 1200000000)))).p_sys.b_handshaked = false ∧
    ((Run_iteration (answering "BADSESSION\n".toList 5020000000)
      (authenticated (play Open (play_300s 1200000000)))).p_sys.next_exchange,
      (Run_iteration (answering "BADSESSION\n".toList 5020000000)
      (authenticated (play Open (play_300s 1200000000)))).p_sys.i_interval) =
      HandleInterval 5020000000 0 := by
  have h := C16_bad_session (answering "BADSESSION\n".toList 5020000000)
    (authenticated (play Open (play_300s 1200000000)))
    (authenticated (play Open (play_300s 1200000000))) none rfl (by decide) rfl
    (by decide) (by decide) (by decide) (by decide) (by decide)
  exact ⟨h.1, h.2.1, h.2.2.1⟩

/-- C17, as amended: in a turn that reaches the submission in the state `q`,
a failed connection and a failed transmission apply `HandleInterval` and mark
the plugin as not authenticated; when `net_Read` returns no data or an error
the turn ends with the state `q` as it is: no backoff, and the plugin still
authenticated. -/
theorem C17_transport_errors (env : RunEnv) (p_sys q : intf_sys_t) (url : Option (List Char))
    (hd : env.alive_after = true) (hw : Run_b_wait env p_sys = false)
    (hq : Run_handshake env p_sys = .ok (q, url)) :
    (env.i_post_socket = -1 →
      (Run_iteration env p_sys).exit = .connect_failed ∧
      ((Run_iteration env p_sys).p_sys.next_exchange,
        (Run_iteration env p_sys).p_sys.i_interval) = HandleInterval env.mdate q.i_interval ∧
      (Run_iteration env p_sys).p_sys.b_handshaked = false) ∧
    (env.i_post_socket ≠ -1 → env.net_Printf = -1 →
      (Run_iteration env p_sys).exit = .send_failed ∧
      ((Run_iteration env p_sys).p_sys.next_exchange,
        (Run_iteration env p_sys).p_sys.i_interval) = HandleInterval env.mdate q.i_interval ∧
      (Run_iteration env p_sys).p_sys.b_handshaked = false) ∧
    (env.i_post_socket ≠ -1 → env.net_Printf ≠ -1 → env.net_Read ≤ 0 →
      (Run_iteration env p_sys).exit = .no_answer ∧
      (Run_iteration env p_sys).p_sys = q ∧
      (Run_iteration env p_sys).p_sys.b_handshaked = true) := by
  have hqb : q.b_handshaked = true := (Run_handshake_ok env p_sys q url hq).2.2
  rw [Run_iteration_of_ok env p_sys q url hd hw hq]
  unfold Run_exchange
  refine ⟨?_, ?_, ?_⟩
  · intro h1
    simp only [h1, if_true]
    exact ⟨trivial, rfl, trivial⟩
  · intro h1 h2
    simp only [h1, h2, if_true, if_false]
    exact ⟨trivial, rfl, trivial⟩
  · intro h1 h2 h3
    simp only [h1, h2, h3, if_true, if_false]
    exact ⟨trivial, trivial, hqb⟩

/-- An instance of C17 as amended: the connection to the submission server fails. -/
theorem C17_transport_errors_witness :
    (Run_iteration (unreachable_submission 5020000000)
      (authenticated (play Open (play_300s 1200000000)))).exit = .connect_failed ∧
    ((Run_iteration (unreachable_submission 5020000000)
      (authenticated (play Open (play_300s 1200000000)))).p_sys.next_exchange,
      (Run_iteration (unreachable_submission 5020000000)
      (authenticated (play Open (play_300s 1200000000)))).p_sys.i_interval) =
      HandleInterval 5020000000 0 ∧
    (Run_iteration (unreachable_submission 5020000000)
      (authenticated (play Open (play_300s 1200000000)))).p_sys.b_handshaked = false :=
  (C17_transport_errors (unreachable_submission 5020000000)
    (authenticated (play Open (play_300s 1200000000)))
    (authenticated (play Open (play_300s 1200000000))) none rfl (by decide) rfl).1 rfl

/-- C17 fails as stated: when the submission server is reached and the request
sent but `net_Read` returns 0, the turn leaves the interval and
`next_exchange` as they were and the plugin authenticated. -/
theorem C17_counterexample :
    (answering [] 5020000000).i_post_socket ≠ -1 ∧
    (answering [] 5020000000).net_Printf ≠ -1 ∧
    (answering [] 5020000000).net_Read = 0 ∧
    (Run_iteration (answering [] 5020000000)
      (authenticated (play Open (play_300s 1200000000)))).exit = .no_answer ∧
    (Run_iteration (answering [] 5020000000)
      (authenticated (play Open (play_300s 1200000000)))).p_sys.i_interval =
      (authenticated (play Open (play_300s 1200000000))).i_interval ∧
    (Run_iteration (answering [] 5020000000)
      (authenticated (play Open (play_300s 1200000000)))).p_sys.next_exchange =
      (authenticated (play Open (play_300s 1200000000))).next_exchange ∧
    (Run_iteration (answering [] 5020000000)
      (authenticated (play Open (play_300s 1200000000)))).p_sys.b_handshaked = true := by
  refine ⟨by decide, by decide, rfl, by decide, by decide, by decide, by decide⟩


/-! ## The handshake part of a turn -/

/-- With an empty user name or password `Handshake` returns `VLC_ENOVAR`
before it builds any request, and leaves the state as it is. -/
theorem Handshake_enovar (env : HandshakeEnv) (p_sys : intf_sys_t) (u p : List Char)
    (hu : env.psz_username = some u) (hp : env.psz_password = some p)
    (he : u = [] ∨ p = []) :
    (Handshake env p_sys).ret = .VLC_ENOVAR ∧ (Handshake env p_sys).p_sys = p_sys ∧
    (Handshake env p_sys).psz_handshake_url = none := by
  unfold Handshake
  simp only [hu, hp, he, if_true]
  exact ⟨trivial, trivial, trivial⟩

/-- With a user name, a password and an answer that is not empty, `Handshake`
returns what the interpretation of the answer returns; the state interpreted
is the given one with the authentication token of the request. -/
theorem Handshake_of_answer (env : HandshakeEnv) (p_sys : intf_sys_t) (u p bytes : List Char)
    (hu : env.psz_username = some u) (hp : env.psz_password = some p)
    (hue : u ≠ []) (hpe : p ≠ []) (hs : env.stream = some bytes) (hb : bytes ≠ []) :
    ∃ tok,
      (Handshake env p_sys).ret =
        (Handshake_parse { p_sys with psz_auth_token := tok }
          (c_string (bytes.take 1023))).1 ∧
      (Handshake env p_sys).p_sys =
        (Handshake_parse { p_sys with psz_auth_token := tok }
          (c_string (bytes.take 1023))).2.1 ∧
      (Handshake env p_sys).msg =
        (Handshake_parse { p_sys with psz_auth_token := tok }
          (c_string (bytes.take 1023))).2.2 := by
  have hlen : ¬ (bytes.take 1023).length = 0 := by
    cases bytes with
    | nil => exact absurd rfl hb
    | cons c cs => simp
  have hne : ¬ (u = [] ∨ p = []) := by
    rintro (h | h)
    · exact hue h
    · exact hpe h
  unfold Handshake
  simp only [hu, hp, hs, hne, hlen, if_false]
  exact ⟨_, rfl, rfl, rfl⟩

/-- An answer with `BADAUTH`, `BANNED` or `BADTIME` and without `FAILED ` is
fatal, and its interpretation leaves the state as it is. -/
theorem Handshake_parse_fatal (p_sys : intf_sys_t) (p_buffer : List Char)
    (hf : ¬ "FAILED ".toList <:+: p_buffer)
    (hm : "BADAUTH".toList <:+: p_buffer ∨ "BANNED".toList <:+: p_buffer ∨
      "BADTIME".toList <:+: p_buffer) :
    (Handshake_parse p_sys p_buffer).1 = .VLC_AUDIOSCROBBLER_EFATAL ∧
    (Handshake_parse p_sys p_buffer).2.1 = p_sys := by
  have h1 := (strstr_eq_none_iff _ _).mpr hf
  cases h2 : strstr p_buffer "BADAUTH".toList with
  | some pos => simp only [Handshake_parse, h1, h2]; exact ⟨trivial, trivial⟩
  | none =>
    cases h3 : strstr p_buffer "BANNED".toList with
    | some pos => simp only [Handshake_parse, h1, h2, h3]; exact ⟨trivial, trivial⟩
    | none =>
      cases h4 : strstr p_buffer "BADTIME".toList with
      | some pos => simp only [Handshake_parse, h1, h2, h3, h4]; exact ⟨trivial, trivial⟩
      | none =>
        rcases hm with h | h | h
        · exact absurd h ((strstr_eq_none_iff _ _).mp h2)
        · exact absurd h ((strstr_eq_none_iff _ _).mp h3)
        · exact absurd h ((strstr_eq_none_iff _ _).mp h4)

/-- The loop of `Run` stops at a turn that ends with `return`. -/
theorem Run_of_returns (env : RunEnv) (envs : List RunEnv) (p_sys : intf_sys_t)
    (h : (Run_iteration env p_sys).exit.returns = true) :
    Run (env :: envs) p_sys = [Run_iteration env p_sys] := by
  unfold Run
  simp only [h, if_true]

/-- A turn that handshakes and gets `VLC_ENOVAR` or `VLC_AUDIOSCROBBLER_EFATAL`
ends the loop, with the state left by `Handshake` and without connection to
the submission server. -/
theorem Run_iteration_unload (env : RunEnv) (envs : List RunEnv) (p_sys : intf_sys_t)
    (hd : env.alive_after = true) (hw : Run_b_wait env p_sys = false)
    (hb : p_sys.b_handshaked = false)
    (hret : (Handshake env.handshake p_sys).ret = .VLC_ENOVAR ∨
      (Handshake env.handshake p_sys).ret = .VLC_AUDIOSCROBBLER_EFATAL) :
    Run (env :: envs) p_sys = [Run_iteration env p_sys] ∧
    ((Run_iteration env p_sys).exit = .unload_enovar ∨
      (Run_iteration env p_sys).exit = .unload_efatal) ∧
    ((Handshake env.handshake p_sys).ret = .VLC_ENOVAR →
      (Run_iteration env p_sys).exit = .unload_enovar) ∧
    ((Handshake env.handshake p_sys).ret = .VLC_AUDIOSCROBBLER_EFATAL →
      (Run_iteration env p_sys).exit = .unload_efatal) ∧
    (Run_iteration env p_sys).p_sys = (Handshake env.handshake p_sys).p_sys ∧
    (Run_iteration env p_sys).psz_handshake_url =
      (Handshake env.handshake p_sys).psz_handshake_url ∧
    (Run_iteration env p_sys).connect = none ∧
    (Run_iteration env p_sys).request = none := by
  rcases hret with hret | hret
  · have hh : Run_handshake env p_sys = .error
        { p_sys := (Handshake env.handshake p_sys).p_sys, exit := .unload_enovar,
          psz_handshake_url := (Handshake env.handshake p_sys).psz_handshake_url,
          connect := none, request := none } := by
      unfold Run_handshake
      rw [if_pos hb]
      dsimp only
      rw [hret]
    have hi := Run_iteration_of_error env p_sys _ hd hw hh
    refine ⟨Run_of_returns env envs p_sys (by rw [hi]; rfl), ?_⟩
    rw [hi, hret]
    exact ⟨Or.inl rfl, fun _ => rfl, fun h => (by cases h), rfl, rfl, rfl, rfl⟩
  · have hh : Run_handshake env p_sys = .error
        { p_sys := (Handshake env.handshake p_sys).p_sys, exit := .unload_efatal,
          psz_handshake_url := (Handshake env.handshake p_sys).psz_handshake_url,
          connect := none, request := none } := by
      unfold Run_handshake
      rw [if_pos hb]
      dsimp only
      rw [hret]
    have hi := Run_iteration_of_error env p_sys _ hd hw hh
    refine ⟨Run_of_returns env envs p_sys (by rw [hi]; rfl), ?_⟩
    rw [hi, hret]
    exact ⟨Or.inr rfl, fun h => (by cases h), fun _ => rfl, rfl, rfl, rfl, rfl⟩

/-- C19: a turn of the loop that has to handshake ends the loop of `Run` at
once, without connecting to the submission server, without sending a request
and without touching the backoff, (1) when the user name or the password is
empty, in which case no handshake request is sent either and the state is left
as it is, and (2) when the answer to the handshake contains `BADAUTH`, `BANNED`
or `BADTIME` and not `FAILED `. -/
theorem C19_fatal_handshake_ends_the_loop (env : RunEnv) (envs : List RunEnv)
    (p_sys : intf_sys_t)
    (hd : env.alive_after = true) (hw : Run_b_wait env p_sys = false)
    (hb : p_sys.b_handshaked = false) :
    (∀ u p, env.handshake.psz_username = some u → env.handshake.psz_password = some p →
      (u = [] ∨ p = []) →
      Run (env :: envs) p_sys = [Run_iteration env p_sys] ∧
      (Run_iteration env p_sys).exit = .unload_enovar ∧
      (Run_iteration env p_sys).psz_handshake_url = none ∧
      (Run_iteration env p_sys).connect = none ∧
      (Run_iteration env p_sys).request = none ∧
      (Run_iteration env p_sys).p_sys = p_sys) ∧
    (∀ u p bytes, env.handshake.psz_username = some u →
      env.handshake.psz_password = some p → u ≠ [] → p ≠ [] →
      env.handshake.stream = some bytes → bytes ≠ [] →
      ¬ "FAILED ".toList <:+: c_string (bytes.take 1023) →
      ("BADAUTH".toList <:+: c_string (bytes.take 1023) ∨
        "BANNED".toList <:+: c_string (bytes.take 1023) ∨
        "BADTIME".toList <:+: c_string (bytes.take 1023)) →
      Run (env :: envs) p_sys = [Run_iteration env p_sys] ∧
      (Run_iteration env p_sys).exit = .unload_efatal ∧
      (Run_iteration env p_sys).connect = none ∧
      (Run_iteration env p_sys).request = none ∧
      (Run_iteration env p_sys).p_sys.b_handshaked = false ∧
      (Run_iteration env p_sys).p_sys.i_interval = p_sys.i_interval ∧
      (Run_iteration env p_sys).p_sys.next_exchange = p_sys.next_exchange) := by
  constructor
  · intro u p hu hp he
    obtain ⟨e1, e2, e3⟩ := Handshake_enovar env.handshake p_sys u p hu hp he
    obtain ⟨r1, -, r3, -, r5, r6, r7, r8⟩ :=
      Run_iteration_unload env envs p_sys hd hw hb (Or.inl e1)
    exact ⟨r1, r3 e1, r6.trans e3, r7, r8, r5.trans e2⟩
  · intro u p bytes hu hp hue hpe hs hbe hf hm
    obtain ⟨tok, e1, e2, -⟩ :=
      Handshake_of_answer env.handshake p_sys u p bytes hu hp hue hpe hs hbe
    obtain ⟨f1, f2⟩ := Handshake_parse_fatal { p_sys with psz_auth_token := tok } _ hf hm
    have hret : (Handshake env.handshake p_sys).ret = .VLC_AUDIOSCROBBLER_EFATAL :=
      e1.trans f1
    obtain ⟨r1, -, -, r4, r5, -, r7, r8⟩ :=
      Run_iteration_unload env envs p_sys hd hw hb (Or.inr hret)
    refine ⟨r1, r4 hret, r7, r8, ?_, ?_, ?_⟩
    · rw [r5, e2, f2]; exact hb
    · rw [r5, e2, f2]
    · rw [r5, e2, f2]

/-- An instance of C19: the answer `BADAUTH` to the handshake of a fresh plugin. -/
theorem C19_fatal_handshake_ends_the_loop_witness :
    Run [handshaking "BADAUTH\n".toList 5020000000, answering "OK\n".toList 5030000000] Open =
      [Run_iteration (handshaking "BADAUTH\n".toList 5020000000) Open] ∧
    (Run_iteration (handshaking "BADAUTH\n".toList 5020000000) Open).exit = .unload_efatal ∧
    (Run_iteration (handshaking "BADAUTH\n".toList 5020000000) Open).connect = none ∧
    (Run_iteration (handshaking "BADAUTH\n".toList 5020000000) Open).request = none := by
  have h := (C19_fatal_handshake_ends_the_loop (handshaking "BADAUTH\n".toList 5020000000)
    [answering "OK\n".toList 5030000000] Open rfl (by decide) rfl).2
    "user".toList "secret".toList "BADAUTH\n".toList rfl rfl (by decide) (by decide) rfl
    (by decide) (by decide) (Or.inl (by decide))
  exact ⟨h.1, h.2.1, h.2.2.1, h.2.2.2.1⟩

/-! ## The requests -/

theorem fmt_u_eq (n : Nat) : fmt_u n = (Nat.repr n).toList := rfl

theorem fmt_d_natCast (n : Nat) : fmt_d (n : Int) = (Nat.repr n).toList := by
  unfold fmt_d
  have h : ¬ ((n : Int) < 0) := by omega
  rw [if_neg h]
  simp [fmt_u]

theorem fmt_d_of_nonneg (i : Int) (h : 0 ≤ i) : fmt_d i = (Nat.repr i.toNat).toList := by
  unfold fmt_d
  have h' : ¬ (i < 0) := by omega
  rw [if_neg h']
  rfl

/-- The decimal text of a number below `2 ^ 64` has at most 20 characters. -/
theorem fmt_u_length_le (n : Nat) (h : n < 2 ^ 64) : (fmt_u n).length ≤ 20 := by
  have h10 : n < 10 ^ 20 := by
    have : (2 : Nat) ^ 64 < 10 ^ 20 := by norm_num
    omega
  have := Nat.repr_length n 20 (by norm_num) h10
  simpa [fmt_u] using this

/-- C14: with a user name and a password that are not empty, the URL that
`Handshake` hands to `stream_UrlNew` is
`http://post.audioscrobbler.com/?hs=true&p=1.2&c=<client>&v=<version>&u=<user>&t=<T>&a=<A>`
where `T` is the timestamp in decimal and `A` is the digest of the digest of
the password followed by `T`; the digest function is any function that returns
32 characters.  With an empty user name or password no URL is built. -/
theorem C14_handshake_url (env : HandshakeEnv) (p_sys : intf_sys_t) (u p : List Char)
    (hu : env.psz_username = some u) (hp : env.psz_password = some p)
    (hmd5 : ∀ x, (env.md5 x).length = 32) (hts : env.timestamp < 2 ^ 64) :
    (u ≠ [] → p ≠ [] →
      (Handshake env p_sys).psz_handshake_url =
        some ("http://post.audioscrobbler.com/?hs=true&p=1.2&c=".toList ++ env.CLIENT_NAME ++
          "&v=".toList ++ env.CLIENT_VERSION ++ "&u=".toList ++ u ++
          "&t=".toList ++ (Nat.repr env.timestamp).toList ++
          "&a=".toList ++ env.md5 (env.md5 p ++ (Nat.repr env.timestamp).toList)) ∧
      (env.md5 (env.md5 p ++ (Nat.repr env.timestamp).toList)).length = 32) ∧
    (u = [] ∨ p = [] → (Handshake env p_sys).psz_handshake_url = none) := by
  constructor
  · intro hue hpe
    have hne : ¬ (u = [] ∨ p = []) := by
      rintro (h | h)
      · exact hue h
      · exact hpe h
    have ht : (fmt_u env.timestamp).take 32 = (Nat.repr env.timestamp).toList := by
      rw [List.take_of_length_le]
      · rfl
      · have := fmt_u_length_le env.timestamp hts
        omega
    have h32 : ∀ x, (env.md5 x).take 32 = env.md5 x := fun x =>
      List.take_of_length_le (by rw [hmd5 x])
    have h33 : ∀ x, (env.md5 x).take 33 = env.md5 x := fun x =>
      List.take_of_length_le (by rw [hmd5 x]; omega)
    refine ⟨?_, hmd5 _⟩
    unfold Handshake
    simp only [hu, hp, hne, if_false, ht, h32, h33, handshake_url]
    cases env.stream with
    | none => rfl
    | some bytes =>
      dsimp only
      split <;> rfl
  · intro he
    exact (Handshake_enovar env p_sys u p hu hp he).2.2

/-- An instance of C14, for the user `user` and a digest function that
returns 32 characters whatever it is given. -/
theorem C14_handshake_url_witness :
    (Handshake (handshake_of_user (fun _ => token_32)) Open).psz_handshake_url =
      some ("http://post.audioscrobbler.com/?hs=true&p=1.2&c=".toList ++ "vlc".toList ++
        "&v=".toList ++ "0.9.0".toList ++ "&u=".toList ++ "user".toList ++
        "&t=".toList ++ (Nat.repr 1200000500).toList ++
        "&a=".toList ++ token_32) :=
  ((C14_handshake_url (handshake_of_user (fun _ => token_32)) Open "user".toList
    "secret".toList rfl rfl (fun _ => rfl) (by decide)).1 (by decide) (by decide)).1


/-- The text forged for a well-formed song is the record of the specification. -/
theorem submit_song_eq_spec (i : Nat) (r : audioscrobbler_song_t) (h : well_formed r) :
    submit_song i r =
      spec_record i (r.psz_a.getD []) (r.psz_t.getD []) (Nat.repr r.date.toNat).toList
        (Nat.repr r.i_l.toNat).toList (r.psz_b.getD []) (r.psz_n.getD [])
        (r.psz_m.getD []) := by
  obtain ⟨ha, ht, hb, hn, hm, hd0, hd1, hl⟩ := h
  have fs : ∀ x : Option (List Char), x.isSome = true → fmt_s x = x.getD [] := by
    intro x hx
    cases x with
    | none => cases hx
    | some s => rfl
  have hdate : (r.date % (2 : Int) ^ 64).toNat = r.date.toNat := by
    rw [Int.emod_eq_of_lt hd0 hd1]
  unfold submit_song spec_record
  rw [fmt_d_natCast, fs _ ha, fs _ ht, fs _ hb, fs _ hn, fs _ hm, hdate,
    fmt_d_of_nonneg _ hl]
  rfl

/-- Appending one text per index is the same as appending the texts joined. -/
theorem foldl_append_range (f : Nat → List Char) (init : List Char) (n : Nat) :
    (List.range n).foldl (fun acc i => acc ++ f i) init =
      init ++ ((List.range n).map f).flatten := by
  induction n with
  | zero => simp
  | succ n ih =>
    rw [List.range_succ, List.foldl_append, ih]
    simp

theorem spec_records_append (i : Nat) (l : List audioscrobbler_song_t)
    (x : audioscrobbler_song_t) :
    spec_records i (l ++ [x]) = spec_records i l ++ spec_records (i + l.length) [x] := by
  induction l generalizing i with
  | nil => simp [spec_records]
  | cons r rs ih =>
    have e : i + (r :: rs).length = i + 1 + rs.length := by
      simp only [List.length_cons]
      omega
    rw [List.cons_append, spec_records, spec_records, ih (i + 1), e, List.append_assoc]

/-- The texts forged for the first `n` slots, when they hold well-formed
songs, are the records of the specification for these songs. -/
theorem join_submit_song_eq_spec (q : Nat → audioscrobbler_song_t) (n : Nat)
    (h : ∀ i, i < n → well_formed (q i)) :
    ((List.range n).map (fun i => submit_song i (q i))).flatten =
      spec_records 0 ((List.range n).map q) := by
  induction n with
  | zero => rfl
  | succ n ih =>
    have ih' := ih (fun i hi => h i (by omega))
    rw [List.range_succ, List.map_append, List.map_append, List.flatten_append, ih',
      List.map_singleton, List.map_singleton, spec_records_append]
    simp only [List.flatten_cons, List.flatten_nil, List.append_nil, List.length_map,
      List.length_range, Nat.zero_add, spec_records]
    rw [submit_song_eq_spec n (q n) (h n (by omega))]

/-- C13: for every state whose queued songs are well formed, the string forged
by `Run` is `s=` and the token followed by the records of the queued songs in
queue order, indexed from 0 in decimal, each in the form
`&a%5B<i>%5D=<artist>&t%5B<i>%5D=<title>&i%5B<i>%5D=<date>&o%5B<i>%5D=P`
`&r%5B<i>%5D=&l%5B<i>%5D=<length>&b%5B<i>%5D=<album>&n%5B<i>%5D=<number>&m%5B<i>%5D=<id>`;
with two songs the only indices are 0 and 1. -/
theorem C13_submission_body (p_sys : intf_sys_t)
    (h : ∀ r ∈ queued p_sys, well_formed r) :
    Run_submit p_sys = spec_submission_body p_sys.psz_auth_token (queued p_sys) ∧
    (p_sys.i_songs = 2 →
      Run_submit p_sys =
        "s=".toList ++ p_sys.psz_auth_token ++
        spec_record 0 ((p_sys.p_queue 0).psz_a.getD []) ((p_sys.p_queue 0).psz_t.getD [])
          (Nat.repr (p_sys.p_queue 0).date.toNat).toList
          (Nat.repr (p_sys.p_queue 0).i_l.toNat).toList
          ((p_sys.p_queue 0).psz_b.getD []) ((p_sys.p_queue 0).psz_n.getD [])
          ((p_sys.p_queue 0).psz_m.getD []) ++
        spec_record 1 ((p_sys.p_queue 1).psz_a.getD []) ((p_sys.p_queue 1).psz_t.getD [])
          (Nat.repr (p_sys.p_queue 1).date.toNat).toList
          (Nat.repr (p_sys.p_queue 1).i_l.toNat).toList
          ((p_sys.p_queue 1).psz_b.getD []) ((p_sys.p_queue 1).psz_n.getD [])
          ((p_sys.p_queue 1).psz_m.getD [])) := by
  have hwf : ∀ i, i < p_sys.i_songs → well_formed (p_sys.p_queue i) := by
    intro i hi
    apply h
    unfold queued
    exact List.mem_map.mpr ⟨i, List.mem_range.mpr hi, rfl⟩
  have main : Run_submit p_sys = spec_submission_body p_sys.psz_auth_token (queued p_sys) := by
    unfold Run_submit spec_submission_body queued
    rw [foldl_append_range (fun i => submit_song i (p_sys.p_queue i)),
      join_submit_song_eq_spec p_sys.p_queue p_sys.i_songs hwf]
  refine ⟨main, ?_⟩
  intro h2
  rw [main]
  unfold spec_submission_body queued
  rw [h2]
  simp [List.range_succ, spec_records, List.append_assoc]

/-- An instance of C13: the body forged for two queued songs. -/
theorem C13_submission_body_witness :
    Run_submit two_queued =
      "s=".toList ++ token_32 ++
      spec_record 0 "Artist".toList "Title".toList (Nat.repr 1200000000).toList
        (Nat.repr 300).toList [] [] [] ++
      spec_record 1 "Artist".toList "Title".toList (Nat.repr 1200000400).toList
        (Nat.repr 300).toList [] [] [] :=
  (C13_submission_body two_queued (by decide)).2 rfl


/-! ## Answers to the handshake with a single URL -/

theorem occurrences_le_cons (needle : List Char) (c : Char) (cs : List Char) :
    occurrences needle cs ≤ occurrences needle (c :: cs) := by
  show occurrences needle cs ≤ (if needle.isPrefixOf (c :: cs) then 1 else 0) +
    occurrences needle cs
  exact Nat.le_add_left _ _

/-- A final part of a string holds no more occurrences than the string. -/
theorem occurrences_le_append (needle pre pos : List Char) :
    occurrences needle pos ≤ occurrences needle (pre ++ pos) := by
  induction pre with
  | nil => exact Nat.le_refl _
  | cons c cs ih => exact Nat.le_trans ih (occurrences_le_cons needle c (cs ++ pos))

theorem occurrences_drop_le (needle l : List Char) (k : Nat) :
    occurrences needle (l.drop k) ≤ occurrences needle l := by
  have h := occurrences_le_append needle (l.take k) (l.drop k)
  rwa [List.take_append_drop] at h

/-- What `strstr` returns holds all the occurrences of the string searched,
and one of them at its start. -/
theorem occurrences_of_strstr (haystack needle pos : List Char) (hn : needle ≠ [])
    (h : strstr haystack needle = some pos) :
    occurrences needle haystack = occurrences needle pos ∧
    ∃ c cs, pos = c :: cs ∧ occurrences needle pos = 1 + occurrences needle cs := by
  induction haystack with
  | nil =>
    unfold strstr at h
    rw [if_neg hn] at h
    cases h
  | cons c cs ih =>
    unfold strstr at h
    by_cases hp : needle.isPrefixOf (c :: cs) = true
    · rw [if_pos hp] at h
      cases h
      refine ⟨rfl, c, cs, rfl, ?_⟩
      show (if needle.isPrefixOf (c :: cs) then 1 else 0) + occurrences needle cs = _
      rw [if_pos hp]
    · rw [if_neg hp] at h
      obtain ⟨h1, h2⟩ := ih h
      refine ⟨?_, h2⟩
      show (if needle.isPrefixOf (c :: cs) then 1 else 0) + occurrences needle cs = _
      rw [if_neg hp, h1]
      omega

/-- Two successful searches, the second one started seven characters after
the place found by the first, need two occurrences. -/
theorem two_le_occurrences (pos p1 p2 needle : List Char) (hn : needle ≠ [])
    (h1 : strstr pos needle = some p1) (h2 : strstr (p1.drop 7) needle = some p2) :
    2 ≤ occurrences needle pos := by
  obtain ⟨e1, c, cs, hc, e2⟩ := occurrences_of_strstr pos needle p1 hn h1
  obtain ⟨e3, c', cs', -, e4⟩ := occurrences_of_strstr (p1.drop 7) needle p2 hn h2
  have h3 : occurrences needle (p1.drop 7) ≤ occurrences needle cs := by
    rw [hc]
    exact occurrences_drop_le needle cs 6
  omega

/-- With at most one `http://` from the starting point on, the search for the
two URLs ends with the protocol diagnostic and leaves the state as it is. -/
theorem Handshake_urls_of_single (p_sys : intf_sys_t) (pos : List Char)
    (h : occurrences "http://".toList pos ≤ 1) :
    Handshake_urls p_sys pos = (.VLC_EGENERIC, p_sys, some .proto) := by
  unfold Handshake_urls
  cases h1 : strstr pos "http://".toList with
  | none => rfl
  | some p1 =>
    dsimp only
    split
    · rfl
    · cases h2 : strstr (p1.drop 7) "http://".toList with
      | none => rfl
      | some p2 =>
        have := two_le_occurrences pos p1 p2 _ (by decide) h1 h2
        omega

/-- C12: an answer to the handshake without failure marker, with `OK` and with
exactly one occurrence of `http://` gives `VLC_EGENERIC` with the protocol
diagnostic, whatever follows the URL; no submission address is stored. -/
theorem C12_single_url (p_sys : intf_sys_t) (p_buffer : List Char)
    (hF : ¬ "FAILED ".toList <:+: p_buffer) (hA : ¬ "BADAUTH".toList <:+: p_buffer)
    (hB : ¬ "BANNED".toList <:+: p_buffer) (hT : ¬ "BADTIME".toList <:+: p_buffer)
    (_hOK : "OK".toList <:+: p_buffer)
    (h1 : occurrences "http://".toList p_buffer = 1) :
    (Handshake_parse p_sys p_buffer).1 = .VLC_EGENERIC ∧
    (Handshake_parse p_sys p_buffer).2.2 = some .proto ∧
    (Handshake_parse p_sys p_buffer).2.1.psz_submit_host = p_sys.psz_submit_host ∧
    (Handshake_parse p_sys p_buffer).2.1.i_submit_port = p_sys.i_submit_port ∧
    (Handshake_parse p_sys p_buffer).2.1.psz_submit_file = p_sys.psz_submit_file := by
  have e1 := (strstr_eq_none_iff _ _).mpr hF
  have e2 := (strstr_eq_none_iff _ _).mpr hA
  have e3 := (strstr_eq_none_iff _ _).mpr hB
  have e4 := (strstr_eq_none_iff _ _).mpr hT
  cases h5 : strstr p_buffer "OK".toList with
  | none =>
    simp only [Handshake_parse, e1, e2, e3, e4, h5]
    exact ⟨trivial, trivial, trivial, trivial, trivial⟩
  | some pos1 =>
    cases h6 : strstr pos1 "\n".toList with
    | none =>
      simp only [Handshake_parse, e1, e2, e3, e4, h5, h6]
      exact ⟨trivial, trivial, trivial, trivial, trivial⟩
    | some pos2 =>
      by_cases h7 : strlen pos2 < 34
      · simp only [Handshake_parse, e1, e2, e3, e4, h5, h6, h7, if_true]
        exact ⟨trivial, trivial, trivial, trivial, trivial⟩
      · obtain ⟨pre1, hp1, -⟩ := strstr_eq_some _ _ _ h5
        obtain ⟨pre2, hp2, -⟩ := strstr_eq_some _ _ _ h6
        have hocc : occurrences "http://".toList (pos2.drop 1) ≤ 1 := by
          have a1 := occurrences_drop_le "http://".toList pos2 1
          have a2 := occurrences_le_append "http://".toList pre2 pos2
          have a3 := occurrences_le_append "http://".toList pre1 pos1
          rw [← hp2] at a2
          rw [← hp1] at a3
          omega
        simp only [Handshake_parse, e1, e2, e3, e4, h5, h6, h7, if_false]
        rw [Handshake_urls_of_single _ _ hocc]
        exact ⟨rfl, rfl, rfl, rfl, rfl⟩

/-- An instance of C12: an answer with the submission URL only. -/
theorem C12_single_url_witness :
    (Handshake_parse Open
      ("OK\n".toList ++ token_32 ++ "\nhttp://post.example:80/submit\n".toList)).1 =
      .VLC_EGENERIC ∧
    (Handshake_parse Open
      ("OK\n".toList ++ token_32 ++ "\nhttp://post.example:80/submit\n".toList)).2.2 =
      some .proto := by
  have h := C12_single_url Open
    ("OK\n".toList ++ token_32 ++ "\nhttp://post.example:80/submit\n".toList)
    (by decide) (by decide) (by decide) (by decide) (by decide) (by decide)
  exact ⟨h.1, h.2.1⟩


/-! ## Numbers in decimal and `ParseURL` -/

/-- The character written for a digit is a digit, of that value. -/
theorem digitChar_digit (m : Nat) (h : m < 10) :
    (Nat.digitChar m).isDigit = true ∧ (Nat.digitChar m).toNat - 48 = m := by
  revert m
  decide

theorem atoi_digits_cons_digit (c : Char) (cs : List Char) (acc : Int)
    (h : c.isDigit = true) :
    atoi_digits (c :: cs) acc = atoi_digits cs (acc * 10 + ((c.toNat - 48 : Nat) : Int)) := by
  rw [atoi_digits, if_pos h]

theorem atoi_digits_cons_not_digit (c : Char) (cs : List Char) (acc : Int)
    (h : c.isDigit = false) : atoi_digits (c :: cs) acc = acc := by
  rw [atoi_digits, if_neg (by simp [h])]

/-- Reading back the digits written by `Nat.toDigitsCore` gives the number. -/
theorem atoi_digits_toDigitsCore (f : Nat) : ∀ (n : Nat) (ds : List Char), n < f →
    atoi_digits (Nat.toDigitsCore 10 f n ds) 0 = atoi_digits ds (n : Int) := by
  induction f with
  | zero => intro n ds h; omega
  | succ f ih =>
    intro n ds h
    obtain ⟨d1, d2⟩ := digitChar_digit (n % 10) (Nat.mod_lt _ (by decide))
    unfold Nat.toDigitsCore
    by_cases h0 : n / 10 = 0
    · simp only [h0, if_true]
      rw [atoi_digits_cons_digit _ _ _ d1, d2]
      have : n % 10 = n := by omega
      rw [this]
      simp
    · simp only [h0, if_false]
      rw [ih (n / 10) _ (by omega), atoi_digits_cons_digit _ _ _ d1, d2]
      congr 1
      omega

theorem toDigitsCore_digits (f : Nat) : ∀ (n : Nat) (ds : List Char),
    ∀ c ∈ Nat.toDigitsCore 10 f n ds, c.isDigit = true ∨ c ∈ ds := by
  induction f with
  | zero =>
    intro n ds c hc
    exact Or.inr hc
  | succ f ih =>
    intro n ds c hc
    obtain ⟨d1, -⟩ := digitChar_digit (n % 10) (Nat.mod_lt _ (by decide))
    unfold Nat.toDigitsCore at hc
    by_cases h0 : n / 10 = 0
    · simp only [h0, if_true] at hc
      rcases List.mem_cons.mp hc with h | h
      · exact Or.inl (h ▸ d1)
      · exact Or.inr h
    · simp only [h0, if_false] at hc
      rcases ih (n / 10) _ c hc with h | h
      · exact Or.inl h
      · rcases List.mem_cons.mp h with h | h
        · exact Or.inl (h ▸ d1)
        · exact Or.inr h

/-- The decimal text of a number is made of digits. -/
theorem fmt_u_digits (n : Nat) : ∀ c ∈ fmt_u n, c.isDigit = true := by
  intro c hc
  have hc' : c ∈ Nat.toDigitsCore 10 (n + 1) n [] := hc
  rcases toDigitsCore_digits (n + 1) n [] c hc' with h | h
  · exact h
  · cases h

theorem toDigitsCore_append (f : Nat) : ∀ (n : Nat) (ds rest : List Char),
    Nat.toDigitsCore 10 f n ds ++ rest = Nat.toDigitsCore 10 f n (ds ++ rest) := by
  induction f with
  | zero => intro n ds rest; rfl
  | succ f ih =>
    intro n ds rest
    unfold Nat.toDigitsCore
    by_cases h0 : n / 10 = 0
    · simp only [h0, if_true, List.cons_append]
    · simp only [h0, if_false]
      rw [ih]
      rfl

/-- Reading the decimal text of a number, followed by anything, gives the
number once the text is read. -/
theorem atoi_digits_fmt_u (n : Nat) (rest : List Char) :
    atoi_digits (fmt_u n ++ rest) 0 = atoi_digits rest (n : Int) := by
  have h : fmt_u n ++ rest = Nat.toDigitsCore 10 (n + 1) n ([] ++ rest) :=
    toDigitsCore_append (n + 1) n [] rest
  rw [h]
  exact atoi_digits_toDigitsCore (n + 1) n _ (by omega)

/-- A digit is neither white space nor a sign. -/
theorem not_space_of_digit (c : Char) (h : c.isDigit = true) :
    isspace c = false ∧ c ≠ '-' ∧ c ≠ '+' := by
  refine ⟨?_, ?_, ?_⟩
  · unfold isspace
    have e : ∀ x : Char, x.isDigit = false → ¬ c = x := by
      intro x hx hcx
      rw [hcx, hx] at h
      cases h
    simp [e ' ' (by decide), e '\t' (by decide), e '\n' (by decide), e '\x0b' (by decide),
      e '\x0c' (by decide), e '\r' (by decide)]
  · rintro rfl
    revert h
    decide
  · rintro rfl
    revert h
    decide

/-- The conversion to `int` keeps a value that is in the range of `int`. -/
theorem to_int_of_range (i : Int) (h1 : -2147483648 ≤ i) (h2 : i < 2147483648) :
    to_int i = i := by
  unfold to_int
  omega

/-- On a string that starts with neither white space nor a sign, `strtol` reads
the digits from the start. -/
theorem strtol_of_head (c : Char) (cs : List Char) (h1 : isspace c = false)
    (h2 : c ≠ '-') (h3 : c ≠ '+') :
    strtol (c :: cs) = min (atoi_digits (c :: cs) 0) LONG_MAX := by
  unfold strtol
  have hd : (c :: cs).dropWhile isspace = c :: cs := by
    simp [List.dropWhile, h1]
  rw [hd]
  split
  · rename_i rest heq
    exact absurd (List.cons.inj heq).1 h2
  · rename_i rest heq
    exact absurd (List.cons.inj heq).1 h3
  · rfl

/-- The function `strtol` reads back the decimal text of a number that is
followed by a character other than a digit, up to `LONG_MAX`. -/
theorem strtol_fmt_u (n : Nat) (c : Char) (rest : List Char) (hc : c.isDigit = false)
    (h1 : isspace c = false) (h2 : c ≠ '-') (h3 : c ≠ '+') :
    strtol (fmt_u n ++ c :: rest) = min (n : Int) LONG_MAX := by
  have hv : atoi_digits (fmt_u n ++ c :: rest) 0 = (n : Int) := by
    rw [atoi_digits_fmt_u, atoi_digits_cons_not_digit _ _ _ hc]
  cases hf : fmt_u n with
  | nil =>
    rw [hf] at hv
    rw [List.nil_append] at hv ⊢
    rw [strtol_of_head c rest h1 h2 h3, hv]
  | cons d ds =>
    have hd : d.isDigit = true := fmt_u_digits n d (by rw [hf]; exact List.mem_cons_self _ _)
    obtain ⟨s1, s2, s3⟩ := not_space_of_digit d hd
    rw [hf] at hv
    rw [List.cons_append] at hv ⊢
    rw [strtol_of_head d _ s1 s2 s3, hv]

/-- The function `atoi` reads back the decimal text of a number in the range
of `int` that is followed by a character other than a digit. -/
theorem atoi_fmt_u (n : Nat) (c : Char) (rest : List Char) (hn : n < 2147483648)
    (hc : c.isDigit = false) (h1 : isspace c = false) (h2 : c ≠ '-') (h3 : c ≠ '+') :
    atoi (fmt_u n ++ c :: rest) = (n : Int) := by
  unfold atoi
  rw [strtol_fmt_u n c rest hc h1 h2 h3]
  have hm : min (n : Int) LONG_MAX = (n : Int) := by
    unfold LONG_MAX
    omega
  rw [hm]
  exact to_int_of_range _ (by omega) (by omega)

/-- The length of the initial part free of `c`, when `c` first comes after `a`. -/
theorem strcspn_append_cons (a b : List Char) (c : Char) (h : c ∉ a) :
    strcspn (a ++ c :: b) [c] = a.length := by
  unfold strcspn
  have hp : ∀ x ∈ a, (!([c] : List Char).contains x) = true := by
    intro x hx
    have : x ≠ c := fun e => h (e ▸ hx)
    simp [this]
  rw [List.takeWhile_append_of_pos hp]
  simp

/-- When no `c` occurs the initial part free of `c` is the whole string. -/
theorem strcspn_of_not_mem (a : List Char) (c : Char) (h : c ∉ a) :
    strcspn a [c] = a.length := by
  unfold strcspn
  have hp : ∀ x ∈ a, (!([c] : List Char).contains x) = true := by
    intro x hx
    have : x ≠ c := fun e => h (e ▸ hx)
    simp [this]
  rw [List.takeWhile_eq_self_iff.mpr hp]

/-- `ParseURL` on a host without `:` and `/`, a `:`, the decimal text of a
positive port, a `/` and a file. -/
theorem ParseURL_host_port_file (host file : List Char) (n : Nat) (i_port : Int)
    (hc : ':' ∉ host) (hs : '/' ∉ host) (hn : 0 < n) (hi : n < 2147483648) :
    ParseURL (host ++ ':' :: (fmt_u n ++ '/' :: file)) i_port =
      { ret := .VLC_SUCCESS, psz_host := some host, psz_file := some file, i_port := n } := by
  have h1 : strcspn (host ++ ':' :: (fmt_u n ++ '/' :: file)) [':'] = host.length :=
    strcspn_append_cons host _ ':' hc
  have hne : ¬ host.length = strlen (host ++ ':' :: (fmt_u n ++ '/' :: file)) := by
    simp [strlen]
  have h2 : (host ++ ':' :: (fmt_u n ++ '/' :: file)).drop (host.length + 1) =
      fmt_u n ++ '/' :: file := by
    rw [List.drop_append_eq_append_drop]
    simp
  have h3 : atoi (fmt_u n ++ '/' :: file) = (n : Int) :=
    atoi_fmt_u n '/' file hi (by decide) (by decide) (by decide) (by decide)
  have h4 : ¬ ((n : Int) ≤ 0) := by omega
  have hs' : '/' ∉ host ++ ':' :: fmt_u n := by
    intro hm
    rcases List.mem_append.mp hm with h | h
    · exact hs h
    · rcases List.mem_cons.mp h with h | h
      · revert h; decide
      · have := fmt_u_digits n '/' h
        revert this; decide
  have h5 : strcspn (host ++ ':' :: (fmt_u n ++ '/' :: file)) ['/'] =
      (host ++ ':' :: fmt_u n).length := by
    have e : host ++ ':' :: (fmt_u n ++ '/' :: file) = (host ++ ':' :: fmt_u n) ++ '/' :: file := by
      simp
    rw [e]
    exact strcspn_append_cons _ _ '/' hs'
  have hne2 : ¬ (host ++ ':' :: fmt_u n).length =
      strlen (host ++ ':' :: (fmt_u n ++ '/' :: file)) := by
    simp [strlen]
  have h6 : (host ++ ':' :: (fmt_u n ++ '/' :: file)).drop ((host ++ ':' :: fmt_u n).length + 1) =
      file := by
    have e : host ++ ':' :: (fmt_u n ++ '/' :: file) = (host ++ ':' :: fmt_u n) ++ '/' :: file := by
      simp
    rw [e, List.drop_append_eq_append_drop]
    simp
  have h7 : strndup (host ++ ':' :: (fmt_u n ++ '/' :: file)) host.length = host := by
    simp [strndup]
  unfold ParseURL
  simp only [h1, hne, if_false, h2, h3, h4, h5, hne2, h6, h7]

/-! ## The answer to the handshake with two URLs -/

/-- A string made of two parts without failure marker, joined by a newline, a
slash or a colon, holds no failure marker. -/
theorem marker_free_append_cons (a b : List Char) (c : Char)
    (hc : c = '\n' ∨ c = '/' ∨ c = ':') (ha : marker_free a) (hb : marker_free b) :
    marker_free (a ++ c :: b) := by
  intro m hm
  have hcm : c ∉ m := by
    simp only [failure_markers, List.mem_cons, List.mem_singleton, List.not_mem_nil,
      or_false] at hm
    rcases hm with rfl | rfl | rfl | rfl <;> rcases hc with rfl | rfl | rfl <;> decide
  exact not_infix_append_cons a b m c hcm (ha m hm) (hb m hm)

/-- The decimal text of a number holds no failure marker. -/
theorem marker_free_fmt_u (n : Nat) : marker_free (fmt_u n) := by
  intro m hm hinf
  have hex : ∃ x ∈ m, x.isDigit = false := by
    simp only [failure_markers, List.mem_cons, List.mem_singleton, List.not_mem_nil,
      or_false] at hm
    rcases hm with rfl | rfl | rfl | rfl
    · exact ⟨'F', by decide, by decide⟩
    · exact ⟨'B', by decide, by decide⟩
    · exact ⟨'B', by decide, by decide⟩
    · exact ⟨'B', by decide, by decide⟩
  obtain ⟨x, hx, hd⟩ := hex
  have := fmt_u_digits n x (hinf.subset hx)
  rw [hd] at this
  cases this

/-- The search for the two URLs on a first URL without `http://` inside and a
second URL without newline inside: the first is skipped, the second one is
handed to `ParseURL`; when `ParseURL` succeeds its results are stored. -/
theorem Handshake_urls_second (p_sys : intf_sys_t) (u1 url tail : List Char)
    (r : ParseURL_result)
    (hu : ¬ "http://".toList <:+: u1) (hn : '\n' ∉ url)
    (hr : ParseURL url p_sys.i_submit_port = r) (hret : r.ret = .VLC_SUCCESS) :
    Handshake_urls p_sys
        ('\n' :: ("http://".toList ++ (u1 ++ '\n' :: ("http://".toList ++ (url ++ '\n' :: tail))))) =
      (.VLC_SUCCESS,
       { p_sys with psz_submit_host := r.psz_host, psz_submit_file := r.psz_file,
                    i_submit_port := r.i_port },
       none) := by
  have s1 : strstr
      ('\n' :: ("http://".toList ++ (u1 ++ '\n' :: ("http://".toList ++ (url ++ '\n' :: tail)))))
      "http://".toList =
      some ("http://".toList ++ (u1 ++ '\n' :: ("http://".toList ++ (url ++ '\n' :: tail)))) := by
    rw [strstr_cons_of_not_mem '\n' _ _ (by decide) (by decide)]
    exact strstr_of_prefix _ _ (List.prefix_append _ _) (by simp)
  have l1 : ¬ strlen
      ("http://".toList ++ (u1 ++ '\n' :: ("http://".toList ++ (url ++ '\n' :: tail)))) = 7 := by
    simp [strlen]
  have d1 : ("http://".toList ++ (u1 ++ '\n' :: ("http://".toList ++ (url ++ '\n' :: tail)))).drop 7
      = u1 ++ '\n' :: ("http://".toList ++ (url ++ '\n' :: tail)) :=
    List.drop_left' rfl
  have s2 : strstr (u1 ++ '\n' :: ("http://".toList ++ (url ++ '\n' :: tail))) "http://".toList =
      some ("http://".toList ++ (url ++ '\n' :: tail)) := by
    rw [strstr_append_cons u1 _ _ '\n' (by decide) hu,
      strstr_cons_of_not_mem '\n' _ _ (by decide) (by decide)]
    exact strstr_of_prefix _ _ (List.prefix_append _ _) (by simp)
  have l2 : ¬ strlen ("http://".toList ++ (url ++ '\n' :: tail)) = 7 := by
    simp [strlen]
  have d2 : ("http://".toList ++ (url ++ '\n' :: tail)).drop 7 = url ++ '\n' :: tail :=
    List.drop_left' rfl
  have c1 : strcspn (url ++ '\n' :: tail) "\n".toList = url.length :=
    strcspn_append_cons url tail '\n' hn
  have t1 : strndup (url ++ '\n' :: tail) url.length = url := by
    simp [strndup]
  unfold Handshake_urls
  simp only [s1, l1, if_false, d1, s2, l2, d2, c1, t1, hr, hret]

/-- The answer with a token of 32 characters free of `http://`, a first URL
and a submission URL with its port: the handshake succeeds with the token, the
host, the port and the file of the answer. -/
theorem Handshake_parse_two_urls (p_sys : intf_sys_t) (token u1 host path : List Char)
    (n : Nat) (htl : token.length = 32)
    (hmt : marker_free token) (hm1 : marker_free u1) (hmh : marker_free host)
    (hmp : marker_free path)
    (hut : ¬ "http://".toList <:+: token) (hu1 : ¬ "http://".toList <:+: u1)
    (hhc : ':' ∉ host) (hhs : '/' ∉ host) (hhn : '\n' ∉ host)
    (hn : 1 ≤ n) (hi : n < 2147483648) (hpn : '\n' ∉ path) :
    Handshake_parse p_sys
        ("OK\n".toList ++ token ++ "\n".toList ++ "http://".toList ++ u1 ++ "\n".toList ++
          "http://".toList ++ host ++ ":".toList ++ (Nat.repr n).toList ++ "/".toList ++
          path ++ "\n".toList) =
      (.VLC_SUCCESS,
       { p_sys with psz_auth_token := token, psz_submit_host := some host,
                    i_submit_port := n, psz_submit_file := some path },
       none) := by
  have hbody : "OK\n".toList ++ token ++ "\n".toList ++ "http://".toList ++ u1 ++ "\n".toList ++
      "http://".toList ++ host ++ ":".toList ++ (Nat.repr n).toList ++ "/".toList ++
      path ++ "\n".toList =
      "OK\n".toList ++ token ++ '\n' :: ("http://".toList ++ (u1 ++ '\n' ::
        ("http://".toList ++ ((host ++ ':' :: (fmt_u n ++ '/' :: path)) ++ '\n' :: [])))) := by
    simp [List.append_assoc, fmt_u]
  have hmrest : marker_free ("http://".toList ++ (u1 ++ '\n' ::
      ("http://".toList ++ ((host ++ ':' :: (fmt_u n ++ '/' :: path)) ++ '\n' :: [])))) := by
    have e : "http://".toList ++ (u1 ++ '\n' ::
        ("http://".toList ++ ((host ++ ':' :: (fmt_u n ++ '/' :: path)) ++ '\n' :: []))) =
        "http:/".toList ++ '/' :: (u1 ++ '\n' ::
          ("http:/".toList ++ '/' :: (host ++ ':' :: (fmt_u n ++ '/' :: (path ++ '\n' :: []))))) := by
      simp [List.append_assoc]
    rw [e]
    exact marker_free_append_cons _ _ '/' (by simp) (by decide)
      (marker_free_append_cons _ _ '\n' (by simp) hm1
        (marker_free_append_cons _ _ '/' (by simp) (by decide)
          (marker_free_append_cons _ _ ':' (by simp) hmh
            (marker_free_append_cons _ _ '/' (by simp) (marker_free_fmt_u n)
              (marker_free_append_cons _ _ '\n' (by simp) hmp (by decide))))))
  have hnl : '\n' ∉ host ++ ':' :: (fmt_u n ++ '/' :: path) := by
    intro hm
    rcases List.mem_append.mp hm with h | h
    · exact hhn h
    · rcases List.mem_cons.mp h with h | h
      · revert h; decide
      · rcases List.mem_append.mp h with h | h
        · have := fmt_u_digits n '\n' h
          revert this; decide
        · rcases List.mem_cons.mp h with h | h
          · revert h; decide
          · exact hpn h
  rw [hbody, Handshake_parse_answer p_sys token _
    (hmt _ (by simp [failure_markers])) (hmt _ (by simp [failure_markers]))
    (hmt _ (by simp [failure_markers])) (hmt _ (by simp [failure_markers])) hut
    (hmrest _ (by simp [failure_markers])) (hmrest _ (by simp [failure_markers]))
    (hmrest _ (by simp [failure_markers])) (hmrest _ (by simp [failure_markers]))
    (by omega)]
  rw [List.take_left' htl]
  rw [Handshake_urls_second _ u1 (host ++ ':' :: (fmt_u n ++ '/' :: path)) []
    { ret := .VLC_SUCCESS, psz_host := some host, psz_file := some path, i_port := n }
    hu1 hnl (ParseURL_host_port_file host path n _ hhc hhs (by omega) hi) rfl]

/-- C11, as amended: for every answer `OK`, newline, token, newline,
`http://` u1, newline, `http://` host `:` port `/` path, newline, of at most
1023 bytes, where the token has 32 characters and holds no `http://`, no part
holds a failure marker, u1 holds neither `http://` nor a newline, the host is
not empty and holds no `:`, `/` or newline, the port is the decimal text of a
number `n` from 1 to 65535 and the path holds no newline, the answer fits the
buffer of `Handshake` whole, the handshake succeeds and stores the token, the
host, the port `n` and the path; u1 has no part in the result. -/
theorem C11_two_urls (p_sys : intf_sys_t) (token u1 host path : List Char)
    (n : Nat)
    (hlen : ("OK\n".toList ++ token ++ "\n".toList ++ "http://".toList ++ u1 ++ "\n".toList ++
      "http://".toList ++ host ++ ":".toList ++ (Nat.repr n).toList ++ "/".toList ++
      path ++ "\n".toList).length ≤ 1023)
    (htl : token.length = 32)
    (hmt : marker_free token) (hm1 : marker_free u1) (hmh : marker_free host)
    (hmp : marker_free path)
    (hut : ¬ "http://".toList <:+: token) (hu1 : ¬ "http://".toList <:+: u1)
    (hn1 : '\n' ∉ u1) (hne : host ≠ [])
    (hhc : ':' ∉ host) (hhs : '/' ∉ host) (hhn : '\n' ∉ host)
    (hn : 1 ≤ n) (hn' : n ≤ 65535) (hpn : '\n' ∉ path) :
    ("OK\n".toList ++ token ++ "\n".toList ++ "http://".toList ++ u1 ++ "\n".toList ++
      "http://".toList ++ host ++ ":".toList ++ (Nat.repr n).toList ++ "/".toList ++
      path ++ "\n".toList).take 1023 =
      "OK\n".toList ++ token ++ "\n".toList ++ "http://".toList ++ u1 ++ "\n".toList ++
      "http://".toList ++ host ++ ":".toList ++ (Nat.repr n).toList ++ "/".toList ++
      path ++ "\n".toList ∧
    Handshake_parse p_sys
        ("OK\n".toList ++ token ++ "\n".toList ++ "http://".toList ++ u1 ++ "\n".toList ++
          "http://".toList ++ host ++ ":".toList ++ (Nat.repr n).toList ++ "/".toList ++
          path ++ "\n".toList) =
      (.VLC_SUCCESS,
       { p_sys with psz_auth_token := token, psz_submit_host := some host,
                    i_submit_port := n, psz_submit_file := some path },
       none) ∧
    (Handshake_parse p_sys
        ("OK\n".toList ++ token ++ "\n".toList ++ "http://".toList ++ u1 ++ "\n".toList ++
          "http://".toList ++ host ++ ":".toList ++ (Nat.repr n).toList ++ "/".toList ++
          path ++ "\n".toList)).2.1.psz_submit_host ≠ some [] := by
  have h := Handshake_parse_two_urls p_sys token u1 host path n htl hmt hm1 hmh hmp hut hu1
    hhc hhs hhn hn (by omega) hpn
  have _ := hn1
  refine ⟨List.take_of_length_le hlen, h, ?_⟩
  rw [h]
  exact fun e => hne (Option.some.inj e)

/-- An instance of C11 as amended: the token `token_32`, the first URL
`np.example/path` and the submission URL `post.example:80/submit`. -/
theorem C11_two_urls_witness :
    Handshake_parse Open
        ("OK\n".toList ++ token_32 ++ "\n".toList ++ "http://".toList ++
          "np.example/path".toList ++ "\n".toList ++
          "http://".toList ++ "post.example".toList ++ ":".toList ++ (Nat.repr 80).toList ++
          "/".toList ++ "submit".toList ++ "\n".toList) =
      (.VLC_SUCCESS,
       { Open with psz_auth_token := token_32, psz_submit_host := some "post.example".toList,
                   i_submit_port := ((80 : Nat) : Int), psz_submit_file := some "submit".toList },
       none) := by
  have hm : marker_free token_32 ∧ marker_free "np.example/path".toList ∧
      marker_free "post.example".toList ∧ marker_free "submit".toList := by decide
  have hu : ¬ "http://".toList <:+: token_32 ∧
      ¬ "http://".toList <:+: "np.example/path".toList := by decide
  have hh : ':' ∉ "post.example".toList ∧ '/' ∉ "post.example".toList ∧
      '\n' ∉ "post.example".toList ∧ '\n' ∉ "submit".toList ∧
      '\n' ∉ "np.example/path".toList ∧ "post.example".toList ≠ [] := by decide
  exact (C11_two_urls Open token_32 "np.example/path".toList "post.example".toList
    "submit".toList 80 (by decide) rfl hm.1 hm.2.1 hm.2.2.1 hm.2.2.2 hu.1 hu.2 hh.2.2.2.2.1
    hh.2.2.2.2.2 hh.1 hh.2.1 hh.2.2.1
    (Nat.le_of_ble_eq_true rfl) (Nat.le_of_ble_eq_true rfl) hh.2.2.2.1).2.1

/-- C11 fails as stated: the token `token_with_url` has 32 characters and holds
no failure marker, the other parts are as the claim asks, the answer has fewer
than 1023 characters, and yet the handshake does not succeed: the first
`http://` found is the one in the token, so the URL handed to `ParseURL` is
`np.example/path`, which has no port. -/
theorem C11_counterexample :
    (token_with_url.length = 32 ∧ marker_free token_with_url ∧
      marker_free "np.example/path".toList ∧ marker_free "post.example".toList ∧
      marker_free "submit".toList ∧
      ¬ "http://".toList <:+: "np.example/path".toList ∧ '\n' ∉ "np.example/path".toList ∧
      "post.example".toList ≠ [] ∧ ':' ∉ "post.example".toList ∧
      '/' ∉ "post.example".toList ∧ '\n' ∉ "post.example".toList ∧
      1 ≤ 80 ∧ 80 ≤ 65535 ∧ '\n' ∉ "submit".toList ∧
      ("OK\n".toList ++ token_with_url ++ "\n".toList ++ "http://".toList ++
        "np.example/path".toList ++ "\n".toList ++
        "http://".toList ++ "post.example".toList ++ ":".toList ++ (Nat.repr 80).toList ++
        "/".toList ++ "submit".toList ++ "\n".toList).length ≤ 1023) ∧
    (Handshake_parse Open
        ("OK\n".toList ++ token_with_url ++ "\n".toList ++ "http://".toList ++
          "np.example/path".toList ++ "\n".toList ++
          "http://".toList ++ "post.example".toList ++ ":".toList ++ (Nat.repr 80).toList ++
          "/".toList ++ "submit".toList ++ "\n".toList)).1 = .VLC_EGENERIC ∧
    (Handshake_parse Open
        ("OK\n".toList ++ token_with_url ++ "\n".toList ++ "http://".toList ++
          "np.example/path".toList ++ "\n".toList ++
          "http://".toList ++ "post.example".toList ++ ":".toList ++ (Nat.repr 80).toList ++
          "/".toList ++ "submit".toList ++ "\n".toList)).1 ≠ .VLC_SUCCESS ∧
    (Handshake_parse Open
        ("OK\n".toList ++ token_with_url ++ "\n".toList ++ "http://".toList ++
          "np.example/path".toList ++ "\n".toList ++
          "http://".toList ++ "post.example".toList ++ ":".toList ++ (Nat.repr 80).toList ++
          "/".toList ++ "submit".toList ++ "\n".toList)).2.1.psz_submit_host = none := by
  refine ⟨?_, ?_, ?_, ?_⟩ <;> decide

/-! ## When a submission is attempted -/

/-- Whatever happens next, the exchange starts by connecting to the submission
address of the state it is given. -/
theorem Run_exchange_connect (env : RunEnv) (p_sys : intf_sys_t) (psz_submit : List Char)
    (url : Option (List Char)) :
    (Run_exchange env p_sys psz_submit url).connect =
      some (p_sys.psz_submit_host, p_sys.i_submit_port) := by
  unfold Run_exchange
  repeat' (first | split | dsimp only)

/-- A turn that is dying or holding neither connects to the submission server
nor sends a request. -/
theorem Run_iteration_stopped (env : RunEnv) (p_sys : intf_sys_t)
    (h : env.alive_after = false ∨ Run_b_wait env p_sys = true) :
    (Run_iteration env p_sys).connect = none ∧ (Run_iteration env p_sys).request = none := by
  unfold Run_iteration
  cases hd : env.alive_after with
  | false =>
    simp only [Bool.not_false, if_true]
    exact ⟨trivial, trivial⟩
  | true =>
    rcases h with h | h
    · rw [hd] at h
      cases h
    · simp only [h, Bool.not_true, Bool.false_eq_true, if_false, if_true]
      exact ⟨trivial, trivial⟩

/-- The exchange sends a request only after a successful connection. -/
theorem Run_exchange_request (env : RunEnv) (p_sys : intf_sys_t) (psz_submit : List Char)
    (url : Option (List Char)) :
    (env.i_post_socket = -1 → (Run_exchange env p_sys psz_submit url).request = none) ∧
    (env.i_post_socket ≠ -1 → (Run_exchange env p_sys psz_submit url).request =
      some (post_request env.handshake.CLIENT_VERSION p_sys psz_submit)) := by
  unfold Run_exchange
  constructor
  · intro h
    simp only [h, if_true]
  · intro h
    simp only [h, if_false]
    repeat' (first | split | dsimp only)

/-- C21: in every turn of the loop, whatever the starting state and whatever
`Handshake` returns, a connection to the submission server or a request means
that the handshake part of the turn was passed with `b_handshaked` true, either
because the state was authenticated already or because `Handshake` has just
returned `VLC_SUCCESS`, and the connection goes to the address of that
authenticated state. -/
theorem C21_submission_only_when_authenticated (env : RunEnv) (p_sys : intf_sys_t)
    (h : (Run_iteration env p_sys).connect ≠ none ∨ (Run_iteration env p_sys).request ≠ none) :
    ∃ q url, Run_handshake env p_sys = .ok (q, url) ∧ q.b_handshaked = true ∧
      (p_sys.b_handshaked = true ∨
        (Handshake env.handshake p_sys).ret = .VLC_SUCCESS) ∧
      (Run_iteration env p_sys).connect = some (q.psz_submit_host, q.i_submit_port) := by
  have hnot : ∀ (hn : (Run_iteration env p_sys).connect = none ∧
      (Run_iteration env p_sys).request = none), False := by
    intro hn
    rcases h with h | h
    · exact h hn.1
    · exact h hn.2
  cases hd : env.alive_after with
  | false => exact (hnot (Run_iteration_stopped env p_sys (Or.inl hd))).elim
  | true =>
    cases hw : Run_b_wait env p_sys with
    | true => exact (hnot (Run_iteration_stopped env p_sys (Or.inr hw))).elim
    | false =>
      cases hh : Run_handshake env p_sys with
      | error r =>
        obtain ⟨-, h1, h2, -⟩ := Run_handshake_error_exit env p_sys r hh
        rw [← Run_iteration_of_error env p_sys r hd hw hh] at h1 h2
        exact (hnot ⟨h1, h2⟩).elim
      | ok qu =>
        obtain ⟨q, url⟩ := qu
        refine ⟨q, url, rfl, (Run_handshake_ok env p_sys q url hh).2.2, ?_, ?_⟩
        · rcases Run_handshake_ok_state env p_sys q url hh with ⟨h1, -⟩ | ⟨-, h2, -⟩
          · exact Or.inl h1
          · exact Or.inr h2
        · rw [Run_iteration_of_ok env p_sys q url hd hw hh]
          exact Run_exchange_connect env q _ url

/-- An instance of C21: an authenticated plugin with one song and the answer `OK`. -/
theorem C21_submission_only_when_authenticated_witness :
    ∃ q url, Run_handshake (answering "OK\n".toList 5020000000)
        (authenticated (play Open (play_300s 1200000000))) = .ok (q, url) ∧
      q.b_handshaked = true := by
  obtain ⟨q, url, h1, h2, -⟩ := C21_submission_only_when_authenticated
    (answering "OK\n".toList 5020000000)
    (authenticated (play Open (play_300s 1200000000))) (Or.inl (by decide))
  exact ⟨q, url, h1, h2⟩

/-! ## The tests of `AddToQueue`, again -/

/-- The song of `playing_300s` ends 200 seconds after its start: `mdate()` read
1200000000 when it started (the same number as the date, by coincidence of the
two clocks) and reads 1400000000 now, so that the time really played and the
`played_time` of `AddToQueue` are both 200.  The song is appended. -/
theorem AddToQueue_300s_after_200s :
    playing_300s.p_current_song.i_l = 300 ∧
    null_or_empty playing_300s.p_current_song.psz_a = false ∧
    null_or_empty playing_300s.p_current_song.psz_t = false ∧
    playing_300s.b_submit = true ∧ playing_300s.i_songs < QUEUE_MAX ∧
    elapsed_seconds 1200000000 1400000000 playing_300s.time_total_pauses = 200 ∧
    played_time playing_300s 1400000000 = 200 ∧
    queued (AddToQueue playing_300s 1400000000) = [playing_300s.p_current_song] ∧
    (AddToQueue playing_300s 1400000000).i_songs = playing_300s.i_songs + 1 := by
  have he : eligible playing_300s 1400000000 := by decide
  rw [AddToQueue_of_eligible playing_300s 1400000000 he (by decide)]
  refine ⟨rfl, rfl, rfl, rfl, ?_, ?_, ?_, ?_, rfl⟩ <;> decide

/-- C22 fails as stated: a 300-second song with artist and title, played for
200 seconds and offered to an empty queue, is not turned away: it is appended. -/
theorem C22_counterexample :
    playing_300s.p_current_song.i_l = 300 ∧
    null_or_empty playing_300s.p_current_song.psz_a = false ∧
    null_or_empty playing_300s.p_current_song.psz_t = false ∧
    playing_300s.b_submit = true ∧ playing_300s.i_songs < QUEUE_MAX ∧
    elapsed_seconds 1200000000 1400000000 playing_300s.time_total_pauses = 200 ∧
    played_time playing_300s 1400000000 = 200 ∧
    queued (AddToQueue playing_300s 1400000000) = [playing_300s.p_current_song] ∧
    (AddToQueue playing_300s 1400000000).i_songs ≠ playing_300s.i_songs := by
  obtain ⟨h1, h2, h3, h4, h5, h6, h7, h8, h9⟩ := AddToQueue_300s_after_200s
  refine ⟨h1, h2, h3, h4, h5, h6, h7, h8, ?_⟩
  rw [h9]
  omega

/-- C22, as amended: a song of 300 seconds with artist and title, marked for
submission, for which `AddToQueue` finds `played_time = 200`, offered to a queue
that is not full, is appended to the queue: 200 is below 240 but not below
300 / 2, and the song is turned away only when both hold. -/
theorem C22_played_200_of_300_accepted (p_sys : intf_sys_t) (mdate : Int)
    (hs : p_sys.b_submit = true) (hl : p_sys.p_current_song.i_l = 300)
    (ha : null_or_empty p_sys.p_current_song.psz_a = false)
    (ht : null_or_empty p_sys.p_current_song.psz_t = false)
    (hp : played_time p_sys mdate = 200) (hn : p_sys.i_songs < QUEUE_MAX) :
    queued (AddToQueue p_sys mdate) = queued p_sys ++ [p_sys.p_current_song] ∧
    (AddToQueue p_sys mdate).i_songs = p_sys.i_songs + 1 := by
  have he : eligible p_sys mdate := by
    refine ⟨hs, ?_, ?_, ha, ht⟩
    · rw [hp, hl]
      decide
    · rw [hl]
      decide
  rw [AddToQueue_of_eligible p_sys mdate he hn]
  exact ⟨queued_push p_sys _ _ rfl rfl, rfl⟩

/-- An instance of C22 as amended: the song of `playing_300s`, 200 seconds on. -/
theorem C22_played_200_of_300_accepted_witness :
    queued (AddToQueue playing_300s 1400000000) =
      queued playing_300s ++ [playing_300s.p_current_song] ∧
    (AddToQueue playing_300s 1400000000).i_songs = playing_300s.i_songs + 1 :=
  C22_played_200_of_300_accepted playing_300s 1400000000 rfl rfl rfl rfl (by decide)
    (by decide)

/-- In the embedding `AddToQueue` always leaves the five strings of the current
song `NULL` and `b_submit` false, and a second `AddToQueue` changes nothing;
one call appends at most one song.  Whether the call stays within defined
behaviour is recorded by `b_undefined`: it does exactly when the artist
pointer was not dangling. -/
theorem AddToQueue_twice (p_sys : intf_sys_t) (mdate mdate' : Int) :
    (AddToQueue p_sys mdate).p_current_song.psz_a = none ∧
    (AddToQueue p_sys mdate).p_current_song.psz_t = none ∧
    (AddToQueue p_sys mdate).p_current_song.psz_b = none ∧
    (AddToQueue p_sys mdate).p_current_song.psz_n = none ∧
    (AddToQueue p_sys mdate).p_current_song.psz_m = none ∧
    (AddToQueue p_sys mdate).b_submit = false ∧
    AddToQueue (AddToQueue p_sys mdate) mdate' = AddToQueue p_sys mdate ∧
    (AddToQueue p_sys mdate).i_songs ≤ p_sys.i_songs + 1 ∧
    (AddToQueue p_sys mdate).b_undefined = (p_sys.b_undefined || p_sys.psz_a_freed) ∧
    (AddToQueue p_sys mdate).psz_a_freed = false := by
  have hend : ∀ s : intf_sys_t,
      (AddToQueue_end s).p_current_song.psz_a = none ∧
      (AddToQueue_end s).p_current_song.psz_t = none ∧
      (AddToQueue_end s).p_current_song.psz_b = none ∧
      (AddToQueue_end s).p_current_song.psz_n = none ∧
      (AddToQueue_end s).p_current_song.psz_m = none ∧
      (AddToQueue_end s).b_submit = false := fun s => ⟨rfl, rfl, rfl, rfl, rfl, rfl⟩
  have hform : ∃ s : intf_sys_t, AddToQueue p_sys mdate = AddToQueue_end s ∧
      s.i_songs ≤ p_sys.i_songs + 1 ∧
      (s.b_undefined || s.psz_a_freed) = (p_sys.b_undefined || p_sys.psz_a_freed) := by
    unfold AddToQueue
    repeat' (first | split | dsimp only)
    all_goals first
      | exact ⟨p_sys, rfl, Nat.le_succ _, rfl⟩
      | exact ⟨_, rfl, Nat.le_refl _, Bool.or_false _⟩
  obtain ⟨s, hs, hle, hu⟩ := hform
  obtain ⟨h1, h2, h3, h4, h5, h6⟩ := hend s
  have hidem : AddToQueue (AddToQueue p_sys mdate) mdate' = AddToQueue p_sys mdate := by
    have hns : ¬ eligible (AddToQueue p_sys mdate) mdate' := by
      rintro ⟨hb, -⟩
      rw [hs, h6] at hb
      cases hb
    rw [AddToQueue_of_not_eligible _ mdate' hns, hs]
    simp [AddToQueue_end, DeleteSong]
  rw [hidem, hs]
  exact ⟨h1, h2, h3, h4, h5, h6, rfl, hle, hu, rfl⟩

/-- When `b_meta_read` is set and the input reaches a state from `END_S` on,
`PlayingChange` calls `AddToQueue`. -/
theorem PlayingChange_end (st : input_states) (env : InputEnv) (mdate oldval newval : Int)
    (p_sys : intf_sys_t) (hd : env.b_dead = false) (hm : p_sys.b_meta_read = true)
    (he : newval ≥ st.END_S) :
    PlayingChange st env mdate oldval newval p_sys = AddToQueue p_sys mdate := by
  unfold PlayingChange
  simp [hd, hm, he]

/-- C26 fails on the state that `ItemChange` leaves for a song with an artist
and no title: `ReadMetaData` has stored the artist and freed it again without
clearing the pointer, and `b_submit` is false.  `AddToQueue`, called as it is
by `PlayingChange` when the song ends, goes to `end`, where `DeleteSong` frees
the artist a second time: the call does not leave a state with the current
song cleared, its behaviour is undefined. -/
theorem C26_double_free_after_missing_title :
    playing_no_title.p_current_song.psz_a = some "Artist".toList ∧
    playing_no_title.psz_a_freed = true ∧
    playing_no_title.b_submit = false ∧
    playing_no_title.b_meta_read = true ∧
    playing_no_title.b_undefined = false ∧
    (AddToQueue playing_no_title 1400000000).b_undefined = true ∧
    (PlayingChange { PLAYING_S := 3, PAUSE_S := 4, END_S := 5 } (env_no_title 1200000000)
      1400000000 3 5 playing_no_title).b_undefined = true := by
  refine ⟨?_, ?_, ?_, ?_, ?_, ?_, ?_⟩ <;> decide

/-! ## A turn of the loop with an empty queue -/

/-- With no song in the queue the string forged by `Run` is `s=` and the token. -/
theorem Run_submit_of_empty (p_sys : intf_sys_t) (h : p_sys.i_songs = 0) :
    Run_submit p_sys = "s=".toList ++ p_sys.psz_auth_token := by
  unfold Run_submit
  rw [h]
  rfl

/-- A turn that reaches the submission with an empty queue goes through the
exchange all the same, with the request body `s=` and the token. -/
theorem Run_iteration_of_empty (env : RunEnv) (p_sys q : intf_sys_t)
    (url : Option (List Char)) (hd : env.alive_after = true)
    (hw : Run_b_wait env p_sys = false) (hq : Run_handshake env p_sys = .ok (q, url))
    (h0 : p_sys.i_songs = 0) :
    Run_iteration env p_sys = Run_exchange env q ("s=".toList ++ q.psz_auth_token) url := by
  have hq0 : q.i_songs = 0 := (Run_handshake_ok env p_sys q url hq).1.trans h0
  rw [Run_iteration_of_ok env p_sys q url hd hw hq, Run_submit_of_empty q hq0]

/-- C23 fails as stated: an authenticated plugin with an empty queue, in a turn
in which the server answers `FAILED`, sends a request (with the body `s=` and
the token) and its backoff state changes: the interval goes from 0 to 1 and
the time of the next exchange moves. -/
theorem C23_counterexample :
    (authenticated Open).b_handshaked = true ∧ queued (authenticated Open) = [] ∧
    (Run_iteration (answering "FAILED\n".toList 5020000000) (authenticated Open)).request =
      some (post_request "0.9.0".toList (authenticated Open) ("s=".toList ++ token_32)) ∧
    (authenticated Open).i_interval = 0 ∧
    (Run_iteration (answering "FAILED\n".toList 5020000000)
      (authenticated Open)).p_sys.i_interval = 1 ∧
    (authenticated Open).next_exchange = 0 ∧
    (Run_iteration (answering "FAILED\n".toList 5020000000)
      (authenticated Open)).p_sys.next_exchange = 5080000000 := by
  refine ⟨rfl, rfl, rfl, rfl, ?_, rfl, ?_⟩ <;> decide

/-- C23, as amended: a turn that reaches the submission with an empty queue,
in the authenticated state `q`, connects to the submission server and, once
connected, sends the request whose body is `s=` and the token; the state it
leaves is the one of the exchange, so that the backoff follows the outcome as
for any other submission: a failed connection, for one, applies `HandleInterval`
and leaves the plugin not authenticated. -/
theorem C23_empty_queue_is_submitted (env : RunEnv) (p_sys q : intf_sys_t)
    (url : Option (List Char)) (hd : env.alive_after = true)
    (hw : Run_b_wait env p_sys = false) (hq : Run_handshake env p_sys = .ok (q, url))
    (h0 : p_sys.i_songs = 0) :
    q.b_handshaked = true ∧
    (Run_iteration env p_sys).connect = some (q.psz_submit_host, q.i_submit_port) ∧
    (env.i_post_socket ≠ -1 → (Run_iteration env p_sys).request =
      some (post_request env.handshake.CLIENT_VERSION q ("s=".toList ++ q.psz_auth_token))) ∧
    (env.i_post_socket = -1 → (Run_iteration env p_sys).request = none ∧
      (Run_iteration env p_sys).p_sys =
        { handle_interval q env.mdate with b_handshaked := false }) := by
  rw [Run_iteration_of_empty env p_sys q url hd hw hq h0]
  refine ⟨(Run_handshake_ok env p_sys q url hq).2.2, Run_exchange_connect env q _ url,
    (Run_exchange_request env q _ url).2, ?_⟩
  intro h
  refine ⟨(Run_exchange_request env q _ url).1 h, ?_⟩
  unfold Run_exchange
  simp only [h, if_true]

/-- An instance of C23 as amended: the authenticated plugin with an empty queue
and a server that answers `FAILED`. -/
theorem C23_empty_queue_is_submitted_witness :
    (Run_iteration (answering "FAILED\n".toList 5020000000) (authenticated Open)).connect =
      some (some "post.example".toList, 80) ∧
    (Run_iteration (answering "FAILED\n".toList 5020000000) (authenticated Open)).request =
      some (post_request "0.9.0".toList (authenticated Open) ("s=".toList ++ token_32)) := by
  obtain ⟨-, h1, h2, -⟩ := C23_empty_queue_is_submitted
    (answering "FAILED\n".toList 5020000000) (authenticated Open) (authenticated Open) none
    rfl (by decide) rfl rfl
  exact ⟨h1, h2 (by decide)⟩

/-! ## `ParseURL`, again -/

/-- The conversion to `int` in `atoi`: 4294967296 is read as 0 and
4294967376 as 80, so that `ParseURL` turns the first port down and takes the
second one for 80. -/
theorem ParseURL_port_beyond_int :
    atoi "4294967296/f".toList = 0 ∧ atoi "4294967376/f".toList = 80 ∧
    ParseURL "h:4294967296/f".toList 0 =
      { ret := .VLC_EGENERIC, psz_host := none, psz_file := none, i_port := 0 } ∧
    ParseURL "h:4294967376/f".toList 0 =
      { ret := .VLC_SUCCESS, psz_host := some "h".toList, psz_file := some "f".toList,
        i_port := 80 } := by
  refine ⟨?_, ?_, ?_, ?_⟩ <;> decide

/-- C24: on a host without `:` and `/`, followed by `:`, the decimal text of
a positive port that is in the range of `int`, `/` and any file, `ParseURL`
returns `VLC_SUCCESS` and stores the host, the value of the port and the
file. -/
theorem C24_ParseURL_splits (host file : List Char) (n : Nat) (i_port : Int)
    (hc : ':' ∉ host) (hs : '/' ∉ host) (hn : 0 < n) (hi : n ≤ 2147483647) :
    ParseURL (host ++ ":".toList ++ fmt_u n ++ "/".toList ++ file) i_port =
      { ret := .VLC_SUCCESS, psz_host := some host, psz_file := some file, i_port := n } := by
  have e : host ++ ":".toList ++ fmt_u n ++ "/".toList ++ file =
      host ++ ':' :: (fmt_u n ++ '/' :: file) := by
    simp
  rw [e]
  exact ParseURL_host_port_file host file n i_port hc hs hn (by omega)

/-- An instance of C24, the example of the comment that heads `ParseURL`:
`62.216.251.205:80/protocol_1.2` is split into `62.216.251.205`, 80 and
`protocol_1.2`. -/
theorem C24_ParseURL_splits_witness :
    ParseURL "62.216.251.205:80/protocol_1.2".toList 0 =
      { ret := .VLC_SUCCESS, psz_host := some "62.216.251.205".toList,
        psz_file := some "protocol_1.2".toList, i_port := 80 } :=
  C24_ParseURL_splits "62.216.251.205".toList "protocol_1.2".toList 80 0
    (by decide) (by decide) (by decide) (by decide)

/-- The initial part free of `c` is the whole string exactly when `c` does not occur. -/
theorem strcspn_eq_length_iff (s : List Char) (c : Char) :
    strcspn s [c] = strlen s ↔ c ∉ s := by
  constructor
  · intro h hc
    have hpre : s.takeWhile (fun x => !([c] : List Char).contains x) <+: s :=
      List.takeWhile_prefix _
    have heq := hpre.eq_of_length h
    have := List.takeWhile_eq_self_iff.mp heq c hc
    simp at this
  · intro h
    exact strcspn_of_not_mem s c h

/-- The return value of `ParseURL`: `VLC_EGENERIC` exactly when the string holds
no `:`, or `atoi` reads no positive number after the first `:`, or the string
holds no `/`; `VLC_SUCCESS` otherwise. -/
theorem ParseURL_ret (psz_url : List Char) (i_port : Int) :
    ((ParseURL psz_url i_port).ret = .VLC_EGENERIC ↔
      (':' ∉ psz_url ∨ atoi (psz_url.drop (strcspn psz_url [':'] + 1)) ≤ 0 ∨
        '/' ∉ psz_url)) ∧
    ((ParseURL psz_url i_port).ret ≠ .VLC_EGENERIC →
      (ParseURL psz_url i_port).ret = .VLC_SUCCESS) := by
  unfold ParseURL
  simp only [strcspn_eq_length_iff]
  by_cases h1 : ':' ∉ psz_url
  · simp [h1]
  · by_cases h2 : atoi (psz_url.drop (strcspn psz_url [':'] + 1)) ≤ 0
    · simp [h1, h2]
    · by_cases h3 : '/' ∉ psz_url
      · simp [h1, h2, h3]
      · simp [h1, h2, h3]

/-- What `ParseURL` leaves stored when it returns `VLC_EGENERIC`: never a file,
and no host except when the only thing missing is the `/`: the host read before
the `:` is then left in `*psz_host`. -/
theorem ParseURL_stored (psz_url : List Char) (i_port : Int)
    (h : (ParseURL psz_url i_port).ret = .VLC_EGENERIC) :
    (ParseURL psz_url i_port).psz_file = none ∧
    ((':' ∉ psz_url ∨ atoi (psz_url.drop (strcspn psz_url [':'] + 1)) ≤ 0) →
      (ParseURL psz_url i_port).psz_host = none) ∧
    (¬ (':' ∉ psz_url ∨ atoi (psz_url.drop (strcspn psz_url [':'] + 1)) ≤ 0) →
      (ParseURL psz_url i_port).psz_host =
        some (strndup psz_url (strcspn psz_url [':']))) := by
  unfold ParseURL at h ⊢
  simp only [strcspn_eq_length_iff] at h ⊢
  by_cases h1 : ':' ∉ psz_url
  · simp [h1]
  · by_cases h2 : atoi (psz_url.drop (strcspn psz_url [':'] + 1)) ≤ 0
    · simp [h1, h2]
    · by_cases h3 : '/' ∉ psz_url
      · simp [h1, h2, h3]
      · simp [h1, h2, h3] at h

/-- C25 fails on `a:80`, a string with a `:` and a positive port but no `/`:
`ParseURL` returns `VLC_EGENERIC` and the host `a` is left stored, whereas
the exit taken when the port is not positive frees the host. -/
theorem C25_host_left_without_slash :
    ':' ∈ "a:80".toList ∧ '/' ∉ "a:80".toList ∧
    atoi ("a:80".toList.drop (strcspn "a:80".toList [':'] + 1)) = 80 ∧
    ParseURL "a:80".toList 0 =
      { ret := .VLC_EGENERIC, psz_host := some "a".toList, psz_file := none, i_port := 80 } ∧
    ParseURL "a:0/f".toList 0 =
      { ret := .VLC_EGENERIC, psz_host := none, psz_file := none, i_port := 0 } := by
  refine ⟨?_, ?_, ?_, ?_, ?_⟩ <;> decide

/-! ## The text of the submission request -/

/-- C28 fails on the `Host` header: the text of the request does not depend on
the submission host at all, the header receives `psz_submit_file`.  For the
authenticated plugin with the address `post.example:80/submit` and the body
`s=` and the token, the request line and `Content-length` are as claimed, the
body follows the blank line, and the header reads `Host: submit`. -/
theorem C28_host_header_is_the_file :
    (∀ (VERSION : List Char) (p_sys : intf_sys_t) (psz_submit : List Char)
        (host : Option (List Char)),
      post_request VERSION { p_sys with psz_submit_host := host } psz_submit =
        post_request VERSION p_sys psz_submit) ∧
    (authenticated Open).b_handshaked = true ∧
    (authenticated Open).psz_submit_host = some "post.example".toList ∧
    (authenticated Open).psz_submit_file = some "submit".toList ∧
    strlen ("s=".toList ++ token_32) = 34 ∧
    post_request "0.9.0".toList (authenticated Open) ("s=".toList ++ token_32) =
      ("POST /submit HTTP/1.1\n" ++
       "Accept-Encoding: identity\n" ++
       "Content-length: 34\n" ++
       "Connection: close\n" ++
       "Content-type: application/x-www-form-urlencoded\n" ++
       "Host: submit\n" ++
       "User-agent: VLC Media Player/0.9.0\r\n" ++
       "\r\n" ++
       "s=0123456789abcdef0123456789abcdef\r\n" ++
       "\r\n").toList ∧
    (Run_iteration (answering "OK\n".toList 5020000000) (authenticated Open)).request =
      some (post_request "0.9.0".toList (authenticated Open) ("s=".toList ++ token_32)) := by
  exact ⟨fun _ _ _ _ => rfl, rfl, rfl, rfl, rfl, rfl, rfl⟩

/-! ## The session token -/

/-- The search returns the occurrence before which the needle starts nowhere. -/
theorem strstr_first (pre rest needle : List Char) (hne : rest ≠ [])
    (hp : needle <+: rest)
    (hfirst : ∀ k, k < pre.length → ¬ needle <+: (pre ++ rest).drop k) :
    strstr (pre ++ rest) needle = some rest := by
  induction pre with
  | nil => exact strstr_of_prefix rest needle hp hne
  | cons c cs ih =>
    have h0 : ¬ needle.isPrefixOf (c :: (cs ++ rest)) = true := fun h =>
      hfirst 0 (Nat.succ_pos _) (List.isPrefixOf_iff_prefix.mp h)
    rw [List.cons_append]
    unfold strstr
    rw [if_neg h0]
    exact ih (fun k hk => hfirst (k + 1) (Nat.succ_lt_succ hk))

/-- What `strstr` returns starts at the first place where the needle starts. -/
theorem strstr_eq_some_first (haystack needle pos : List Char)
    (h : strstr haystack needle = some pos) :
    ∃ pre, haystack = pre ++ pos ∧ needle <+: pos ∧
      ∀ k, k < pre.length → ¬ needle <+: haystack.drop k := by
  induction haystack with
  | nil =>
    obtain ⟨pre, h1, h2⟩ := strstr_eq_some [] needle pos h
    refine ⟨pre, h1, h2, ?_⟩
    intro k hk
    have : pre = [] := (List.append_eq_nil.mp h1.symm).1
    rw [this] at hk
    exact absurd hk (Nat.not_lt_zero k)
  | cons c cs ih =>
    unfold strstr at h
    by_cases hp : needle.isPrefixOf (c :: cs) = true
    · rw [if_pos hp] at h
      cases h
      exact ⟨[], rfl, List.isPrefixOf_iff_prefix.mp hp, fun k hk =>
        absurd hk (Nat.not_lt_zero k)⟩
    · rw [if_neg hp] at h
      obtain ⟨pre, h1, h2, h3⟩ := ih h
      refine ⟨c :: pre, by rw [h1]; rfl, h2, ?_⟩
      intro k hk
      cases k with
      | zero => exact fun hpre => hp (List.isPrefixOf_iff_prefix.mpr hpre)
      | succ k => exact h3 k (Nat.lt_of_succ_lt_succ hk)

/-- The search for a single character stops at its first occurrence. -/
theorem strstr_char (a b : List Char) (c : Char) (h : c ∉ a) :
    strstr (a ++ c :: b) [c] = some (c :: b) := by
  induction a with
  | nil => exact strstr_of_prefix (c :: b) [c] (by simp) (by simp)
  | cons x a ih =>
    have hx : x ∉ [c] := by
      intro hx
      exact h (by rw [List.mem_singleton.mp hx]; exact List.mem_cons_self _ _)
    rw [List.cons_append, strstr_cons_of_not_mem x _ [c] (by simp) hx]
    exact ih (fun hc => h (List.mem_cons_of_mem _ hc))

/-- When the interpretation of the answer returns `VLC_SUCCESS`, both searches
of the success part have found their mark, at least 33 characters follow the
newline, and the token was saved before the URLs were looked for. -/
theorem Handshake_parse_success (p_sys : intf_sys_t) (p_buffer : List Char)
    (h : (Handshake_parse p_sys p_buffer).1 = .VLC_SUCCESS) :
    ∃ pos1 pos2, strstr p_buffer "OK".toList = some pos1 ∧
      strstr pos1 "\n".toList = some pos2 ∧ 34 ≤ strlen pos2 ∧
      Handshake_parse p_sys p_buffer =
        Handshake_urls { p_sys with psz_auth_token := (pos2.drop 1).take 32 }
          (pos2.drop 1) := by
  cases e1 : strstr p_buffer "FAILED ".toList with
  | some x =>
    simp only [Handshake_parse, e1] at h
    cases h
  | none =>
  cases e2 : strstr p_buffer "BADAUTH".toList with
  | some x =>
    simp only [Handshake_parse, e1, e2] at h
    cases h
  | none =>
  cases e3 : strstr p_buffer "BANNED".toList with
  | some x =>
    simp only [Handshake_parse, e1, e2, e3] at h
    cases h
  | none =>
  cases e4 : strstr p_buffer "BADTIME".toList with
  | some x =>
    simp only [Handshake_parse, e1, e2, e3, e4] at h
    cases h
  | none =>
  cases e5 : strstr p_buffer "OK".toList with
  | none =>
    simp only [Handshake_parse, e1, e2, e3, e4, e5] at h
    cases h
  | some pos1 =>
  cases e6 : strstr pos1 "\n".toList with
  | none =>
    simp only [Handshake_parse, e1, e2, e3, e4, e5, e6] at h
    cases h
  | some pos2 =>
  by_cases e7 : strlen pos2 < 34
  · simp only [Handshake_parse, e1, e2, e3, e4, e5, e6, e7, if_true] at h
    cases h
  · refine ⟨pos1, pos2, rfl, e6, by omega, ?_⟩
    simp only [Handshake_parse, e1, e2, e3, e4, e5, e6, e7, if_false]

/-- The search for the URLs leaves the token as it is. -/
theorem Handshake_urls_token (p_sys : intf_sys_t) (p_buffer_pos : List Char) :
    (Handshake_urls p_sys p_buffer_pos).2.1.psz_auth_token = p_sys.psz_auth_token := by
  obtain ⟨host, port, file, h⟩ := Handshake_urls_frame p_sys p_buffer_pos
  rw [h]

/-- The two searches of the success part, on an answer cut at the first `OK`
and at the first newline after it. -/
theorem strstr_OK_newline (pre mid after : List Char)
    (hfirst : ∀ k, k < pre.length →
      ¬ "OK".toList <+: (pre ++ "OK".toList ++ mid ++ "\n".toList ++ after).drop k)
    (hmid : '\n' ∉ mid) :
    strstr (pre ++ "OK".toList ++ mid ++ "\n".toList ++ after) "OK".toList =
      some ("OK".toList ++ mid ++ '\n' :: after) ∧
    strstr ("OK".toList ++ mid ++ '\n' :: after) "\n".toList = some ('\n' :: after) := by
  have e : pre ++ "OK".toList ++ mid ++ "\n".toList ++ after =
      pre ++ ("OK".toList ++ mid ++ '\n' :: after) := by
    simp
  constructor
  · rw [e] at hfirst ⊢
    exact strstr_first pre _ "OK".toList (by simp) ⟨mid ++ '\n' :: after, by simp⟩ hfirst
  · refine strstr_char ("OK".toList ++ mid) after '\n' ?_
    intro hm
    rcases List.mem_append.mp hm with h | h
    · revert h
      decide
    · exact hmid h

/-- What the search for a single character returns starts at its first occurrence. -/
theorem strstr_char_eq_some (s pos : List Char) (c : Char) (h : strstr s [c] = some pos) :
    ∃ a b, s = a ++ c :: b ∧ c ∉ a ∧ pos = c :: b := by
  induction s with
  | nil =>
    unfold strstr at h
    simp at h
  | cons x xs ih =>
    unfold strstr at h
    by_cases hp : ([c] : List Char).isPrefixOf (x :: xs) = true
    · rw [if_pos hp] at h
      have hx : c = x := by
        have := List.isPrefixOf_iff_prefix.mp hp
        simpa using this
      cases h
      exact ⟨[], xs, by rw [hx]; rfl, List.not_mem_nil _, by rw [hx]⟩
    · rw [if_neg hp] at h
      obtain ⟨a, b, h1, h2, h3⟩ := ih h
      refine ⟨x :: a, b, by rw [h1]; rfl, ?_, h3⟩
      intro hm
      rcases List.mem_cons.mp hm with e | e
      · apply hp
        rw [e]
        exact List.isPrefixOf_iff_prefix.mpr (by simp)
      · exact h2 e

/-- C27: when the interpretation of the handshake answer returns `VLC_SUCCESS`,
the answer reads `pre`, `OK`, `mid`, a newline, `after`, where `OK` starts
nowhere in `pre` and `mid` holds no newline; and for every such reading of
the answer, the token stored on success is the first 32 characters of `after`
and has length 32, while an answer without failure marker in which `after`
has fewer than 33 characters gives `VLC_EGENERIC` with the protocol
diagnostic and the state untouched. -/
theorem C27_session_token (p_sys : intf_sys_t) (p_buffer : List Char) :
    ((Handshake_parse p_sys p_buffer).1 = .VLC_SUCCESS →
      ∃ pre mid after, p_buffer = pre ++ "OK".toList ++ mid ++ "\n".toList ++ after ∧
        (∀ k, k < pre.length → ¬ "OK".toList <+: p_buffer.drop k) ∧ '\n' ∉ mid) ∧
    (∀ pre mid after, p_buffer = pre ++ "OK".toList ++ mid ++ "\n".toList ++ after →
      (∀ k, k < pre.length → ¬ "OK".toList <+: p_buffer.drop k) → '\n' ∉ mid →
      ((Handshake_parse p_sys p_buffer).1 = .VLC_SUCCESS →
        (Handshake_parse p_sys p_buffer).2.1.psz_auth_token = after.take 32 ∧
        (Handshake_parse p_sys p_buffer).2.1.psz_auth_token.length = 32) ∧
      (marker_free p_buffer → after.length < 33 →
        Handshake_parse p_sys p_buffer = (.VLC_EGENERIC, p_sys, some .proto))) := by
  constructor
  · intro hs
    obtain ⟨pos1, pos2, e5, e6, -, -⟩ := Handshake_parse_success p_sys p_buffer hs
    obtain ⟨pre, hb, hOK, hfirst⟩ := strstr_eq_some_first p_buffer "OK".toList pos1 e5
    obtain ⟨a, after, h1, h2, -⟩ := strstr_char_eq_some pos1 pos2 '\n' e6
    obtain ⟨t, ht⟩ := hOK
    rw [h1] at ht
    rcases a with _ | ⟨x, _ | ⟨y, mid⟩⟩
    · simp at ht
    · simp at ht
    · have hxy : 'O' = x ∧ 'K' = y := by
        simp at ht
        exact ⟨ht.1, ht.2.1⟩
      refine ⟨pre, mid, after, ?_, hfirst, fun hm =>
        h2 (List.mem_cons_of_mem _ (List.mem_cons_of_mem _ hm))⟩
      rw [hb, h1, ← hxy.1, ← hxy.2]
      simp
  · intro pre mid after hb hfirst hmid
    subst hb
    obtain ⟨h1, h2⟩ := strstr_OK_newline pre mid after hfirst hmid
    constructor
    · intro hs
      obtain ⟨pos1, pos2, e5, e6, e7, e8⟩ := Handshake_parse_success p_sys _ hs
      have hp1 : pos1 = "OK".toList ++ mid ++ '\n' :: after :=
        Option.some.inj (e5.symm.trans h1)
      rw [hp1] at e6
      have hp2 : pos2 = '\n' :: after := Option.some.inj (e6.symm.trans h2)
      rw [hp2] at e7 e8
      rw [e8, Handshake_urls_token]
      have hlen : 32 ≤ after.length := by
        simp only [strlen, List.length_cons] at e7
        omega
      exact ⟨rfl, by simp [List.length_take, hlen]⟩
    · intro hm hshort
      have e1 := (strstr_eq_none_iff _ _).mpr (hm "FAILED ".toList (by simp [failure_markers]))
      have e2 := (strstr_eq_none_iff _ _).mpr (hm "BADAUTH".toList (by simp [failure_markers]))
      have e3 := (strstr_eq_none_iff _ _).mpr (hm "BANNED".toList (by simp [failure_markers]))
      have e4 := (strstr_eq_none_iff _ _).mpr (hm "BADTIME".toList (by simp [failure_markers]))
      have e7 : strlen ('\n' :: after) < 34 := by
        simp only [strlen, List.length_cons]
        omega
      simp only [Handshake_parse, e1, e2, e3, e4, h1, h2, e7, if_true]

/-- Instances of C27: the answer with the token `token_32` and two URLs gives
that token, and the answer `OK`, newline, `short` gives the protocol error. -/
theorem C27_session_token_witness :
    (Handshake_parse Open
        ("OK\n".toList ++ token_32 ++
          "\nhttp://np.example/path\nhttp://post.example:80/submit\n".toList)).2.1.psz_auth_token =
      token_32 ∧
    Handshake_parse Open "well OK then\nshort\n".toList = (.VLC_EGENERIC, Open, some .proto) := by
  constructor
  · exact (((C27_session_token Open _).2 [] []
      (token_32 ++ "\nhttp://np.example/path\nhttp://post.example:80/submit\n".toList) rfl
      (fun k hk => absurd hk (Nat.not_lt_zero k)) (List.not_mem_nil _)).1 (by decide)).1
  · exact ((C27_session_token Open _).2 "well ".toList " then".toList "short\n".toList rfl
      (by decide) (by decide)).2 (by decide) (by decide)

/-! ## What a successful handshake stores -/

/-- When `Handshake` returns `VLC_SUCCESS` an answer was received and its
interpretation returned `VLC_SUCCESS`; the state is the one it leaves. -/
theorem Handshake_success (env : HandshakeEnv) (p_sys : intf_sys_t)
    (h : (Handshake env p_sys).ret = .VLC_SUCCESS) :
    ∃ bytes tok, env.stream = some bytes ∧
      (Handshake_parse { p_sys with psz_auth_token := tok }
        (c_string (bytes.take 1023))).1 = .VLC_SUCCESS ∧
      (Handshake env p_sys).p_sys =
        (Handshake_parse { p_sys with psz_auth_token := tok }
          (c_string (bytes.take 1023))).2.1 := by
  cases hu : env.psz_username with
  | none =>
    simp only [Handshake, hu] at h
    cases h
  | some u =>
  cases hp : env.psz_password with
  | none =>
    simp only [Handshake, hu, hp] at h
    cases h
  | some p =>
  by_cases he : u = [] ∨ p = []
  · simp only [Handshake, hu, hp, he, if_true] at h
    cases h
  · cases hs : env.stream with
    | none =>
      simp only [Handshake, hu, hp, he, if_false, hs] at h
      cases h
    | some bytes =>
    by_cases hl : (bytes.take 1023).length = 0
    · simp only [Handshake, hu, hp, he, if_false, hs, hl, if_true] at h
      cases h
    · simp only [Handshake, hu, hp, he, if_false, hs, hl] at h ⊢
      exact ⟨bytes, _, rfl, h, rfl⟩

/-- Allocation failures apart, `ParseURL` returns `VLC_EGENERIC` or `VLC_SUCCESS`. -/
theorem ParseURL_ret_cases (psz_url : List Char) (i_port : Int) :
    (ParseURL psz_url i_port).ret = .VLC_EGENERIC ∨
    (ParseURL psz_url i_port).ret = .VLC_SUCCESS := by
  by_cases h : (ParseURL psz_url i_port).ret = .VLC_EGENERIC
  · exact Or.inl h
  · exact Or.inr ((ParseURL_ret psz_url i_port).2 h)

/-- When the search for the URLs returns `VLC_SUCCESS`, both searches for
`http://` have found their mark, `ParseURL` has accepted the line that follows
the second one, and the state holds what `ParseURL` has stored. -/
theorem Handshake_urls_success (p_sys : intf_sys_t) (pos : List Char)
    (h : (Handshake_urls p_sys pos).1 = .VLC_SUCCESS) :
    ∃ p1 p2, strstr pos "http://".toList = some p1 ∧
      strstr (p1.drop 7) "http://".toList = some p2 ∧
      (ParseURL (strndup (p2.drop 7) (strcspn (p2.drop 7) "\n".toList))
        p_sys.i_submit_port).ret = .VLC_SUCCESS ∧
      (Handshake_urls p_sys pos).2.1 =
        { p_sys with
          psz_submit_host := (ParseURL (strndup (p2.drop 7) (strcspn (p2.drop 7) "\n".toList))
            p_sys.i_submit_port).psz_host,
          psz_submit_file := (ParseURL (strndup (p2.drop 7) (strcspn (p2.drop 7) "\n".toList))
            p_sys.i_submit_port).psz_file,
          i_submit_port := (ParseURL (strndup (p2.drop 7) (strcspn (p2.drop 7) "\n".toList))
            p_sys.i_submit_port).i_port } := by
  cases e1 : strstr pos "http://".toList with
  | none =>
    simp only [Handshake_urls, e1] at h
    cases h
  | some p1 =>
  by_cases l1 : strlen p1 = 7
  · simp only [Handshake_urls, e1, l1, if_true] at h
    cases h
  · cases e2 : strstr (p1.drop 7) "http://".toList with
    | none =>
      simp only [Handshake_urls, e1, l1, if_false, e2] at h
      cases h
    | some p2 =>
    by_cases l2 : strlen p2 = 7
    · simp only [Handshake_urls, e1, l1, if_false, e2, l2, if_true] at h
      cases h
    · cases hr : (ParseURL (strndup (p2.drop 7) (strcspn (p2.drop 7) "\n".toList))
          p_sys.i_submit_port).ret with
      | VLC_SUCCESS =>
        refine ⟨p1, p2, rfl, e2, hr, ?_⟩
        simp only [Handshake_urls, e1, l1, if_false, e2, l2, hr]
      | VLC_ENOMEM =>
        simp only [Handshake_urls, e1, l1, if_false, e2, l2, hr] at h
        cases h
      | VLC_EGENERIC =>
        simp only [Handshake_urls, e1, l1, if_false, e2, l2, hr] at h
        cases h
      | VLC_ENOVAR =>
        rcases ParseURL_ret_cases (strndup (p2.drop 7) (strcspn (p2.drop 7) "\n".toList))
          p_sys.i_submit_port with h' | h'
        · rw [hr] at h'
          cases h'
        · rw [hr] at h'
          cases h'
      | VLC_AUDIOSCROBBLER_EFATAL =>
        rcases ParseURL_ret_cases (strndup (p2.drop 7) (strcspn (p2.drop 7) "\n".toList))
          p_sys.i_submit_port with h' | h'
        · rw [hr] at h'
          cases h'
        · rw [hr] at h'
          cases h'

/-- The line cut by `strndup( s, strcspn( s, "\n" ) )`, with `c` for the
newline: it holds no `c`, and what follows it in `s` is nothing or starts with `c`. -/
theorem strndup_strcspn (x : List Char) (c : Char) :
    ∃ tail, x = strndup x (strcspn x [c]) ++ tail ∧ c ∉ strndup x (strcspn x [c]) ∧
      (tail = [] ∨ ∃ t, tail = c :: t) := by
  induction x with
  | nil => exact ⟨[], rfl, List.not_mem_nil _, Or.inl rfl⟩
  | cons y ys ih =>
    by_cases hy : y = c
    · refine ⟨y :: ys, ?_, ?_, Or.inr ⟨ys, by rw [hy]⟩⟩
      · simp [strndup, strcspn, hy]
      · simp [strndup, strcspn, hy]
    · obtain ⟨tail, h1, h2, h3⟩ := ih
      have hs : strcspn (y :: ys) [c] = strcspn ys [c] + 1 := by
        simp [strcspn, hy]
      refine ⟨tail, ?_, ?_, h3⟩
      · rw [hs]
        simp only [strndup, List.take_succ_cons, List.cons_append]
        exact congrArg (List.cons y) h1
      · rw [hs]
        simp only [strndup, List.take_succ_cons]
        intro hm
        rcases List.mem_cons.mp hm with e | e
        · exact hy e.symm
        · exact h2 e

/-- The line cut from a string that starts with a part free of newlines,
followed by nothing or by a newline. -/
theorem strndup_strcspn_line (url tail : List Char) (hu : '\n' ∉ url)
    (ht : tail = [] ∨ ∃ t, tail = '\n' :: t) :
    strndup (url ++ tail) (strcspn (url ++ tail) "\n".toList) = url := by
  rcases ht with rfl | ⟨t, rfl⟩
  · rw [List.append_nil]
    have h := strcspn_of_not_mem url '\n' hu
    have e : "\n".toList = ['\n'] := rfl
    rw [e, h]
    simp [strndup]
  · have h := strcspn_append_cons url t '\n' hu
    have e : "\n".toList = ['\n'] := rfl
    rw [e, h]
    simp [strndup]

/-- The two marks of the success part cut the answer in `pre`, `OK`, `mid`, a
newline and `after`, with `OK` starting nowhere in `pre` and no newline in `mid`. -/
theorem strstr_OK_newline_eq_some (p_buffer pos1 pos2 : List Char)
    (e5 : strstr p_buffer "OK".toList = some pos1)
    (e6 : strstr pos1 "\n".toList = some pos2) :
    ∃ pre mid after, p_buffer = pre ++ "OK".toList ++ mid ++ "\n".toList ++ after ∧
      absent_before "OK".toList p_buffer pre.length ∧ '\n' ∉ mid ∧ pos2 = '\n' :: after := by
  obtain ⟨pre, hb, hOK, hfirst⟩ := strstr_eq_some_first p_buffer "OK".toList pos1 e5
  obtain ⟨a, after, h1, h2, h3⟩ := strstr_char_eq_some pos1 pos2 '\n' e6
  obtain ⟨t, ht⟩ := hOK
  rw [h1] at ht
  rcases a with _ | ⟨x, _ | ⟨y, mid⟩⟩
  · simp at ht
  · simp at ht
  · have hxy : 'O' = x ∧ 'K' = y := by
      simp at ht
      exact ⟨ht.1, ht.2.1⟩
    refine ⟨pre, mid, after, ?_, hfirst, fun hm =>
      h2 (List.mem_cons_of_mem _ (List.mem_cons_of_mem _ hm)), h3⟩
    rw [hb, h1, ← hxy.1, ← hxy.2]
    simp

/-- What the search for `http://` returns: the string is cut in a part in
which `http://` starts nowhere, `http://`, and the rest. -/
theorem strstr_http_eq_some (s pos : List Char)
    (h : strstr s "http://".toList = some pos) :
    ∃ a x, s = a ++ "http://".toList ++ x ∧ absent_before "http://".toList s a.length ∧
      pos.drop 7 = x := by
  obtain ⟨a, hs, ⟨x, hx⟩, hfirst⟩ := strstr_eq_some_first s "http://".toList pos h
  refine ⟨a, x, ?_, hfirst, ?_⟩
  · rw [hs, ← hx, List.append_assoc]
  · rw [← hx]
    exact List.drop_left' rfl

/-- The search for `http://` in a string cut at the first place where
`http://` starts. -/
theorem strstr_http_first (a x : List Char)
    (h : absent_before "http://".toList (a ++ "http://".toList ++ x) a.length) :
    strstr (a ++ "http://".toList ++ x) "http://".toList = some ("http://".toList ++ x) ∧
    ("http://".toList ++ x).drop 7 = x := by
  constructor
  · rw [List.append_assoc] at h ⊢
    exact strstr_first a _ "http://".toList (by simp) (List.prefix_append _ _) h
  · exact List.drop_left' rfl

/-- Every answer whose interpretation returns `VLC_SUCCESS` has a reading. -/
theorem Handshake_parse_success_reads (p_sys : intf_sys_t) (p_buffer : List Char)
    (h : (Handshake_parse p_sys p_buffer).1 = .VLC_SUCCESS) :
    ∃ pre mid after a b url tail, answer_reads p_buffer pre mid after a b url tail := by
  obtain ⟨pos1, pos2, e5, e6, -, e8⟩ := Handshake_parse_success p_sys p_buffer h
  obtain ⟨pre, mid, after, h1, h2, h3, h4⟩ := strstr_OK_newline_eq_some p_buffer pos1 pos2 e5 e6
  rw [e8, h4] at h
  obtain ⟨p1, p2, f1, f2, -, -⟩ := Handshake_urls_success _ _ h
  obtain ⟨a, x1, g1, g2, g3⟩ := strstr_http_eq_some _ _ f1
  rw [g3] at f2
  obtain ⟨b, x2, k1, k2, k3⟩ := strstr_http_eq_some _ _ f2
  obtain ⟨tail, t1, t2, t3⟩ := strndup_strcspn x2 '\n'
  generalize strndup x2 (strcspn x2 ['\n']) = url at t1 t2
  have e : (('\n' :: after).drop 1) = after := rfl
  rw [e] at g1 g2
  have hb : b ++ "http://".toList ++ url ++ tail = x1 := by
    rw [k1, t1]
    simp only [List.append_assoc]
  refine ⟨pre, mid, after, a, b, url, tail, h1, h2, h3, ?_, g2, ?_, t2, ?_⟩
  · rw [g1, k1, t1]
    simp only [List.append_assoc]
  · rw [hb]
    exact k2
  · rcases t3 with e | ⟨t, e⟩
    · exact Or.inl e
    · exact Or.inr (by rw [e]; rfl)

/-- For every reading of an answer whose interpretation returns `VLC_SUCCESS`,
`ParseURL` has accepted `url`, at least 33 characters follow the newline, and
the state holds the first 32 characters of `after` as token and what
`ParseURL` has made of `url` as submission address. -/
theorem Handshake_parse_success_stores (p_sys : intf_sys_t)
    (p_buffer pre mid after a b url tail : List Char)
    (hr : answer_reads p_buffer pre mid after a b url tail)
    (h : (Handshake_parse p_sys p_buffer).1 = .VLC_SUCCESS) :
    (ParseURL url p_sys.i_submit_port).ret = .VLC_SUCCESS ∧ 33 ≤ after.length ∧
    (Handshake_parse p_sys p_buffer).2.1 =
      { p_sys with psz_auth_token := after.take 32,
                   psz_submit_host := (ParseURL url p_sys.i_submit_port).psz_host,
                   psz_submit_file := (ParseURL url p_sys.i_submit_port).psz_file,
                   i_submit_port := (ParseURL url p_sys.i_submit_port).i_port } := by
  obtain ⟨hb, hpre, hmid, hafter, ha, hb', hurl, htail⟩ := hr
  obtain ⟨pos1, pos2, e5, e6, e7, e8⟩ := Handshake_parse_success p_sys p_buffer h
  have hfirst : ∀ k, k < pre.length →
      ¬ "OK".toList <+: (pre ++ "OK".toList ++ mid ++ "\n".toList ++ after).drop k := by
    rw [← hb]
    exact hpre
  obtain ⟨h1, h2⟩ := strstr_OK_newline pre mid after hfirst hmid
  rw [← hb] at h1
  have hp1 : pos1 = "OK".toList ++ mid ++ '\n' :: after := Option.some.inj (e5.symm.trans h1)
  rw [hp1] at e6
  have hp2 : pos2 = '\n' :: after := Option.some.inj (e6.symm.trans h2)
  rw [hp2] at e7 e8
  have hd : ('\n' :: after).drop 1 = after := rfl
  rw [hd] at e8
  have hlen : 33 ≤ after.length := by
    simp only [strlen, List.length_cons] at e7
    omega
  rw [e8] at h ⊢
  obtain ⟨p1, p2, f1, f2, f3, f4⟩ := Handshake_urls_success _ _ h
  have ha' : absent_before "http://".toList
      (a ++ "http://".toList ++ (b ++ "http://".toList ++ url ++ tail)) a.length := by
    have e : a ++ "http://".toList ++ (b ++ "http://".toList ++ url ++ tail) = after := by
      rw [hafter]
      simp only [List.append_assoc]
    rw [e]
    exact ha
  obtain ⟨g1, g2⟩ := strstr_http_first a (b ++ "http://".toList ++ url ++ tail) ha'
  have eafter : after = a ++ "http://".toList ++ (b ++ "http://".toList ++ url ++ tail) := by
    rw [hafter]
    simp only [List.append_assoc]
  rw [← eafter] at g1
  have hq1 : p1 = "http://".toList ++ (b ++ "http://".toList ++ url ++ tail) :=
    Option.some.inj (f1.symm.trans g1)
  rw [hq1, g2] at f2
  have hb'' : absent_before "http://".toList
      (b ++ "http://".toList ++ (url ++ tail)) b.length := by
    have e : b ++ "http://".toList ++ (url ++ tail) = b ++ "http://".toList ++ url ++ tail := by
      simp only [List.append_assoc]
    rw [e]
    exact hb'
  obtain ⟨k1, k2⟩ := strstr_http_first b (url ++ tail) hb''
  have eb : b ++ "http://".toList ++ url ++ tail = b ++ "http://".toList ++ (url ++ tail) := by
    simp only [List.append_assoc]
  rw [eb] at f2
  have hq2 : p2 = "http://".toList ++ (url ++ tail) := Option.some.inj (f2.symm.trans k1)
  have htail' : tail = [] ∨ ∃ t, tail = '\n' :: t := by
    rcases htail with e | e
    · exact Or.inl e
    · cases tail with
      | nil => exact Or.inl rfl
      | cons c t =>
        have hc : c = '\n' := Option.some.inj e
        exact Or.inr ⟨t, by rw [hc]⟩
  have hline := strndup_strcspn_line url tail hurl htail'
  rw [hq2, k2, hline] at f3 f4
  exact ⟨f3, hlen, f4⟩

/-- C20: take a turn of the loop that starts not authenticated.  When
`Handshake` returns `VLC_SUCCESS`, the answer received has a reading: `OK`, a
newline, and after it two `http://`, the second one followed by `url`.  For
every reading of the answer, the turn then goes on with the submission in the
state in which the plugin is authenticated, the token is the first 32
characters after the newline, the submission address is what `ParseURL` makes
of `url`, the interval is 0 and `next_exchange` is the current `mdate()`.
When `Handshake` returns `VLC_EGENERIC`, the plugin is left not authenticated,
`HandleInterval` is applied, and the turn ends without connection and without
request. -/
theorem C20_handshake_transitions (env : RunEnv) (p_sys : intf_sys_t)
    (hd : env.alive_after = true) (hw : Run_b_wait env p_sys = false)
    (hb : p_sys.b_handshaked = false) :
    ((Handshake env.handshake p_sys).ret = .VLC_SUCCESS →
      ∃ bytes pre mid after a b url tail, env.handshake.stream = some bytes ∧
        answer_reads (c_string (bytes.take 1023)) pre mid after a b url tail) ∧
    (∀ bytes pre mid after a b url tail, env.handshake.stream = some bytes →
      answer_reads (c_string (bytes.take 1023)) pre mid after a b url tail →
      (Handshake env.handshake p_sys).ret = .VLC_SUCCESS →
      (ParseURL url p_sys.i_submit_port).ret = .VLC_SUCCESS ∧ 33 ≤ after.length ∧
      ∃ q, q = { p_sys with
                 b_handshaked := true, i_interval := 0, next_exchange := env.mdate_handshake,
                 psz_auth_token := after.take 32,
                 psz_submit_host := (ParseURL url p_sys.i_submit_port).psz_host,
                 psz_submit_file := (ParseURL url p_sys.i_submit_port).psz_file,
                 i_submit_port := (ParseURL url p_sys.i_submit_port).i_port } ∧
        Run_handshake env p_sys =
          .ok (q, (Handshake env.handshake p_sys).psz_handshake_url) ∧
        Run_iteration env p_sys =
          Run_exchange env q (Run_submit q)
            (Handshake env.handshake p_sys).psz_handshake_url) ∧
    ((Handshake env.handshake p_sys).ret = .VLC_EGENERIC →
      (Run_iteration env p_sys).exit = .handshake_later ∧
      (Run_iteration env p_sys).p_sys.b_handshaked = false ∧
      ((Run_iteration env p_sys).p_sys.next_exchange,
        (Run_iteration env p_sys).p_sys.i_interval) =
        HandleInterval env.mdate_handshake p_sys.i_interval ∧
      (Run_iteration env p_sys).connect = none ∧
      (Run_iteration env p_sys).request = none) := by
  refine ⟨?_, ?_, ?_⟩
  · intro hret
    obtain ⟨bytes, tok, hs, hpr, -⟩ := Handshake_success env.handshake p_sys hret
    obtain ⟨pre, mid, after, a, b, url, tail, hr⟩ := Handshake_parse_success_reads _ _ hpr
    exact ⟨bytes, pre, mid, after, a, b, url, tail, hs, hr⟩
  · intro bytes pre mid after a b url tail hs hr hret
    obtain ⟨bytes', tok, hs', hpr, hst⟩ := Handshake_success env.handshake p_sys hret
    rw [hs] at hs'
    cases hs'
    obtain ⟨f3, hlen, f4⟩ := Handshake_parse_success_stores _ _ pre mid after a b url tail hr hpr
    have hh : Run_handshake env p_sys = .ok
        ({ (Handshake env.handshake p_sys).p_sys with
            b_handshaked := true, i_interval := 0, next_exchange := env.mdate_handshake },
          (Handshake env.handshake p_sys).psz_handshake_url) := by
      unfold Run_handshake
      rw [if_pos hb]
      dsimp only
      rw [hret]
    refine ⟨f3, hlen, _, ?_, hh, Run_iteration_of_ok env p_sys _ _ hd hw hh⟩
    rw [hst, f4]
  · intro hret
    have hh : Run_handshake env p_sys = .error
        { p_sys := handle_interval (Handshake env.handshake p_sys).p_sys env.mdate_handshake,
          exit := .handshake_later,
          psz_handshake_url := (Handshake env.handshake p_sys).psz_handshake_url,
          connect := none, request := none } := by
      unfold Run_handshake
      rw [if_pos hb]
      dsimp only
      rw [hret]
    rw [Run_iteration_of_error env p_sys _ hd hw hh]
    obtain ⟨tok, host, port, file, hf⟩ := Handshake_frame env.handshake p_sys
    refine ⟨rfl, ?_, ?_, rfl, rfl⟩
    · show (handle_interval (Handshake env.handshake p_sys).p_sys env.mdate_handshake).b_handshaked
        = false
      rw [hf]
      exact hb
    · show ((handle_interval (Handshake env.handshake p_sys).p_sys
          env.mdate_handshake).next_exchange,
        (handle_interval (Handshake env.handshake p_sys).p_sys env.mdate_handshake).i_interval)
        = _
      rw [hf]
      rfl

/-- An instance of C20: a fresh plugin handshakes and is answered `OK`, the
token `token_32`, a first URL and the submission URL `post.example:80/submit`;
it goes on authenticated with that token and the address `post.example`, 80,
`submit`. -/
theorem C20_handshake_transitions_witness :
    ∃ q, Run_handshake
        (handshaking ("OK\n".toList ++ token_32 ++
          "\nhttp://np.example/path\nhttp://post.example:80/submit\n".toList) 5020000000)
        Open = .ok (q, (Handshake (handshake_answering ("OK\n".toList ++ token_32 ++
          "\nhttp://np.example/path\nhttp://post.example:80/submit\n".toList))
          Open).psz_handshake_url) ∧
      q.b_handshaked = true ∧ q.psz_auth_token = token_32 ∧
      q.psz_submit_host = some "post.example".toList ∧ q.i_submit_port = 80 ∧
      q.psz_submit_file = some "submit".toList ∧
      q.i_interval = 0 ∧ q.next_exchange = 5020000000 := by
  obtain ⟨-, -, q, hq, h1, -⟩ := (C20_handshake_transitions
    (handshaking ("OK\n".toList ++ token_32 ++
      "\nhttp://np.example/path\nhttp://post.example:80/submit\n".toList) 5020000000)
    Open rfl (by decide) rfl).2.1
    ("OK\n".toList ++ token_32 ++
      "\nhttp://np.example/path\nhttp://post.example:80/submit\n".toList)
    [] [] (token_32 ++ "\nhttp://np.example/path\nhttp://post.example:80/submit\n".toList)
    (token_32 ++ "\n".toList) "np.example/path\n".toList "post.example:80/submit".toList
    "\n".toList rfl (by decide) (by decide)
  refine ⟨q, h1, ?_⟩
  rw [hq]
  refine ⟨rfl, rfl, ?_, ?_, ?_, rfl, rfl⟩ <;> decide

/-! ## The artist pointer of a song marked for submission -/

/-- The answer to a submission leaves the fields of the callbacks as they are. -/
theorem Run_response_song (p_sys : intf_sys_t) (p_buffer : List Char) (mdate : Int) :
    (Run_response p_sys p_buffer mdate).1.b_submit = p_sys.b_submit ∧
    (Run_response p_sys p_buffer mdate).1.b_meta_read = p_sys.b_meta_read ∧
    (Run_response p_sys p_buffer mdate).1.psz_a_freed = p_sys.psz_a_freed := by
  unfold Run_response
  repeat' (first | split | dsimp only)
  all_goals exact ⟨rfl, rfl, rfl⟩

theorem Run_exchange_song (env : RunEnv) (p_sys : intf_sys_t) (psz_submit : List Char)
    (url : Option (List Char)) :
    (Run_exchange env p_sys psz_submit url).p_sys.b_submit = p_sys.b_submit ∧
    (Run_exchange env p_sys psz_submit url).p_sys.b_meta_read = p_sys.b_meta_read ∧
    (Run_exchange env p_sys psz_submit url).p_sys.psz_a_freed = p_sys.psz_a_freed := by
  unfold Run_exchange
  repeat' (first | split | dsimp only)
  all_goals first | exact ⟨rfl, rfl, rfl⟩ | exact Run_response_song _ _ _

theorem Run_handshake_song (env : RunEnv) (p_sys : intf_sys_t) :
    (∀ r, Run_handshake env p_sys = .error r →
      r.p_sys.b_submit = p_sys.b_submit ∧ r.p_sys.b_meta_read = p_sys.b_meta_read ∧
      r.p_sys.psz_a_freed = p_sys.psz_a_freed) ∧
    (∀ q url, Run_handshake env p_sys = .ok (q, url) →
      q.b_submit = p_sys.b_submit ∧ q.b_meta_read = p_sys.b_meta_read ∧
      q.psz_a_freed = p_sys.psz_a_freed) := by
  obtain ⟨tok, host, port, file, h⟩ := Handshake_frame env.handshake p_sys
  constructor
  · intro r hr
    unfold Run_handshake at hr
    by_cases hb : p_sys.b_handshaked = false
    · rw [if_pos hb] at hr
      dsimp only at hr
      cases hret : (Handshake env.handshake p_sys).ret <;> rw [hret] at hr <;>
        dsimp only at hr <;> cases hr <;> simp [h, handle_interval]
    · rw [if_neg hb] at hr
      cases hr
  · intro q url hq
    unfold Run_handshake at hq
    by_cases hb : p_sys.b_handshaked = false
    · rw [if_pos hb] at hq
      dsimp only at hq
      cases hret : (Handshake env.handshake p_sys).ret <;> rw [hret] at hq <;>
        dsimp only at hq <;> cases hq
      simp [h]
    · rw [if_neg hb] at hq
      cases hq
      exact ⟨rfl, rfl, rfl⟩

/-- A turn of the loop leaves the fields of the callbacks as they are. -/
theorem Run_iteration_song (env : RunEnv) (p_sys : intf_sys_t) :
    (Run_iteration env p_sys).p_sys.b_submit = p_sys.b_submit ∧
    (Run_iteration env p_sys).p_sys.b_meta_read = p_sys.b_meta_read ∧
    (Run_iteration env p_sys).p_sys.psz_a_freed = p_sys.psz_a_freed := by
  rcases Run_iteration_cases env p_sys with ⟨h, -⟩ | ⟨h, -⟩ | ⟨r, hr, h⟩ | ⟨q, url, hq, h⟩
  · rw [h]
    exact ⟨rfl, rfl, rfl⟩
  · rw [h]
    exact ⟨rfl, rfl, rfl⟩
  · rw [h]
    exact (Run_handshake_song env p_sys).1 r hr
  · rw [h]
    obtain ⟨h1, h2, h3⟩ := Run_exchange_song env q (Run_submit q) url
    obtain ⟨k1, k2, k3⟩ := (Run_handshake_song env p_sys).2 q url hq
    exact ⟨h1.trans k1, h2.trans k2, h3.trans k3⟩

/-- Called while no song is marked for submission, `ReadMetaData` marks a
song for submission only with `b_meta_read` set and an artist that is not
freed. -/
theorem ReadMetaData_song (env : InputEnv) (p_sys : intf_sys_t)
    (h : p_sys.b_submit = false) (hs : (ReadMetaData env p_sys).2.b_submit = true) :
    (ReadMetaData env p_sys).2.b_meta_read = true ∧
    (ReadMetaData env p_sys).2.psz_a_freed = false := by
  unfold ReadMetaData at hs ⊢
  repeat' (first | split at hs | dsimp only at hs)
  all_goals first
    | (rw [h] at hs; cases hs)
    | (simp only [*]; exact ⟨trivial, trivial⟩)

theorem ItemChange_song (env : InputEnv) (p_sys : intf_sys_t)
    (h : p_sys.b_submit = true → p_sys.b_meta_read = true ∧ p_sys.psz_a_freed = false) :
    (ItemChange env p_sys).b_submit = true →
      (ItemChange env p_sys).b_meta_read = true ∧ (ItemChange env p_sys).psz_a_freed = false := by
  unfold ItemChange
  repeat' (first | split | dsimp only)
  all_goals first
    | exact h
    | (intro hs; cases hs)
    | (refine ReadMetaData_song env _ ?_; rfl)

theorem PlayingChange_song (st : input_states) (env : InputEnv) (mdate oldval newval : Int)
    (p_sys : intf_sys_t)
    (h : p_sys.b_submit = true → p_sys.b_meta_read = true ∧ p_sys.psz_a_freed = false) :
    (PlayingChange st env mdate oldval newval p_sys).b_submit = true →
      (PlayingChange st env mdate oldval newval p_sys).b_meta_read = true ∧
      (PlayingChange st env mdate oldval newval p_sys).psz_a_freed = false := by
  unfold PlayingChange
  split
  · exact h
  · split
    · rename_i hm
      have hsub : p_sys.b_submit = false := by
        cases hb : p_sys.b_submit with
        | false => rfl
        | true =>
          have := (h hb).1
          rw [hm.1] at this
          cases this
      exact ReadMetaData_song env p_sys hsub
    · split
      · intro hs
        rw [(AddToQueue_twice p_sys mdate 0).2.2.2.2.2.1] at hs
        cases hs
      · split
        · exact h
        · split
          · exact h
          · exact h

/-- Every step keeps this: a song marked for submission has its metadata
read and an artist pointer that does not dangle. -/
theorem step_song (p_sys : intf_sys_t) (e : Event)
    (h : p_sys.b_submit = true → p_sys.b_meta_read = true ∧ p_sys.psz_a_freed = false) :
    (step p_sys e).b_submit = true →
      (step p_sys e).b_meta_read = true ∧ (step p_sys e).psz_a_freed = false := by
  cases e with
  | ItemChange env => exact ItemChange_song env p_sys h
  | PlayingChange st env mdate oldval newval =>
    exact PlayingChange_song st env mdate oldval newval p_sys h
  | Run env =>
    show (Run_iteration env p_sys).p_sys.b_submit = true →
      (Run_iteration env p_sys).p_sys.b_meta_read = true ∧
      (Run_iteration env p_sys).p_sys.psz_a_freed = false
    obtain ⟨h1, h2, h3⟩ := Run_iteration_song env p_sys
    rw [h1, h2, h3]
    exact h

/-- In every state reached from `Open`, a song marked for submission has an
artist pointer that does not dangle: `AddToQueue` reads the artist of such a
song within defined behaviour. -/
theorem run_song (events : List Event) :
    (run Open events).b_submit = true → (run Open events).psz_a_freed = false := by
  have hgen : ∀ (es : List Event) (p : intf_sys_t),
      (p.b_submit = true → p.b_meta_read = true ∧ p.psz_a_freed = false) →
      (run p es).b_submit = true →
        (run p es).b_meta_read = true ∧ (run p es).psz_a_freed = false := by
    intro es
    induction es with
    | nil => exact fun p h => h
    | cons e es ih => exact fun p h => ih (step p e) (step_song p e h)
  intro hs
  exact (hgen events Open (fun h => by cases h) hs).2

end Audioscrobbler
